import Mathlib

/-!
PION onboarding (`ndnob::pake`): the Authenticator and Device state machines.

Shallow embedding of `src/ndnob/pake/authenticator.cpp` and
`src/ndnob/pake/device.cpp`.

* Member functions become pure functions on the endpoint record; a call
  returns the C++ return value (when there is one), the endpoint after the
  call and the list of `Event`s (calls into the transport, the SPAKE2 context
  and the encrypt session) it performed, in program order.
* Collaborators that are not part of the two source files are parameters:
  `Lib` holds the pure, call-independent library functions (TLV type numbers,
  name and packet codecs, digests, signature verification), `Env` holds the
  outcome of every call whose result depends on hidden state (wall clock,
  entropy, arenas, the pending-request tracker, the SPAKE2 context, AES-GCM).
  Every operation takes the `Env` of that one call, so different calls may see
  different outcomes.
* A TLV stream is modelled by its sequence of elements (`Value`), not by its
  bytes.
-/

namespace ndnob.pake

/-! ## Packets -/

abbrev Bytes := List Nat

/-- Name component: TLV-TYPE and TLV-VALUE. -/
structure Component where
  type : Nat
  value : Bytes
deriving DecidableEq, Repr

abbrev Name := List Component

/-- One TLV element as seen by `ndnph::Decoder`; `d.length` is `value.length`. -/
structure Tlv where
  type : Nat
  value : Bytes
deriving DecidableEq, Repr

def Tlv.length (d : Tlv) : Nat := d.value.length

/-- The `ndnph::tlv::Value` of a Content or AppParameters field, as its decoder
sees it: the elements it iterates over, and whether iteration ends without a
decoding error. -/
structure Value where
  elems : List Tlv
  ok : Bool
deriving DecidableEq, Repr

structure Interest where
  name : Name
  appParameters : Value
deriving DecidableEq, Repr

structure Data where
  name : Name
  content : Value
  sigInfo : Bytes
  sigValue : Bytes
deriving DecidableEq, Repr

structure ValidityPeriod where
  notBefore : Nat
  notAfter : Nat
deriving DecidableEq, Repr

def ValidityPeriod.includes (v : ValidityPeriod) (t : Nat) : Bool :=
  decide (v.notBefore ≤ t) && decide (t ≤ v.notAfter)

structure EcPublicKey where
  raw : Bytes
deriving DecidableEq, Repr

structure EcPrivateKey where
  raw : Bytes
deriving DecidableEq, Repr

/-- The `PacketInfo` of the packet being dispatched (`getCurrentPacketInfo()`). -/
structure PacketInfo where
  endpointId : Nat
  pitToken : Nat
deriving DecidableEq, Repr

/-- AES-GCM output: `{IV, AuthTag, EncryptedPayload}`. -/
structure Encrypted where
  iv : Bytes
  tag : Bytes
  ciphertext : Bytes
deriving DecidableEq, Repr

/-- The symbolic TLV-TYPE registry `TT::…` used by the codecs. -/
inductive TT where
  | Spake2T | Spake2S | Spake2Fkcb | Spake2Fkca
  | Nc | CaProfileName | AuthenticatorCertName | DeviceName
  | TimestampNameComponent | TReq | IssuedCertName
  | InitializationVector | AuthenticationTag | EncryptedPayload
deriving DecidableEq, Repr

/-- CA profile as held by the Device (`m_caProfile.cert`, `m_caProfile.pub`). -/
structure CaProfile where
  cert : Data
  pub : EcPublicKey
deriving DecidableEq, Repr

/-! ## SPAKE2 context and encrypt session -/

inductive Role where
  | Alice | Bob
deriving DecidableEq, Repr

/-- The object behind `m_spake2` (`spake2::Context<>`): the role it was created
with and the password given to `start`. Its internal protocol state is hidden;
the outcome of each step comes from the `Env` of the call. -/
structure Spake2Context where
  role : Role
  password : Bytes
deriving DecidableEq, Repr

inductive Spake2Step where
  | generateFirstMessage | processFirstMessage
  | generateSecondMessage | processSecondMessage
deriving DecidableEq, Repr

/-- Modelled from the spec: `EncryptSession` (declared outside the two source
files) owns `{sessionId, sharedKey?}`; the IV counter is left to `Env.encrypt`. -/
structure EncryptSession where
  sessionId : Option Component
  key : Option Bytes
deriving DecidableEq, Repr

/-- Long-lived arena `m_region`: the number of live allocations. -/
structure Region where
  used : Nat
deriving DecidableEq, Repr

def Region.reset (_r : Region) : Region := ⟨0⟩

def Region.alloc (r : Region) (ok : Bool) : Region :=
  if ok then ⟨r.used + 1⟩ else r

/-! ## Library and per-call environment -/

/-- Pure library functions and constants used by both endpoints. -/
structure Lib where
  tt : TT → Nat
  sizeofSpake2T : Nat
  sizeofSpake2S : Nat
  sizeofSpake2Fkcb : Nat
  sizeofSpake2Fkca : Nat
  TempCertValidity : Nat
  isCritical : Nat → Bool
  getLocalhopOnboardingPrefix : Name
  getPakeComponent : Component
  getConfirmComponent : Component
  getCredentialComponent : Component
  isImplicitDigest : Component → Bool
  encodeName : Name → Bytes
  decodeName : Bytes → Option Name
  encodeNni : Nat → Bytes
  decodeNni : Bytes → Option Nat
  encodeData : Data → Bytes
  decodeData : Bytes → Option Data
  decodeDataPartial : Bytes → Data
  paramsDigest : Value → Component
  checkDigest : Interest → Bool
  implicitDigest : Data → Component
  interestMatch : Interest → Data → Bool
  computeTempSubjectName : Name → Name → Name
  toSubjectName : Name → Name
  getValidity : Data → ValidityPeriod
  ValidityPeriod_getMax : ValidityPeriod
  verify : Data → EcPublicKey → Bool
  nullSigInfo : Bytes
  nullSigValue : Bytes

/-- Outcomes of the external calls made during ONE operation of an endpoint. -/
structure Env where
  /-- Result of `time(nullptr)`. -/
  now : Nat
  /-- Current time in microseconds, `ndnph::convention::TimeValue()`. -/
  timeValue : Nat
  currentPacketInfo : PacketInfo
  /-- Result of `m_pending.expired()`. -/
  expired : Bool
  /-- Result of `m_pending.matchPitToken()`. -/
  matchPitToken : Bool
  /-- Result of `m_pending.match(data, name)`. -/
  pendingMatch : Data → Name → Bool
  /-- Result of `m_pending.send(interest[, WithEndpointId])`; `none` is an
  Interest that could not be built. -/
  pendingSend : Option Interest → Option Nat → Bool
  /-- Result of `send(data, pktinfo)`. -/
  send : Option Data → PacketInfo → Bool
  /-- Result of `reply(data)`. -/
  reply : Option Data → Bool
  /-- Whether `region.create<Interest>()` on the scratch region succeeded. -/
  createInterest : Bool
  /-- Whether `region.create<Data>()` on the scratch region succeeded. -/
  createData : Bool
  /-- Whether `m_region.create<Data>()` on the long-lived region succeeded. -/
  createIssued : Bool
  /-- Whether the `Encoder` of the operation did not overflow (`!!encoder`). -/
  encoderOk : Bool
  /-- Whether `getFullName(region)` could allocate its result. -/
  fullNameOk : Data → Bool
  /-- Whether `name.clone(m_region)` could allocate its result. -/
  cloneOk : Name → Bool
  /-- Whether `computeTempSubjectName(region, …)` could allocate its result. -/
  subjectNameOk : Bool
  /-- Result of `m_session.begin(m_region)`: the fresh session identifier, if any. -/
  sessionBegin : Option Component
  /-- Result of `m_session.assign(m_region, name)`: the identifier bound, if accepted. -/
  sessionAssign : EncryptSession → Name → Option Component
  /-- Result of `m_session.importKey(key)`. -/
  importKey : EncryptSession → Bytes → Bool
  /-- Result of `m_session.encrypt(region, plaintext…)`. -/
  encrypt : EncryptSession → List Tlv → Option Encrypted
  /-- Result of `m_session.decrypt(region, encrypted)`. -/
  decrypt : EncryptSession → Encrypted → Option Value
  /-- Result of `m_spake2->start(password)`. -/
  spake2Start : Role → Bytes → Bool
  generateFirstMessage : Spake2Context → Option Bytes
  processFirstMessage : Spake2Context → Bytes → Bool
  generateSecondMessage : Spake2Context → Option Bytes
  processSecondMessage : Spake2Context → Bytes → Bool
  getSharedKey : Spake2Context → Bytes
  /-- Result of `tPub.import(region, tempCertReq)`. -/
  importPublicKey : Data → Option EcPublicKey
  /-- Wire of `tPub.buildCertificate(region, subject, validity, signer)` prepended
  to an `Encoder` on `m_region`; `none` when `!encoder`. -/
  buildCertificate : EcPublicKey → Name → ValidityPeriod → EcPrivateKey → Option Bytes
  /-- Result of `ndnph::ec::generate(region, subject, pvt, pub)`. -/
  ecGenerate : Name → Option (EcPrivateKey × EcPublicKey)
  /-- Result of `pub.selfSign(region, validity, pvt)`. -/
  selfSign : EcPublicKey → ValidityPeriod → EcPrivateKey → Option Data
  /-- Result of `m_caProfile.fromData(m_region, data)`. -/
  caProfileFromData : CaProfile → Data → Bool × CaProfile

/-- A call into a collaborator, with its outcome. -/
inductive Event where
  | spake2 (step : Spake2Step) (ok : Bool)
  | importKey (key : Bytes) (ok : Bool)
  | pendingSend (interest : Option Interest) (endpointId : Option Nat) (ok : Bool)
  | send (data : Option Data) (info : PacketInfo) (ok : Bool)
  | reply (data : Option Data) (ok : Bool)
deriving DecidableEq, Repr

/-! ## Helpers shared by the codecs -/

/-- The bytes of a fixed-size array `uint8_t a[n]` holding `b`. -/
def arrayOf (n : Nat) (b : Bytes) : Bytes :=
  b.take n ++ List.replicate (n - b.length) 0

/-- Component `name[-1]`: the last one, an empty component for the empty name. -/
def Name.last (n : Name) : Component :=
  n.getLast?.getD ⟨0, []⟩

/-- Component `name[-2]`. -/
def Name.secondLast (n : Name) : Component :=
  n.dropLast.getLast?.getD ⟨0, []⟩

/-- Full name `packet.getFullName(region)`: the name with the implicit digest appended,
the empty name when the region is exhausted. -/
def getFullName (L : Lib) (E : Env) (d : Data) : Name :=
  if E.fullNameOk d then d.name ++ [L.implicitDigest d] else []

/-- Copy `name.clone(m_region)`. -/
def Name.clone (E : Env) (n : Name) : Name :=
  if E.cloneOk n then n else []

/-- Result of `interest.parameterize(value)`: AppParameters plus the parameters digest
appended to the name. -/
def Interest.parameterize (L : Lib) (name : Name) (v : Value) : Interest :=
  { name := name ++ [L.paramsDigest v], appParameters := v }

/-- A Data with the given name and content, signed with `ndnph::NullKey`
(`data.setName(…); data.setContent(…); data.sign(NullKey::get())`). -/
def Data.signNull (L : Lib) (name : Name) (content : Value) : Data :=
  { name := name, content := content, sigInfo := L.nullSigInfo, sigValue := L.nullSigValue }

/-- The three elements an `Encrypted` encodes to. -/
def Encrypted.encode (L : Lib) (e : Encrypted) : List Tlv :=
  [⟨L.tt .InitializationVector, e.iv⟩, ⟨L.tt .AuthenticationTag, e.tag⟩,
   ⟨L.tt .EncryptedPayload, e.ciphertext⟩]

namespace EncryptSession

def «end» (_s : EncryptSession) : EncryptSession := ⟨none, none⟩

def begin (E : Env) (s : EncryptSession) : Bool × EncryptSession :=
  match E.sessionBegin with
  | some sid => (true, { s with sessionId := some sid })
  | none => (false, s)

def assign (E : Env) (s : EncryptSession) (name : Name) : Bool × EncryptSession :=
  match E.sessionAssign s name with
  | some sid => (true, { s with sessionId := some sid })
  | none => (false, s)

/-- Name `<onboardingPrefix>/<sessionId>/<verb>`. -/
def makeName (L : Lib) (s : EncryptSession) (verb : Component) : Name :=
  match s.sessionId with
  | some sid => L.getLocalhopOnboardingPrefix ++ [sid, verb]
  | none => []

def importKey (E : Env) (s : EncryptSession) (key : Bytes) : Bool × EncryptSession :=
  if E.importKey s key then (true, { s with key := some key }) else (false, s)

end EncryptSession

/-! ## EvDecoder -/

/-- One `EvDecoder::def<TT>(f)` rule: `f` returns `none` for `false`. -/
structure EvRule (σ : Type) where
  tt : Nat
  f : Tlv → σ → Option σ

/-- Dispatch of the elements of the input to the rules, in input order; an
element no rule recognises fails the decode when its type is critical and is
skipped otherwise. -/
def EvDecoder.decodeElements {σ : Type} (isCritical : Nat → Bool) (rules : List (EvRule σ)) :
    List Tlv → σ → Option σ
  | [], s => some s
  | d :: ds, s =>
    match rules.find? (fun r => r.tt == d.type) with
    | some r =>
      match r.f d s with
      | some s1 => EvDecoder.decodeElements isCritical rules ds s1
      | none => none
    | none =>
      if isCritical d.type then none
      else EvDecoder.decodeElements isCritical rules ds s

/-- Call `EvDecoder::decodeValue(input.makeDecoder(), defs…)`. -/
def EvDecoder.decodeValue {σ : Type} (L : Lib) (input : Value) (rules : List (EvRule σ))
    (s : σ) : Option σ :=
  match EvDecoder.decodeElements L.isCritical rules input.elems s with
  | some s1 => if input.ok then some s1 else none
  | none => none

/-- Rules `EvDecoder::def<TT::…>(&encrypted)` for the three fields of `Encrypted`. -/
def Encrypted.rules {σ : Type} (L : Lib) (set : σ → Encrypted → σ) (get : σ → Encrypted) :
    List (EvRule σ) :=
  [ ⟨L.tt .InitializationVector, fun d s => some (set s { get s with iv := d.value })⟩,
    ⟨L.tt .AuthenticationTag, fun d s => some (set s { get s with tag := d.value })⟩,
    ⟨L.tt .EncryptedPayload, fun d s => some (set s { get s with ciphertext := d.value })⟩ ]

/-! ## Packet structs (`packet_struct::…`) -/

namespace packet_struct

structure PakeRequest where
  spake2T : Bytes
deriving DecidableEq, Repr

structure PakeResponse where
  spake2S : Bytes
  spake2Fkcb : Bytes
deriving DecidableEq, Repr

structure ConfirmRequest where
  spake2Fkca : Bytes
  nc : Bytes
  caProfileName : Name
  authenticatorCertName : Name
  deviceName : Name
  timestamp : Nat
deriving DecidableEq, Repr

structure ConfirmResponse where
  tempCertReq : Option Data
deriving DecidableEq, Repr

structure CredentialRequest where
  tempCertName : Name
deriving DecidableEq, Repr

end packet_struct

/-- Result of `computeTempSubjectName(region, certName, deviceName)`: the empty
name when the region is exhausted. -/
def computeTempSubjectName (L : Lib) (E : Env) (certName deviceName : Name) : Name :=
  if E.subjectNameOk then L.computeTempSubjectName certName deviceName else []

/-! ## Authenticator -/

namespace Authenticator

inductive State where
  | Idle | SendPakeRequest | WaitPakeResponse | WaitConfirmResponse
  | SendCredentialRequest | WaitCredentialResponse | Success | Failure
deriving DecidableEq, Repr

end Authenticator

structure Authenticator where
  m_caProfile : Data
  m_cert : Data
  m_pvt : EcPrivateKey
  m_nc : Bytes
  m_deviceName : Name
  m_state : Authenticator.State
  m_session : EncryptSession
  m_spake2 : Option Spake2Context
  m_region : Region
  m_issued : Option Data
deriving DecidableEq, Repr

namespace Authenticator

/-- The scoped `GotoState` object of a handler. -/
structure GotoState where
  m_set : Bool := false
deriving DecidableEq, Repr

/-- Call `gotoState(state)`: sets the state, remembers that it was set, returns `true`. -/
def GotoState.call (g : GotoState) (a : Authenticator) (state : State) :
    Bool × Authenticator × GotoState :=
  (true, { a with m_state := state }, { g with m_set := true })

/-- Destructor `~GotoState()`, run when the handler leaves the scope. -/
def GotoState.destroy (g : GotoState) (a : Authenticator) : Authenticator :=
  if !g.m_set then { a with m_state := State.Failure } else a

/-- Encoder `Authenticator::PakeRequest::toInterest`; `none` is the empty
`Interest::Parameterized`. -/
def PakeRequest.toInterest (L : Lib) (E : Env) (self : packet_struct.PakeRequest)
    (session : EncryptSession) : Option Interest :=
  let encoder : List Tlv := [⟨L.tt .Spake2T, arrayOf L.sizeofSpake2T self.spake2T⟩]
  if !E.encoderOk || !E.createInterest then none
  else some (Interest.parameterize L (session.makeName L L.getPakeComponent) ⟨encoder, true⟩)

/-- Decoder `Authenticator::PakeResponse::fromData`; `none` is `false`. -/
def PakeResponse.fromData (L : Lib) (data : Data) : Option packet_struct.PakeResponse :=
  EvDecoder.decodeValue L data.content
    [ ⟨L.tt .Spake2S, fun d (s : packet_struct.PakeResponse) =>
        if d.length == L.sizeofSpake2S then some { s with spake2S := d.value } else none⟩,
      ⟨L.tt .Spake2Fkcb, fun d (s : packet_struct.PakeResponse) =>
        if d.length == L.sizeofSpake2Fkcb then some { s with spake2Fkcb := d.value } else none⟩ ]
    { spake2S := arrayOf L.sizeofSpake2S [], spake2Fkcb := arrayOf L.sizeofSpake2Fkcb [] }

/-- Encoder `Authenticator::ConfirmRequest::toInterest`. The timestamp field of
the struct is not used: the current `TimeValue()` is sent. -/
def ConfirmRequest.toInterest (L : Lib) (E : Env) (self : packet_struct.ConfirmRequest)
    (session : EncryptSession) : Option Interest :=
  let encrypted := E.encrypt session
    [ ⟨L.tt .Nc, self.nc⟩,
      ⟨L.tt .CaProfileName, L.encodeName self.caProfileName⟩,
      ⟨L.tt .AuthenticatorCertName, L.encodeName self.authenticatorCertName⟩,
      ⟨L.tt .DeviceName, L.encodeName self.deviceName⟩,
      ⟨L.tt .TimestampNameComponent, L.encodeNni (E.timeValue % 2 ^ 64)⟩ ]
  match encrypted with
  | none => none
  | some enc =>
    let outer : List Tlv :=
      ⟨L.tt .Spake2Fkca, arrayOf L.sizeofSpake2Fkca self.spake2Fkca⟩ :: enc.encode L
    if !E.encoderOk || !E.createInterest then none
    else some (Interest.parameterize L (session.makeName L L.getConfirmComponent) ⟨outer, true⟩)

/-- The fields of `Authenticator::ConfirmResponse`: the decoded `tempCertReq`
(null until decoded) and the imported public key `tPub`. -/
structure ConfirmResponse where
  tempCertReq : Option Data := none
  tPub : EcPublicKey := ⟨[]⟩
deriving DecidableEq, Repr

/-- Decoder `Authenticator::ConfirmResponse::fromData`; `none` is `false`. -/
def ConfirmResponse.fromData (L : Lib) (E : Env) (data : Data) (session : EncryptSession) :
    Option ConfirmResponse :=
  match EvDecoder.decodeValue L data.content
      (Encrypted.rules L (fun _ e => e) (fun e => e)) (⟨[], [], []⟩ : Encrypted) with
  | none => none
  | some encrypted =>
    match E.decrypt session encrypted with
    | none => none
    | some inner =>
      EvDecoder.decodeValue L inner
        [ ⟨L.tt .TReq, fun d (s : ConfirmResponse) =>
            if !E.createData then none
            else
              match L.decodeData d.value with
              | none => none
              | some tempCertReq =>
                match E.importPublicKey tempCertReq with
                | none => none
                | some tPub => some { s with tempCertReq := some tempCertReq, tPub := tPub }⟩ ]
        {}

/-- Encoder `Authenticator::CredentialRequest::toInterest`. -/
def CredentialRequest.toInterest (L : Lib) (E : Env) (self : packet_struct.CredentialRequest)
    (session : EncryptSession) : Option Interest :=
  let encrypted := E.encrypt session [⟨L.tt .IssuedCertName, L.encodeName self.tempCertName⟩]
  match encrypted with
  | none => none
  | some enc =>
    if !E.createInterest then none
    else some (Interest.parameterize L (session.makeName L L.getCredentialComponent)
      ⟨enc.encode L, true⟩)

/-- Method `Authenticator::end`. -/
def «end» (a : Authenticator) : Authenticator :=
  { a with
    m_session := a.m_session.end
    m_spake2 := none
    m_state := State.Idle
    m_region := a.m_region.reset }

/-- Method `Authenticator::begin`. -/
def begin (E : Env) (a : Authenticator) (password : Bytes) : Bool × Authenticator :=
  let a := a.end
  let (ok, session) := a.m_session.begin E
  let a := { a with m_session := session, m_region := a.m_region.alloc ok }
  if !ok then (false, a)
  else
    let a := { a with m_spake2 := some ⟨Role.Alice, password⟩ }
    if !E.spake2Start Role.Alice password then (false, a)
    else (true, { a with m_state := State.SendPakeRequest })

/-- Method `Authenticator::sendPakeRequest`. A step on an absent `m_spake2`
(a null dereference in C++) is taken as a failed step. -/
def sendPakeRequest (L : Lib) (E : Env) (a : Authenticator) : Authenticator × List Event :=
  let gotoState : GotoState := {}
  match a.m_spake2.bind E.generateFirstMessage with
  | none => (gotoState.destroy a, [Event.spake2 .generateFirstMessage false])
  | some t =>
    let req : packet_struct.PakeRequest := { spake2T := arrayOf L.sizeofSpake2T t }
    let interest := PakeRequest.toInterest L E req a.m_session
    let sent := E.pendingSend interest none
    let ev := [Event.spake2 .generateFirstMessage true, Event.pendingSend interest none sent]
    if sent then
      let (_, a, gotoState) := gotoState.call a State.WaitPakeResponse
      (gotoState.destroy a, ev)
    else (gotoState.destroy a, ev)

/-- The `bool ok = … && … && … && …` chain of `handlePakeResponse`: the value of
`ok`, the `spake2Fkca` written into the request, the session after `importKey`,
and the calls made (short-circuit evaluation). A step on an absent `m_spake2`
(a null dereference in C++) is taken as a failed step. -/
def pakeResponseSteps (L : Lib) (E : Env) (a : Authenticator) (res : packet_struct.PakeResponse) :
    Bool × Bytes × EncryptSession × List Event :=
  let fkca0 := arrayOf L.sizeofSpake2Fkca []
  match a.m_spake2 with
  | none => (false, fkca0, a.m_session, [Event.spake2 .processFirstMessage false])
  | some ctx =>
    if !E.processFirstMessage ctx res.spake2S then
      (false, fkca0, a.m_session, [Event.spake2 .processFirstMessage false])
    else
      match E.generateSecondMessage ctx with
      | none =>
        (false, fkca0, a.m_session,
          [Event.spake2 .processFirstMessage true, Event.spake2 .generateSecondMessage false])
      | some fkca =>
        if !E.processSecondMessage ctx res.spake2Fkcb then
          (false, arrayOf L.sizeofSpake2Fkca fkca, a.m_session,
            [Event.spake2 .processFirstMessage true, Event.spake2 .generateSecondMessage true,
             Event.spake2 .processSecondMessage false])
        else
          let key := E.getSharedKey ctx
          let (ok, session) := a.m_session.importKey E key
          (ok, arrayOf L.sizeofSpake2Fkca fkca, session,
            [Event.spake2 .processFirstMessage true, Event.spake2 .generateSecondMessage true,
             Event.spake2 .processSecondMessage true, Event.importKey key ok])

/-- Method `Authenticator::handlePakeResponse`. -/
def handlePakeResponse (L : Lib) (E : Env) (a : Authenticator) (data : Data) :
    Bool × Authenticator × List Event :=
  match PakeResponse.fromData L data with
  | none => (false, a, [])
  | some res =>
    let gotoState : GotoState := {}
    let (ok, fkca, session, ev) := pakeResponseSteps L E a res
    let a := { a with m_session := session, m_spake2 := none }
    if !ok then (true, gotoState.destroy a, ev)
    else
      let req : packet_struct.ConfirmRequest :=
        { spake2Fkca := fkca
          nc := a.m_nc
          caProfileName := getFullName L E a.m_caProfile
          authenticatorCertName := getFullName L E a.m_cert
          deviceName := a.m_deviceName
          timestamp := 0 }
      let interest := ConfirmRequest.toInterest L E req a.m_session
      let sent := E.pendingSend interest none
      let ev := ev ++ [Event.pendingSend interest none sent]
      if sent then
        let (_, a, gotoState) := gotoState.call a State.WaitConfirmResponse
        (true, gotoState.destroy a, ev)
      else (true, gotoState.destroy a, ev)

/-- Method `Authenticator::handleConfirmResponse`. The name of a null
`tempCertReq` is taken as the empty name. -/
def handleConfirmResponse (L : Lib) (E : Env) (a : Authenticator) (data : Data) :
    Bool × Authenticator × List Event :=
  match ConfirmResponse.fromData L E data a.m_session with
  | none => (false, a, [])
  | some res =>
    let gotoState : GotoState := {}
    let subjectName := computeTempSubjectName L E a.m_cert.name a.m_deviceName
    if L.toSubjectName ((res.tempCertReq.map (·.name)).getD []) != subjectName then
      (true, gotoState.destroy a, [])
    else
      let now := E.now
      let validity : ValidityPeriod := ⟨now, now + L.TempCertValidity⟩
      match E.buildCertificate res.tPub subjectName validity a.m_pvt with
      | none => (true, gotoState.destroy a, [])
      | some wire =>
        let a := { a with m_region := a.m_region.alloc true }
        if !E.createIssued then
          (false, gotoState.destroy { a with m_issued := none }, [])
        else
          let a := { a with m_region := a.m_region.alloc true }
          match L.decodeData wire with
          | none =>
            (false, gotoState.destroy { a with m_issued := some (L.decodeDataPartial wire) }, [])
          | some issued =>
            let (r, a, gotoState) :=
              gotoState.call { a with m_issued := some issued } State.SendCredentialRequest
            (r, gotoState.destroy a, [])

/-- Method `Authenticator::sendCredentialRequest`. The full name of a null
`m_issued` is taken as the empty name. -/
def sendCredentialRequest (L : Lib) (E : Env) (a : Authenticator) : Authenticator × List Event :=
  let gotoState : GotoState := {}
  let req : packet_struct.CredentialRequest :=
    { tempCertName := (a.m_issued.map (getFullName L E)).getD [] }
  if req.tempCertName.isEmpty then (gotoState.destroy a, [])
  else
    let interest := CredentialRequest.toInterest L E req a.m_session
    let sent := E.pendingSend interest none
    let ev := [Event.pendingSend interest none sent]
    if sent then
      let (_, a, gotoState) := gotoState.call a State.WaitCredentialResponse
      (gotoState.destroy a, ev)
    else (gotoState.destroy a, ev)

/-- Method `Authenticator::loop`. -/
def loop (L : Lib) (E : Env) (a : Authenticator) : Authenticator × List Event :=
  match a.m_state with
  | State.SendPakeRequest => sendPakeRequest L E a
  | State.SendCredentialRequest => sendCredentialRequest L E a
  | State.WaitPakeResponse | State.WaitConfirmResponse | State.WaitCredentialResponse =>
    if E.expired then ({ a with m_state := State.Failure }, []) else (a, [])
  | _ => (a, [])

/-- Method `Authenticator::processData`. -/
def processData (L : Lib) (E : Env) (a : Authenticator) (data : Data) :
    Bool × Authenticator × List Event :=
  if !E.matchPitToken then (false, a, [])
  else
    match a.m_state with
    | State.WaitPakeResponse => handlePakeResponse L E a data
    | State.WaitConfirmResponse => handleConfirmResponse L E a data
    | State.WaitCredentialResponse => (true, { a with m_state := State.Success }, [])
    | _ => (false, a, [])

/-- Method `Authenticator::processInterest`. -/
def processInterest (L : Lib) (E : Env) (a : Authenticator) (interest : Interest) :
    Bool × Authenticator × List Event :=
  if L.interestMatch interest a.m_caProfile then
    let r := E.reply (some a.m_caProfile)
    (r, a, [Event.reply (some a.m_caProfile) r])
  else if L.interestMatch interest a.m_cert then
    let r := E.reply (some a.m_cert)
    (r, a, [Event.reply (some a.m_cert) r])
  else
    match a.m_issued with
    | some issued =>
      if L.interestMatch interest issued then
        let r := E.reply (some issued)
        (r, a, [Event.reply (some issued) r])
      else (false, a, [])
    | none => (false, a, [])

end Authenticator

/-! ## Device -/

namespace Device

inductive State where
  | Idle | WaitPakeRequest | WaitConfirmRequest
  | FetchCaProfile | WaitCaProfile
  | FetchAuthenticatorCert | WaitAuthenticatorCert
  | WaitCredentialRequest
  | FetchTempCert | WaitTempCert
  | Success | Failure
deriving DecidableEq, Repr

end Device

structure Device where
  m_state : Device.State
  m_session : EncryptSession
  m_spake2 : Option Spake2Context
  m_region : Region
  m_lastInterestName : Name
  m_lastInterestPacketInfo : PacketInfo
  m_caProfileName : Name
  m_authenticatorCertName : Name
  m_deviceName : Name
  m_tempCertName : Name
  m_caProfile : CaProfile
  m_tPvt : Option EcPrivateKey
  m_tPub : Option EcPublicKey
deriving DecidableEq, Repr

namespace Device

/-- The scoped `GotoState` object of a handler. -/
structure GotoState where
  m_set : Bool := false
deriving DecidableEq, Repr

/-- Call `gotoState(state)`: sets the state, remembers that it was set, returns `true`. -/
def GotoState.call (g : GotoState) (d : Device) (state : State) :
    Bool × Device × GotoState :=
  (true, { d with m_state := state }, { g with m_set := true })

/-- Destructor `~GotoState()`, run when the handler leaves the scope. -/
def GotoState.destroy (g : GotoState) (d : Device) : Device :=
  if !g.m_set then { d with m_state := State.Failure } else d

/-- Decoder `Device::PakeRequest::fromInterest`; `none` is `false`. -/
def PakeRequest.fromInterest (L : Lib) (interest : Interest) : Option packet_struct.PakeRequest :=
  EvDecoder.decodeValue L interest.appParameters
    [ ⟨L.tt .Spake2T, fun d (s : packet_struct.PakeRequest) =>
        if d.length == L.sizeofSpake2T then some { s with spake2T := d.value } else none⟩ ]
    { spake2T := arrayOf L.sizeofSpake2T [] }

/-- Encoder `Device::PakeResponse::toData`; `none` is the empty `Data::Signed`. -/
def PakeResponse.toData (L : Lib) (E : Env) (self : packet_struct.PakeResponse)
    (pakeRequest : Interest) : Option Data :=
  let encoder : List Tlv :=
    [ ⟨L.tt .Spake2S, arrayOf L.sizeofSpake2S self.spake2S⟩,
      ⟨L.tt .Spake2Fkcb, arrayOf L.sizeofSpake2Fkcb self.spake2Fkcb⟩ ]
  if !E.encoderOk || !E.createData then none
  else some (Data.signNull L pakeRequest.name ⟨encoder, true⟩)

/-- Decoder `Device::ConfirmRequest::fromInterest`: the struct with `spake2Fkca`
filled in and the encrypted envelope; `none` is `ok == false`. -/
def ConfirmRequest.fromInterest (L : Lib) (interest : Interest) :
    Option (packet_struct.ConfirmRequest × Encrypted) :=
  EvDecoder.decodeValue L interest.appParameters
    (⟨L.tt .Spake2Fkca, fun d (s : packet_struct.ConfirmRequest × Encrypted) =>
        if d.length == L.sizeofSpake2Fkca then some ({ s.1 with spake2Fkca := d.value }, s.2)
        else none⟩ ::
      Encrypted.rules L (fun s e => (s.1, e)) (fun s => s.2))
    ({ spake2Fkca := arrayOf L.sizeofSpake2Fkca [], nc := [], caProfileName := [],
       authenticatorCertName := [], deviceName := [], timestamp := 0 }, ⟨[], [], []⟩)

/-- Method `Device::ConfirmRequest::decrypt`; `none` is `false`. -/
def ConfirmRequest.decrypt (L : Lib) (E : Env) (self : packet_struct.ConfirmRequest)
    (encrypted : Encrypted) (session : EncryptSession) : Option packet_struct.ConfirmRequest :=
  match E.decrypt session encrypted with
  | none => none
  | some inner =>
    match EvDecoder.decodeValue L inner
        [ ⟨L.tt .Nc, fun d (s : packet_struct.ConfirmRequest) => some { s with nc := d.value }⟩,
          ⟨L.tt .CaProfileName, fun d (s : packet_struct.ConfirmRequest) =>
            (L.decodeName d.value).map fun n => { s with caProfileName := n }⟩,
          ⟨L.tt .AuthenticatorCertName, fun d (s : packet_struct.ConfirmRequest) =>
            (L.decodeName d.value).map fun n => { s with authenticatorCertName := n }⟩,
          ⟨L.tt .DeviceName, fun d (s : packet_struct.ConfirmRequest) =>
            (L.decodeName d.value).map fun n => { s with deviceName := n }⟩,
          ⟨L.tt .TimestampNameComponent, fun d (s : packet_struct.ConfirmRequest) =>
            (L.decodeNni d.value).map fun t => { s with timestamp := t }⟩ ]
        self with
    | none => none
    | some req =>
      if L.isImplicitDigest (Name.last req.caProfileName) &&
          L.isImplicitDigest (Name.last req.authenticatorCertName) then some req
      else none

/-- Function `makeConfirmResponseData`; `none` is the empty `Data::Signed`. -/
def makeConfirmResponseData (L : Lib) (E : Env) (confirmRequestName : Name)
    (session : EncryptSession) (tReq : Option Data) : Option Data :=
  match tReq with
  | none => none
  | some t =>
    match E.encrypt session [⟨L.tt .TReq, L.encodeData t⟩] with
    | none => none
    | some enc =>
      if !E.createData then none
      else some (Data.signNull L confirmRequestName ⟨enc.encode L, true⟩)

/-- Decoder `Device::CredentialRequest::fromInterest`; `none` is `false`. -/
def CredentialRequest.fromInterest (L : Lib) (E : Env) (interest : Interest)
    (session : EncryptSession) : Option packet_struct.CredentialRequest :=
  match EvDecoder.decodeValue L interest.appParameters
      (Encrypted.rules L (fun _ e => e) (fun e => e)) (⟨[], [], []⟩ : Encrypted) with
  | none => none
  | some encrypted =>
    match E.decrypt session encrypted with
    | none => none
    | some inner =>
      EvDecoder.decodeValue L inner
        [ ⟨L.tt .IssuedCertName, fun d (s : packet_struct.CredentialRequest) =>
            (L.decodeName d.value).map fun n => { s with tempCertName := n }⟩ ]
        { tempCertName := [] }

/-- Method `Device::end`. -/
def «end» (d : Device) : Device :=
  { d with
    m_session := d.m_session.end
    m_spake2 := none
    m_state := State.Idle
    m_region := d.m_region.reset }

/-- Method `Device::begin`. -/
def begin (E : Env) (d : Device) (password : Bytes) : Bool × Device :=
  let d := d.end
  let d := { d with m_spake2 := some ⟨Role.Bob, password⟩ }
  if !E.spake2Start Role.Bob password then (false, d)
  else (true, { d with m_state := State.WaitPakeRequest })

/-- Method `Device::sendFetchInterest`. -/
def sendFetchInterest (E : Env) (d : Device) (name : Name) (nextState : State) :
    Device × List Event :=
  let gotoState : GotoState := {}
  if !E.createInterest then (gotoState.destroy d, [])
  else
    let interest : Interest := { name := name, appParameters := ⟨[], true⟩ }
    let endpointId := some d.m_lastInterestPacketInfo.endpointId
    let sent := E.pendingSend (some interest) endpointId
    let ev := [Event.pendingSend (some interest) endpointId sent]
    if sent then
      let (_, d, gotoState) := gotoState.call d nextState
      (gotoState.destroy d, ev)
    else (gotoState.destroy d, ev)

/-- Method `Device::loop`. -/
def loop (E : Env) (d : Device) : Device × List Event :=
  match d.m_state with
  | State.FetchCaProfile => sendFetchInterest E d d.m_caProfileName State.WaitCaProfile
  | State.FetchAuthenticatorCert =>
    sendFetchInterest E d d.m_authenticatorCertName State.WaitAuthenticatorCert
  | State.FetchTempCert => sendFetchInterest E d d.m_tempCertName State.WaitTempCert
  | State.WaitCaProfile | State.WaitAuthenticatorCert | State.WaitTempCert =>
    if E.expired then ({ d with m_state := State.Failure }, []) else (d, [])
  | _ => (d, [])

/-- Method `Device::checkInterestVerb`: its result and the Device after the
call (`m_session.assign` is reached only when the name checks pass). -/
def checkInterestVerb (L : Lib) (E : Env) (d : Device) (interest : Interest)
    (expectedVerb : Component) : Bool × Device :=
  let name := interest.name
  if name.length == L.getLocalhopOnboardingPrefix.length + 3 &&
      L.getLocalhopOnboardingPrefix.isPrefixOf name &&
      Name.secondLast name == expectedVerb &&
      L.checkDigest interest then
    let (ok, session) := d.m_session.assign E name
    (ok, { d with m_session := session, m_region := d.m_region.alloc ok })
  else (false, d)

/-- Method `Device::saveCurrentInterest`. -/
def saveCurrentInterest (E : Env) (d : Device) (interest : Interest) : Device :=
  { d with
    m_lastInterestName := Name.clone E interest.name
    m_region := d.m_region.alloc (E.cloneOk interest.name)
    m_lastInterestPacketInfo := E.currentPacketInfo }

/-- The `&&` chain of `handlePakeRequest` up to and including `reply(…)`: whether
every conjunct was true, and the calls made (short-circuit evaluation). A step
on an absent `m_spake2` (a null dereference in C++) is taken as a failed step. -/
def pakeRequestSteps (L : Lib) (E : Env) (d : Device) (interest : Interest) :
    Bool × List Event :=
  match PakeRequest.fromInterest L interest with
  | none => (false, [])
  | some req =>
    match d.m_spake2 with
    | none => (false, [Event.spake2 .generateFirstMessage false])
    | some ctx =>
      match E.generateFirstMessage ctx with
      | none => (false, [Event.spake2 .generateFirstMessage false])
      | some s =>
        if !E.processFirstMessage ctx req.spake2T then
          (false, [Event.spake2 .generateFirstMessage true,
                   Event.spake2 .processFirstMessage false])
        else
          match E.generateSecondMessage ctx with
          | none =>
            (false, [Event.spake2 .generateFirstMessage true,
                     Event.spake2 .processFirstMessage true,
                     Event.spake2 .generateSecondMessage false])
          | some fkcb =>
            let res : packet_struct.PakeResponse :=
              { spake2S := arrayOf L.sizeofSpake2S s
                spake2Fkcb := arrayOf L.sizeofSpake2Fkcb fkcb }
            let data := PakeResponse.toData L E res interest
            let replied := E.reply data
            (replied, [Event.spake2 .generateFirstMessage true,
                       Event.spake2 .processFirstMessage true,
                       Event.spake2 .generateSecondMessage true,
                       Event.reply data replied])

/-- Method `Device::handlePakeRequest`. -/
def handlePakeRequest (L : Lib) (E : Env) (d : Device) (interest : Interest) :
    Bool × Device × List Event :=
  let (verb, d) := checkInterestVerb L E d interest L.getPakeComponent
  if !verb then (false, d, [])
  else
    let gotoState : GotoState := {}
    let (ok, ev) := pakeRequestSteps L E d interest
    if ok then
      let (_, d, gotoState) := gotoState.call d State.WaitConfirmRequest
      (true, gotoState.destroy d, ev)
    else (true, gotoState.destroy d, ev)

/-- Method `Device::handleConfirmRequest`. A step on an absent `m_spake2` is
taken as a failed step. -/
def handleConfirmRequest (L : Lib) (E : Env) (d : Device) (interest : Interest) :
    Bool × Device × List Event :=
  let (verb, d) := checkInterestVerb L E d interest L.getConfirmComponent
  if !verb then (false, d, [])
  else
    let gotoState : GotoState := {}
    match ConfirmRequest.fromInterest L interest with
    | none => (true, gotoState.destroy d, [])
    | some (req, encrypted) =>
      match d.m_spake2 with
      | none => (true, gotoState.destroy d, [Event.spake2 .processSecondMessage false])
      | some ctx =>
        if !E.processSecondMessage ctx req.spake2Fkca then
          (true, gotoState.destroy d, [Event.spake2 .processSecondMessage false])
        else
          let key := E.getSharedKey ctx
          let (imported, session) := d.m_session.importKey E key
          let d := { d with m_session := session }
          let ev := [Event.spake2 .processSecondMessage true, Event.importKey key imported]
          if !imported then (true, gotoState.destroy d, ev)
          else
            match ConfirmRequest.decrypt L E req encrypted d.m_session with
            | none => (true, gotoState.destroy d, ev)
            | some req =>
              let d := saveCurrentInterest E d interest
              let d :=
                { d with
                  m_caProfileName := Name.clone E req.caProfileName
                  m_authenticatorCertName := Name.clone E req.authenticatorCertName
                  m_deviceName := Name.clone E req.deviceName
                  m_region :=
                    ((d.m_region.alloc (E.cloneOk req.caProfileName)).alloc
                      (E.cloneOk req.authenticatorCertName)).alloc (E.cloneOk req.deviceName) }
              let (r, d, gotoState) := gotoState.call d State.FetchCaProfile
              (r, gotoState.destroy d, ev)

/-- Method `Device::handleCredentialRequest`. -/
def handleCredentialRequest (L : Lib) (E : Env) (d : Device) (interest : Interest) :
    Bool × Device × List Event :=
  let (verb, d) := checkInterestVerb L E d interest L.getCredentialComponent
  if !verb then (false, d, [])
  else
    let gotoState : GotoState := {}
    match CredentialRequest.fromInterest L E interest d.m_session with
    | none => (true, gotoState.destroy d, [])
    | some req =>
      let d := saveCurrentInterest E d interest
      let d :=
        { d with
          m_tempCertName := Name.clone E req.tempCertName
          m_region := d.m_region.alloc (E.cloneOk req.tempCertName) }
      let (r, d, gotoState) := gotoState.call d State.FetchTempCert
      (r, gotoState.destroy d, [])

/-- Method `Device::processInterest`. -/
def processInterest (L : Lib) (E : Env) (d : Device) (interest : Interest) :
    Bool × Device × List Event :=
  match d.m_state with
  | State.WaitPakeRequest => handlePakeRequest L E d interest
  | State.WaitConfirmRequest => handleConfirmRequest L E d interest
  | State.WaitCredentialRequest => handleCredentialRequest L E d interest
  | _ => (false, d, [])

/-- Method `Device::handleCaProfile`. -/
def handleCaProfile (L : Lib) (E : Env) (d : Device) (data : Data) :
    Bool × Device × List Event :=
  if !E.pendingMatch data d.m_caProfileName then (false, d, [])
  else
    let (parsed, caProfile) := E.caProfileFromData d.m_caProfile data
    let d := { d with m_caProfile := caProfile, m_region := d.m_region.alloc parsed }
    if !parsed then (false, d, [])
    else
      let gotoState : GotoState := {}
      if !(L.getValidity d.m_caProfile.cert).includes E.now then
        (true, gotoState.destroy d, [])
      else
        let (_, d, gotoState) := gotoState.call d State.FetchAuthenticatorCert
        (true, gotoState.destroy d, [])

/-- Method `Device::handleAuthenticatorCert`. -/
def handleAuthenticatorCert (L : Lib) (E : Env) (d : Device) (data : Data) :
    Bool × Device × List Event :=
  if !E.pendingMatch data d.m_authenticatorCertName then (false, d, [])
  else
    let gotoState : GotoState := {}
    if !L.verify data d.m_caProfile.pub || !(L.getValidity data).includes E.now then
      (false, gotoState.destroy d, [])
    else
      let tSubject := computeTempSubjectName L E data.name d.m_deviceName
      if tSubject.isEmpty then (true, gotoState.destroy d, [])
      else
        match E.ecGenerate tSubject with
        | none => (true, gotoState.destroy d, [])
        | some (tPvt, tPub) =>
          let d := { d with m_tPvt := some tPvt, m_tPub := some tPub }
          let tCert := E.selfSign tPub L.ValidityPeriod_getMax tPvt
          let res := makeConfirmResponseData L E d.m_lastInterestName d.m_session tCert
          let sent := E.send res d.m_lastInterestPacketInfo
          let ev := [Event.send res d.m_lastInterestPacketInfo sent]
          if sent then
            let (_, d, gotoState) := gotoState.call d State.WaitCredentialRequest
            (true, gotoState.destroy d, ev)
          else (true, gotoState.destroy d, ev)

/-- Method `Device::handleTempCert`. -/
def handleTempCert (L : Lib) (E : Env) (d : Device) (data : Data) :
    Bool × Device × List Event :=
  if !E.pendingMatch data d.m_tempCertName then (false, d, [])
  else
    let gotoState : GotoState := {}
    if !E.createData then (true, gotoState.destroy d, [])
    else
      let res := some (Data.signNull L d.m_lastInterestName ⟨[], true⟩)
      let sent := E.send res d.m_lastInterestPacketInfo
      let ev := [Event.send res d.m_lastInterestPacketInfo sent]
      if sent then
        let (_, d, gotoState) := gotoState.call d State.Success
        (true, gotoState.destroy d, ev)
      else (true, gotoState.destroy d, ev)

/-- Method `Device::processData`. -/
def processData (L : Lib) (E : Env) (d : Device) (data : Data) :
    Bool × Device × List Event :=
  if !E.matchPitToken then (false, d, [])
  else
    match d.m_state with
    | State.WaitCaProfile => handleCaProfile L E d data
    | State.WaitAuthenticatorCert => handleAuthenticatorCert L E d data
    | State.WaitTempCert => handleTempCert L E d data
    | _ => (false, d, [])

end Device

/-- Whether the payload of an Interest is rejected by the decoder of the handler
for the state of `d`, where `d` is the Device after `checkInterestVerb`: the
`PakeRequest` decoder, the `ConfirmRequest` decoder or the decryption of its
envelope under the session with the shared key imported, the
`CredentialRequest` decoder. -/
def Device.payloadRejected (L : Lib) (E : Env) (d : Device) (interest : Interest) : Bool :=
  match d.m_state with
  | Device.State.WaitPakeRequest => (Device.PakeRequest.fromInterest L interest).isNone
  | Device.State.WaitConfirmRequest =>
    match Device.ConfirmRequest.fromInterest L interest with
    | none => true
    | some (req, encrypted) =>
      match d.m_spake2 with
      | some ctx =>
        (Device.ConfirmRequest.decrypt L E req encrypted
          (d.m_session.importKey E (E.getSharedKey ctx)).2).isNone
      | none => false
  | Device.State.WaitCredentialRequest =>
    (Device.CredentialRequest.fromInterest L E interest d.m_session).isNone
  | _ => false

/-- The verb component `processInterest` checks for in a state. -/
def Device.expectedVerb (L : Lib) : Device.State → Option Component
  | Device.State.WaitPakeRequest => some L.getPakeComponent
  | Device.State.WaitConfirmRequest => some L.getConfirmComponent
  | Device.State.WaitCredentialRequest => some L.getCredentialComponent
  | _ => none

/-! ## Construction and sequences of calls -/

namespace Authenticator

/-- The fields of `Authenticator::Options` the constructor copies. -/
structure Options where
  caProfile : Data
  cert : Data
  pvt : EcPrivateKey
  nc : Bytes
  deviceName : Name
deriving DecidableEq, Repr

/-- Constructor `Authenticator::Authenticator(opts)`: the state starts as `Idle`,
`m_spake2` and `m_issued` are null and the region is empty. -/
def new (opts : Options) : Authenticator :=
  { m_caProfile := opts.caProfile
    m_cert := opts.cert
    m_pvt := opts.pvt
    m_nc := opts.nc
    m_deviceName := opts.deviceName
    m_state := State.Idle
    m_session := ⟨none, none⟩
    m_spake2 := none
    m_region := ⟨0⟩
    m_issued := none }

/-- A call of one public member function. -/
inductive Op where
  | begin (password : Bytes)
  | «end»
  | loop
  | processData (data : Data)
  | processInterest (interest : Interest)
deriving DecidableEq, Repr

/-- The endpoint after one call and the events of the call. -/
def step (L : Lib) (E : Env) (a : Authenticator) : Op → Authenticator × List Event
  | Op.begin password => ((a.begin E password).2, [])
  | Op.end => (a.end, [])
  | Op.loop => a.loop L E
  | Op.processData data => (a.processData L E data).2
  | Op.processInterest interest => (a.processInterest L E interest).2

/-- A sequence of calls, each with the environment it runs in. The second
component is the log of the current session: the events since the last `begin`. -/
def exec (L : Lib) : Authenticator × List Event → List (Env × Op) → Authenticator × List Event
  | s, [] => s
  | (a, log), (E, op) :: rest =>
    match op with
    | Op.begin _ => exec L ((step L E a op).1, []) rest
    | _ => exec L ((step L E a op).1, log ++ (step L E a op).2) rest

end Authenticator

namespace Device

/-- Constructor `Device::Device(opts)`: the state starts as `Idle`, nothing is held. -/
def new : Device :=
  { m_state := State.Idle
    m_session := ⟨none, none⟩
    m_spake2 := none
    m_region := ⟨0⟩
    m_lastInterestName := []
    m_lastInterestPacketInfo := ⟨0, 0⟩
    m_caProfileName := []
    m_authenticatorCertName := []
    m_deviceName := []
    m_tempCertName := []
    m_caProfile := ⟨⟨[], ⟨[], true⟩, [], []⟩, ⟨[]⟩⟩
    m_tPvt := none
    m_tPub := none }

/-- A call of one public member function. -/
inductive Op where
  | begin (password : Bytes)
  | «end»
  | loop
  | processData (data : Data)
  | processInterest (interest : Interest)
deriving DecidableEq, Repr

/-- The endpoint after one call and the events of the call. -/
def step (L : Lib) (E : Env) (d : Device) : Op → Device × List Event
  | Op.begin password => ((d.begin E password).2, [])
  | Op.end => (d.end, [])
  | Op.loop => d.loop E
  | Op.processData data => (d.processData L E data).2
  | Op.processInterest interest => (d.processInterest L E interest).2

/-- A sequence of calls, each with the environment it runs in. The second
component is the log of the current session: the events since the last `begin`. -/
def exec (L : Lib) : Device × List Event → List (Env × Op) → Device × List Event
  | s, [] => s
  | (d, log), (E, op) :: rest =>
    match op with
    | Op.begin _ => exec L ((step L E d op).1, []) rest
    | _ => exec L ((step L E d op).1, log ++ (step L E d op).2) rest

end Device

/-- The SPAKE2 calls of a log, in order, with their results. -/
def spake2Steps : List Event → List (Spake2Step × Bool)
  | [] => []
  | Event.spake2 step ok :: es => (step, ok) :: spake2Steps es
  | _ :: es => spake2Steps es

/-- The four SPAKE2 steps of either role, all successful, in the order the
endpoints run them. -/
def completedPake : List (Spake2Step × Bool) :=
  [(.generateFirstMessage, true), (.processFirstMessage, true),
   (.generateSecondMessage, true), (.processSecondMessage, true)]

/-- Checker: every `importKey` call of the log comes after exactly the SPAKE2
calls `seen ++ …` that make up `completedPake`. -/
def importKeyGuarded (seen : List (Spake2Step × Bool)) : List Event → Bool
  | [] => true
  | Event.spake2 step ok :: es => importKeyGuarded (seen ++ [(step, ok)]) es
  | Event.importKey _ _ :: es => decide (seen = completedPake) && importKeyGuarded seen es
  | _ :: es => importKeyGuarded seen es

/-! ## Two endpoints over a lossless transport -/

inductive Packet where
  | interest (i : Interest)
  | data (d : Data)
deriving DecidableEq, Repr

/-- The packets a list of events hands to the transport successfully. -/
def transmitted : List Event → List Packet
  | [] => []
  | Event.pendingSend (some i) _ true :: es => Packet.interest i :: transmitted es
  | Event.send (some d) _ true :: es => Packet.data d :: transmitted es
  | Event.reply (some d) true :: es => Packet.data d :: transmitted es
  | _ :: es => transmitted es

/-- An Authenticator and a Device joined by a transport that loses nothing:
`toDev` and `toAuth` are the packets sent and not yet delivered, `clock` counts
the endpoint calls made so far (the next call runs in environment `env clock`). -/
structure Net where
  auth : Authenticator
  dev : Device
  toDev : List Packet
  toAuth : List Packet
  clock : Nat
deriving DecidableEq, Repr

namespace Net

def authLoop (L : Lib) (env : Nat → Env) (n : Net) : Net :=
  let r := n.auth.loop L (env n.clock)
  { n with auth := r.1, toDev := n.toDev ++ transmitted r.2, clock := n.clock + 1 }

def devLoop (_L : Lib) (env : Nat → Env) (n : Net) : Net :=
  let r := n.dev.loop (env n.clock)
  { n with dev := r.1, toAuth := n.toAuth ++ transmitted r.2, clock := n.clock + 1 }

/-- Delivery of one packet to the Device. -/
def deliverToDev (L : Lib) (env : Nat → Env) (n : Net) : Packet → Net
  | Packet.interest i =>
    let r := n.dev.processInterest L (env n.clock) i
    { n with dev := r.2.1, toAuth := n.toAuth ++ transmitted r.2.2, clock := n.clock + 1 }
  | Packet.data d =>
    let r := n.dev.processData L (env n.clock) d
    { n with dev := r.2.1, toAuth := n.toAuth ++ transmitted r.2.2, clock := n.clock + 1 }

/-- Delivery of one packet to the Authenticator. -/
def deliverToAuth (L : Lib) (env : Nat → Env) (n : Net) : Packet → Net
  | Packet.interest i =>
    let r := n.auth.processInterest L (env n.clock) i
    { n with auth := r.2.1, toDev := n.toDev ++ transmitted r.2.2, clock := n.clock + 1 }
  | Packet.data d =>
    let r := n.auth.processData L (env n.clock) d
    { n with auth := r.2.1, toDev := n.toDev ++ transmitted r.2.2, clock := n.clock + 1 }

/-- Delivery of every packet in flight towards the Device. -/
def flushToDev (L : Lib) (env : Nat → Env) (n : Net) : Net :=
  n.toDev.foldl (deliverToDev L env) { n with toDev := [] }

/-- Delivery of every packet in flight towards the Authenticator. -/
def flushToAuth (L : Lib) (env : Nat → Env) (n : Net) : Net :=
  n.toAuth.foldl (deliverToAuth L env) { n with toAuth := [] }

/-- One round: `loop()` on the Authenticator, delivery of what is in flight to
the Device, `loop()` on the Device, delivery of what is in flight to the
Authenticator. -/
def round (L : Lib) (env : Nat → Env) (n : Net) : Net :=
  flushToAuth L env (devLoop L env (flushToDev L env (authLoop L env n)))

def run (L : Lib) (env : Nat → Env) : Nat → Net → Net
  | 0, n => n
  | k + 1, n => run L env k (round L env n)

/-- Both endpoints after `begin(password)`, nothing in flight; the
Authenticator begins in `env 0`, the Device in `env 1`. -/
def start (env : Nat → Env) (a : Authenticator) (d : Device) (password : Bytes) : Net :=
  { auth := (a.begin (env 0) password).2
    dev := (d.begin (env 1) password).2
    toDev := []
    toAuth := []
    clock := 2 }

end Net

/-! ## A concrete library and environment

A small executable instance of `Lib` and `Env`, used to evaluate the endpoints
on concrete inputs. Names, TLV sequences and packets are serialised as
length-prefixed number lists; "encryption" tags the serialised plaintext with
the key; the "digest" of a packet is its serialisation. -/

namespace Toy

/-- Serialisation of a list of `(type, value)` items: the number of items, then
for each item its type, the length of its value and the value. -/
def encItems (l : List (Nat × List Nat)) : List Nat :=
  l.length :: l.flatMap fun p => p.1 :: p.2.length :: p.2

/-- Parser of `n` items from the front of a number list; the rest is returned. -/
def decItemsAux : Nat → List Nat → Option (List (Nat × List Nat) × List Nat)
  | 0, l => some ([], l)
  | n + 1, t :: len :: more =>
    if len ≤ more.length then
      match decItemsAux n (more.drop len) with
      | some (items, rest) => some ((t, more.take len) :: items, rest)
      | none => none
    else none
  | _ + 1, _ => none

def decItems : List Nat → Option (List (Nat × List Nat) × List Nat)
  | n :: l => decItemsAux n l
  | [] => none

def encName (n : Name) : Bytes := encItems (n.map fun c => (c.type, c.value))

def decName (b : Bytes) : Option Name :=
  match decItems b with
  | some (l, []) => some (l.map fun p => ⟨p.1, p.2⟩)
  | _ => none

def encTlvs (l : List Tlv) : Bytes := encItems (l.map fun c => (c.type, c.value))

def decTlvs (b : Bytes) : Option (List Tlv) :=
  match decItems b with
  | some (l, []) => some (l.map fun p => ⟨p.1, p.2⟩)
  | _ => none

def encData (d : Data) : Bytes :=
  encItems (d.name.map fun c => (c.type, c.value)) ++
    (encItems (d.content.elems.map fun c => (c.type, c.value)) ++
      encItems [(0, d.sigInfo), (if d.content.ok then 1 else 0, d.sigValue)])

def decData (b : Bytes) : Option Data :=
  match decItems b with
  | some (name, r1) =>
    match decItems r1 with
    | some (elems, r2) =>
      match decItems r2 with
      | some ([(_, sigInfo), (ok, sigValue)], []) =>
        some ⟨name.map fun p => ⟨p.1, p.2⟩, ⟨elems.map fun p => ⟨p.1, p.2⟩, ok == 1⟩,
          sigInfo, sigValue⟩
      | _ => none
    | none => none
  | none => none

def tt : TT → Nat
  | .Spake2T => 129
  | .Spake2S => 131
  | .Spake2Fkcb => 133
  | .Spake2Fkca => 135
  | .Nc => 137
  | .CaProfileName => 139
  | .AuthenticatorCertName => 141
  | .DeviceName => 143
  | .TimestampNameComponent => 56
  | .TReq => 145
  | .IssuedCertName => 147
  | .InitializationVector => 149
  | .AuthenticationTag => 151
  | .EncryptedPayload => 153

/-- The four components `KEY/<key-id>/<issuer-id>/<version>` that follow the
subject in a certificate name. -/
def certSuffix : Name := [⟨35, [75]⟩, ⟨8, [1]⟩, ⟨8, [2]⟩, ⟨54, [3]⟩]

def lib : Lib :=
  { tt := tt
    sizeofSpake2T := 2
    sizeofSpake2S := 2
    sizeofSpake2Fkcb := 2
    sizeofSpake2Fkca := 2
    TempCertValidity := 600
    isCritical := fun t => t % 2 == 1
    getLocalhopOnboardingPrefix := [⟨8, [108]⟩, ⟨8, [111]⟩]
    getPakeComponent := ⟨8, [112]⟩
    getConfirmComponent := ⟨8, [99]⟩
    getCredentialComponent := ⟨8, [114]⟩
    isImplicitDigest := fun c => c.type == 1
    encodeName := encName
    decodeName := decName
    encodeNni := fun n => [n]
    decodeNni := fun b => match b with
      | [n] => some n
      | _ => none
    encodeData := encData
    decodeData := decData
    decodeDataPartial := fun _ => ⟨[], ⟨[], true⟩, [], []⟩
    paramsDigest := fun v => ⟨2, (if v.ok then 1 else 0) :: encTlvs v.elems⟩
    checkDigest := fun i =>
      decide (i.name.getLast? =
        some ⟨2, (if i.appParameters.ok then 1 else 0) :: encTlvs i.appParameters.elems⟩)
    implicitDigest := fun d => ⟨1, encData d⟩
    interestMatch := fun i d => decide (i.name = d.name ++ [⟨1, encData d⟩])
    computeTempSubjectName := fun certName deviceName =>
      certName.take (certName.length - 4) ++ deviceName
    toSubjectName := fun n => n.take (n.length - 4)
    getValidity := fun d => ⟨d.sigInfo.getD 0 0, d.sigInfo.getD 1 0⟩
    ValidityPeriod_getMax := ⟨0, 2 ^ 32⟩
    verify := fun d pub => decide (d.sigValue = pub.raw)
    nullSigInfo := []
    nullSigValue := [] }

/-- An environment in which every call succeeds. -/
def env : Env :=
  { now := 1000
    timeValue := 1000000000
    currentPacketInfo := ⟨7, 42⟩
    expired := false
    matchPitToken := true
    pendingMatch := fun d n => decide (n = d.name ++ [lib.implicitDigest d])
    pendingSend := fun i _ => i.isSome
    send := fun d _ => d.isSome
    reply := fun d => d.isSome
    createInterest := true
    createData := true
    createIssued := true
    encoderOk := true
    fullNameOk := fun _ => true
    cloneOk := fun _ => true
    subjectNameOk := true
    sessionBegin := some ⟨8, [115]⟩
    sessionAssign := fun _ n => some (n.dropLast.dropLast.getLast?.getD ⟨0, []⟩)
    importKey := fun _ _ => true
    encrypt := fun s pt => s.key.map fun k => ⟨[0], k, encTlvs pt⟩
    decrypt := fun s e =>
      if s.key = some e.tag then (decTlvs e.ciphertext).map fun pt => ⟨pt, true⟩ else none
    spake2Start := fun _ _ => true
    generateFirstMessage := fun _ => some [1, 2]
    processFirstMessage := fun _ _ => true
    generateSecondMessage := fun _ => some [3, 4]
    processSecondMessage := fun _ _ => true
    getSharedKey := fun ctx => ctx.password
    importPublicKey := fun d => some ⟨d.sigValue⟩
    buildCertificate := fun pub subject validity pvt =>
      some (encData
        ⟨subject ++ certSuffix, ⟨[⟨0, pub.raw⟩], true⟩,
          [validity.notBefore, validity.notAfter], pvt.raw⟩)
    ecGenerate := fun subject => some (⟨encName subject⟩, ⟨encName subject⟩)
    selfSign := fun pub validity pvt =>
      some ⟨(decName pub.raw).getD [] ++ certSuffix, ⟨[⟨0, pub.raw⟩], true⟩,
        [validity.notBefore, validity.notAfter], pvt.raw⟩
    caProfileFromData := fun _ d => (true, ⟨d, ⟨d.sigValue⟩⟩) }

def caProfile : Data :=
  ⟨[⟨8, [99, 97]⟩] ++ certSuffix, ⟨[], true⟩, [0, 10000], [77]⟩

def cert : Data :=
  ⟨[⟨8, [97]⟩] ++ certSuffix, ⟨[], true⟩, [0, 5000], [77]⟩

def options : Authenticator.Options :=
  { caProfile := caProfile
    cert := cert
    pvt := ⟨[88]⟩
    nc := [5]
    deviceName := [⟨8, [100]⟩] }

def password : Bytes := [104, 117, 110, 116, 101, 114, 50]

def sessionId : Component := ⟨8, [115]⟩

/-- The session of an endpoint that has imported the key `password`. -/
def keyedSession : EncryptSession := ⟨some sessionId, some password⟩

/-- An Authenticator waiting for the ConfirmResponse. -/
def authWaitConfirm : Authenticator :=
  { Authenticator.new options with
    m_state := Authenticator.State.WaitConfirmResponse
    m_session := keyedSession }

/-- A certificate request whose subject `/x` is not the temp subject `/a/d`. -/
def foreignTReq : Data := ⟨[⟨8, [120]⟩] ++ certSuffix, ⟨[], true⟩, [0, 2 ^ 32], [9]⟩

/-- A ConfirmResponse carrying `foreignTReq`, encrypted under `password`. -/
def foreignConfirmResponse : Data :=
  ⟨[], ⟨Encrypted.encode lib ⟨[0], password, encTlvs [⟨tt .TReq, encData foreignTReq⟩]⟩, true⟩,
    [], []⟩

/-- A Device after `begin(password)`. -/
def devBegun : Device := (Device.new.begin env password).2

/-- A pake Interest whose `Spake2T` has three bytes instead of two. -/
def longPakeInterest : Interest :=
  Interest.parameterize lib
    (lib.getLocalhopOnboardingPrefix ++ [sessionId, lib.getPakeComponent])
    ⟨[⟨tt .Spake2T, [1, 2, 3]⟩], true⟩

/-- A Device waiting for the authenticator certificate `cert`. -/
def devWaitCert : Device :=
  { Device.new with
    m_state := Device.State.WaitAuthenticatorCert
    m_session := keyedSession
    m_spake2 := some ⟨Role.Bob, password⟩
    m_authenticatorCertName := cert.name ++ [lib.implicitDigest cert]
    m_caProfile := ⟨caProfile, ⟨[78]⟩⟩ }

/-- An environment in which the pending request has expired. -/
def envExpired : Env := { env with expired := true }

end Toy

namespace Toy

/-- A Device waiting for the ConfirmRequest of session `sessionId`. -/
def devWaitConfirm : Device :=
  { devBegun with
    m_state := Device.State.WaitConfirmRequest
    m_session := ⟨some sessionId, none⟩ }

/-- The ConfirmRequest Interest the Authenticator builds under `password`. -/
def confirmInterest : Interest :=
  (Authenticator.ConfirmRequest.toInterest lib env
    { spake2Fkca := [3, 4]
      nc := [5]
      caProfileName := getFullName lib env caProfile
      authenticatorCertName := getFullName lib env cert
      deviceName := options.deviceName
      timestamp := 0 }
    keyedSession).getD ⟨[], ⟨[], true⟩⟩

/-- A certificate request for the temp subject `/a/d`. -/
def tReq : Data :=
  ⟨[⟨8, [97]⟩, ⟨8, [100]⟩] ++ certSuffix, ⟨[], true⟩, [0, 2 ^ 32], [9]⟩

/-- A ConfirmResponse carrying `tReq`, encrypted under `password`. -/
def confirmResponse : Data :=
  ⟨[], ⟨Encrypted.encode lib ⟨[0], password, encTlvs [⟨tt .TReq, encData tReq⟩]⟩, true⟩, [], []⟩

end Toy

/-- Log invariant of the Authenticator: every `importKey` of the session log is
guarded, and the SPAKE2 calls made so far are the ones the state stands for. -/
def Authenticator.logInv (a : Authenticator) (log : List Event) : Prop :=
  importKeyGuarded [] log = true ∧
  (a.m_state = Authenticator.State.SendPakeRequest → spake2Steps log = []) ∧
  (a.m_state = Authenticator.State.WaitPakeResponse →
    spake2Steps log = [(Spake2Step.generateFirstMessage, true)])

/-- Log invariant of the Device. -/
def Device.logInv (d : Device) (log : List Event) : Prop :=
  importKeyGuarded [] log = true ∧
  (d.m_state = Device.State.WaitPakeRequest → spake2Steps log = []) ∧
  (d.m_state = Device.State.WaitConfirmRequest →
    spake2Steps log = [(Spake2Step.generateFirstMessage, true),
      (Spake2Step.processFirstMessage, true), (Spake2Step.generateSecondMessage, true)])

namespace Toy

/-- An Authenticator after `begin(password)`. -/
def authBegun : Authenticator := ((Authenticator.new options).begin env password).2

/-- The pake Interest the Authenticator sends. -/
def pakeInterest : Interest :=
  (Authenticator.PakeRequest.toInterest lib env { spake2T := [1, 2] }
    ⟨some sessionId, none⟩).getD ⟨[], ⟨[], true⟩⟩

/-- The PakeResponse the Device replies with. -/
def pakeResponse : Data :=
  Data.signNull lib pakeInterest.name
    ⟨[⟨tt .Spake2S, [1, 2]⟩, ⟨tt .Spake2Fkcb, [3, 4]⟩], true⟩

/-- The calls the Authenticator sees up to the import of the key. -/
def authOps : List (Env × Authenticator.Op) :=
  [(env, .begin password), (env, .loop), (env, .processData pakeResponse)]

/-- The calls the Device sees up to the import of the key. -/
def devOps : List (Env × Device.Op) :=
  [(env, .begin password), (env, .processInterest pakeInterest),
   (env, .processInterest confirmInterest)]

/-- An environment in which SPAKE2 cannot generate its first message. -/
def envNoFirstMessage : Env := { env with generateFirstMessage := fun _ => none }

end Toy

/-! ## Success of the external primitives -/

/-- Laws of the library: TLV-TYPE numbers are distinct, the name, number and
packet codecs decode what they encode, a parameterized Interest passes its own
digest check, a full name ends with an implicit digest, and an Interest matches
a Data exactly when it carries the full name of the Data. -/
structure Lib.Lawful (L : Lib) : Prop where
  tt_injective : Function.Injective L.tt
  decodeName_encodeName : ∀ n, L.decodeName (L.encodeName n) = some n
  decodeNni_encodeNni : ∀ n, n < 2 ^ 64 → L.decodeNni (L.encodeNni n) = some n
  decodeData_encodeData : ∀ d, L.decodeData (L.encodeData d) = some d
  checkDigest_parameterize : ∀ name v, L.checkDigest (Interest.parameterize L name v) = true
  isImplicitDigest_implicitDigest : ∀ d, L.isImplicitDigest (L.implicitDigest d) = true
  interestMatch_iff : ∀ i d, L.interestMatch i d = true ↔ i.name = d.name ++ [L.implicitDigest d]

/-- Every external call of one operation returns its success outcome: the
pending request has not expired and the packet dispatched carries its token,
every packet is handed to the transport, every allocation succeeds, the session
binds the identifier of an onboarding name, imports a key into a session without
one and encrypts under a key, every SPAKE2 step succeeds, a key pair is generated
for a non-empty subject and self-signed into a request for that subject, and
certificates are built and parse. -/
structure Env.Succeeds (L : Lib) (E : Env) : Prop where
  expired : E.expired = false
  matchPitToken : E.matchPitToken = true
  pendingMatch : ∀ d, E.pendingMatch d (d.name ++ [L.implicitDigest d]) = true
  pendingSend : ∀ i ep, E.pendingSend (some i) ep = true
  send : ∀ d info, E.send (some d) info = true
  reply : ∀ d, E.reply (some d) = true
  createInterest : E.createInterest = true
  createData : E.createData = true
  createIssued : E.createIssued = true
  encoderOk : E.encoderOk = true
  fullNameOk : ∀ d, E.fullNameOk d = true
  cloneOk : ∀ n, E.cloneOk n = true
  subjectNameOk : E.subjectNameOk = true
  sessionAssign : ∀ (s : EncryptSession) (sid verb digest : Component),
    s.sessionId = none ∨ s.sessionId = some sid →
      E.sessionAssign s (L.getLocalhopOnboardingPrefix ++ [sid, verb, digest]) = some sid
  importKey : ∀ (s : EncryptSession) k, s.key = none → E.importKey s k = true
  encrypt : ∀ (s : EncryptSession) pt, s.key.isSome = true → (E.encrypt s pt).isSome = true
  generateFirstMessage : ∀ c, (E.generateFirstMessage c).isSome = true
  processFirstMessage : ∀ c m, E.processFirstMessage c m = true
  generateSecondMessage : ∀ c, (E.generateSecondMessage c).isSome = true
  processSecondMessage : ∀ c m, E.processSecondMessage c m = true
  buildCertificate : ∀ pub subject validity pvt,
    ∃ wire, E.buildCertificate pub subject validity pvt = some wire ∧
      (L.decodeData wire).isSome = true
  ecGenerate : ∀ subject, subject ≠ [] →
    ∃ pvt pub tReq, E.ecGenerate subject = some (pvt, pub) ∧
      E.selfSign pub L.ValidityPeriod_getMax pvt = some tReq ∧
      L.toSubjectName tReq.name = subject

/-- The environments of a run fit together for an Authenticator configured as
`a` and the password `P`: SPAKE2 gives both roles the same key, decryption
inverts encryption under the same key, the CA profile parses and its CA
certificate is valid at each call, the public key of a certificate request made
by the Device can be imported, a Data with the full name of the authenticator
certificate verifies under the CA key and is valid at each call, and the temp
subject name is not empty. -/
structure Agrees (L : Lib) (env : Nat → Env) (a : Authenticator) (P : Bytes) : Prop where
  sharedKey : ∀ i j,
    (env i).getSharedKey ⟨Role.Alice, P⟩ = (env j).getSharedKey ⟨Role.Bob, P⟩
  decrypt_encrypt : ∀ i j (s1 s2 : EncryptSession) pt enc,
    s1.key = s2.key → (env i).encrypt s1 pt = some enc → (env j).decrypt s2 enc = some ⟨pt, true⟩
  caProfile_parses : ∀ i cp, ((env i).caProfileFromData cp a.m_caProfile).1 = true
  caProfile_valid : ∀ i cp,
    (L.getValidity ((env i).caProfileFromData cp a.m_caProfile).2.cert).includes (env i).now = true
  tReq_imports : ∀ i j subject pvt pub tReq, (env i).ecGenerate subject = some (pvt, pub) →
    (env i).selfSign pub L.ValidityPeriod_getMax pvt = some tReq →
      ((env j).importPublicKey tReq).isSome = true
  cert_valid : ∀ i j cp (x : Data),
    x.name ++ [L.implicitDigest x] = a.m_cert.name ++ [L.implicitDigest a.m_cert] →
      L.verify x ((env j).caProfileFromData cp a.m_caProfile).2.pub = true ∧
      (L.getValidity x).includes (env i).now = true
  subject_ne_nil : L.computeTempSubjectName a.m_cert.name a.m_deviceName ≠ []

/-! ## Stages of the exchange

The state of the two endpoints and of the transport after each round of a run
in which every primitive succeeds; `a0` is the configured Authenticator, `sid`
the session identifier and `K` the shared key. -/

namespace Net

/-- The configuration of the Authenticator is the one of `a0`. -/
structure SameConfig (a0 a : Authenticator) : Prop where
  caProfile : a.m_caProfile = a0.m_caProfile
  cert : a.m_cert = a0.m_cert
  pvt : a.m_pvt = a0.m_pvt
  nc : a.m_nc = a0.m_nc
  deviceName : a.m_deviceName = a0.m_deviceName

/-- Both endpoints have begun with password `P`; nothing is in flight. -/
structure Stage0 (a0 : Authenticator) (P : Bytes) (sid : Component) (n : Net) : Prop where
  config : SameConfig a0 n.auth
  authState : n.auth.m_state = Authenticator.State.SendPakeRequest
  authSpake2 : n.auth.m_spake2 = some ⟨Role.Alice, P⟩
  authSession : n.auth.m_session = ⟨some sid, none⟩
  devState : n.dev.m_state = Device.State.WaitPakeRequest
  devSpake2 : n.dev.m_spake2 = some ⟨Role.Bob, P⟩
  devSession : n.dev.m_session = ⟨none, none⟩
  toDev : n.toDev = []
  toAuth : n.toAuth = []

/-- The PAKE round trip is done; the ConfirmRequest is in flight. -/
structure Stage1 (L : Lib) (env : Nat → Env) (a0 : Authenticator) (P : Bytes) (sid : Component)
    (K : Bytes) (n : Net) : Prop where
  config : SameConfig a0 n.auth
  authState : n.auth.m_state = Authenticator.State.WaitConfirmResponse
  authSession : n.auth.m_session = ⟨some sid, some K⟩
  devState : n.dev.m_state = Device.State.WaitConfirmRequest
  devSpake2 : n.dev.m_spake2 = some ⟨Role.Bob, P⟩
  devSession : n.dev.m_session = ⟨some sid, none⟩
  toAuth : n.toAuth = []
  toDev : ∃ fk enc i, fk.length = L.sizeofSpake2Fkca ∧
    (env i).encrypt ⟨some sid, some K⟩
      [ ⟨L.tt .Nc, a0.m_nc⟩,
        ⟨L.tt .CaProfileName,
          L.encodeName (a0.m_caProfile.name ++ [L.implicitDigest a0.m_caProfile])⟩,
        ⟨L.tt .AuthenticatorCertName,
          L.encodeName (a0.m_cert.name ++ [L.implicitDigest a0.m_cert])⟩,
        ⟨L.tt .DeviceName, L.encodeName a0.m_deviceName⟩,
        ⟨L.tt .TimestampNameComponent, L.encodeNni ((env i).timeValue % 2 ^ 64)⟩ ] = some enc ∧
    n.toDev = [Packet.interest (Interest.parameterize L
      (L.getLocalhopOnboardingPrefix ++ [sid, L.getConfirmComponent])
      ⟨⟨L.tt .Spake2Fkca, fk⟩ :: enc.encode L, true⟩)]

/-- The Device has the key and the names; the CA profile is in flight. -/
structure Stage2 (L : Lib) (a0 : Authenticator) (sid : Component) (K : Bytes) (n : Net) :
    Prop where
  config : SameConfig a0 n.auth
  authState : n.auth.m_state = Authenticator.State.WaitConfirmResponse
  authSession : n.auth.m_session = ⟨some sid, some K⟩
  devState : n.dev.m_state = Device.State.WaitCaProfile
  devSession : n.dev.m_session = ⟨some sid, some K⟩
  caProfileName : n.dev.m_caProfileName = a0.m_caProfile.name ++ [L.implicitDigest a0.m_caProfile]
  authenticatorCertName :
    n.dev.m_authenticatorCertName = a0.m_cert.name ++ [L.implicitDigest a0.m_cert]
  deviceName : n.dev.m_deviceName = a0.m_deviceName
  toAuth : n.toAuth = []
  toDev : n.toDev = [Packet.data a0.m_caProfile]

/-- The Device has the CA profile; the authenticator certificate is in flight. -/
structure Stage3 (L : Lib) (env : Nat → Env) (a0 : Authenticator) (sid : Component) (K : Bytes)
    (n : Net) : Prop where
  config : SameConfig a0 n.auth
  authState : n.auth.m_state = Authenticator.State.WaitConfirmResponse
  authSession : n.auth.m_session = ⟨some sid, some K⟩
  devState : n.dev.m_state = Device.State.WaitAuthenticatorCert
  devSession : n.dev.m_session = ⟨some sid, some K⟩
  authenticatorCertName :
    n.dev.m_authenticatorCertName = a0.m_cert.name ++ [L.implicitDigest a0.m_cert]
  deviceName : n.dev.m_deviceName = a0.m_deviceName
  caProfile : ∃ j cp, n.dev.m_caProfile = ((env j).caProfileFromData cp a0.m_caProfile).2
  toAuth : n.toAuth = []
  toDev : ∃ x, x.name ++ [L.implicitDigest x] = a0.m_cert.name ++ [L.implicitDigest a0.m_cert] ∧
    n.toDev = [Packet.data x]

/-- The temp certificate is issued; nothing is in flight. -/
structure Stage4 (sid : Component) (K : Bytes) (n : Net) : Prop where
  authState : n.auth.m_state = Authenticator.State.SendCredentialRequest
  authSession : n.auth.m_session = ⟨some sid, some K⟩
  issued : n.auth.m_issued.isSome = true
  devState : n.dev.m_state = Device.State.WaitCredentialRequest
  devSession : n.dev.m_session = ⟨some sid, some K⟩
  toAuth : n.toAuth = []
  toDev : n.toDev = []

/-- The Device fetches the temp certificate; it is in flight. -/
structure Stage5 (L : Lib) (n : Net) : Prop where
  authState : n.auth.m_state = Authenticator.State.WaitCredentialResponse
  devState : n.dev.m_state = Device.State.WaitTempCert
  toAuth : n.toAuth = []
  toDev : ∃ y, n.dev.m_tempCertName = y.name ++ [L.implicitDigest y] ∧ n.toDev = [Packet.data y]

/-- Both endpoints are done; nothing is in flight. -/
structure Stage6 (n : Net) : Prop where
  authState : n.auth.m_state = Authenticator.State.Success
  devState : n.dev.m_state = Device.State.Success
  toAuth : n.toAuth = []
  toDev : n.toDev = []

end Net

namespace Toy

/-- A Device waiting for the CA profile `caProfile`. -/
def devWaitCa : Device :=
  { Device.new with
    m_state := Device.State.WaitCaProfile
    m_session := keyedSession
    m_spake2 := some ⟨Role.Bob, password⟩
    m_caProfileName := caProfile.name ++ [lib.implicitDigest caProfile] }

/-- An environment whose clock is past the end of the validity of `caProfile`. -/
def envLate : Env := { env with now := 20000 }

end Toy

/-- Whether none of the calls of a sequence is `begin`. -/
def Device.noBegin (ops : List (Env × Device.Op)) : Bool :=
  ops.all fun p =>
    match p.2 with
    | Device.Op.begin _ => false
    | _ => true

/-- Whether `name[-1].is<ImplicitDigest>()`. -/
def endsWithDigest (L : Lib) (n : Name) : Bool := L.isImplicitDigest (Name.last n)

namespace Toy

end Toy

/-- The last element of TLV-TYPE `t` among the elements of an input, if any. -/
def Value.lastOf (v : Value) (t : Nat) : Option Tlv :=
  (v.elems.filter fun e => e.type == t).getLast?

namespace Toy

/-- A session of the Authenticator up to the issuance of the temp certificate,
then `end()`. -/
def authOpsEnded : List (Env × Authenticator.Op) :=
  authOps ++ [(env, .processData confirmResponse), (env, .end)]

/-- A session of the Device up to the generation of the temp key pair, then
`end()`. -/
def devOpsEnded : List (Env × Device.Op) :=
  devOps ++ [(env, .loop), (env, .processData caProfile), (env, .loop),
    (env, .processData cert), (env, .end)]

/-- The Authenticator after `authOpsEnded`. -/
def authEnded : Authenticator :=
  (Authenticator.exec lib (Authenticator.new options, []) authOpsEnded).1

/-- The Device after `devOpsEnded`. -/
def devEnded : Device := (Device.exec lib (Device.new, []) devOpsEnded).1

/-- An Interest for the full name of the certificate `authEnded` still holds. -/
def issuedInterest : Interest :=
  ⟨(authEnded.m_issued.map (getFullName lib env)).getD [], ⟨[], true⟩⟩

end Toy

namespace Toy

/-- The ConfirmRequest struct behind `confirmInterest`; its `timestamp` is 0. -/
def confirmRequest : packet_struct.ConfirmRequest :=
  { spake2Fkca := [3, 4]
    nc := [5]
    caProfileName := getFullName lib env caProfile
    authenticatorCertName := getFullName lib env cert
    deviceName := options.deviceName
    timestamp := 0 }

end Toy

/-- Presence of the members the Authenticator dereferences in its state:
`m_spake2` in `SendPakeRequest` and `WaitPakeResponse`, `m_issued` in
`SendCredentialRequest` and `WaitCredentialResponse`. -/
def Authenticator.membersPresent (a : Authenticator) : Prop :=
  ((a.m_state = Authenticator.State.SendPakeRequest ∨
      a.m_state = Authenticator.State.WaitPakeResponse) → a.m_spake2.isSome = true) ∧
  ((a.m_state = Authenticator.State.SendCredentialRequest ∨
      a.m_state = Authenticator.State.WaitCredentialResponse) → a.m_issued.isSome = true)

/-- Presence of the member the Device dereferences in its state: `m_spake2` in
`WaitPakeRequest` and `WaitConfirmRequest`. -/
def Device.membersPresent (d : Device) : Prop :=
  (d.m_state = Device.State.WaitPakeRequest ∨ d.m_state = Device.State.WaitConfirmRequest) →
    d.m_spake2.isSome = true

/-- The immediate successor of a state in the protocol order of the
Authenticator: `SendPakeRequest`, `WaitPakeResponse`, `WaitConfirmResponse`,
`SendCredentialRequest`, `WaitCredentialResponse`, `Success`. -/
def Authenticator.State.next : Authenticator.State → Option Authenticator.State
  | .SendPakeRequest => some .WaitPakeResponse
  | .WaitPakeResponse => some .WaitConfirmResponse
  | .WaitConfirmResponse => some .SendCredentialRequest
  | .SendCredentialRequest => some .WaitCredentialResponse
  | .WaitCredentialResponse => some .Success
  | _ => none

/-- A forward move of the Authenticator from `s` to `t`: `t` is `s`, the
immediate successor of `s`, or `Failure`; and `t` is `s` when `s` is `Idle`,
`Success` or `Failure`. -/
def Authenticator.State.movesTo (s t : Authenticator.State) : Prop :=
  (t = s ∨ s.next = some t ∨ t = Authenticator.State.Failure) ∧
  ((s = Authenticator.State.Idle ∨ s = Authenticator.State.Success ∨
      s = Authenticator.State.Failure) → t = s)

/-- The immediate successor of a state in the protocol order of the Device:
`WaitPakeRequest`, `WaitConfirmRequest`, `FetchCaProfile`, `WaitCaProfile`,
`FetchAuthenticatorCert`, `WaitAuthenticatorCert`, `WaitCredentialRequest`,
`FetchTempCert`, `WaitTempCert`, `Success`. -/
def Device.State.next : Device.State → Option Device.State
  | .WaitPakeRequest => some .WaitConfirmRequest
  | .WaitConfirmRequest => some .FetchCaProfile
  | .FetchCaProfile => some .WaitCaProfile
  | .WaitCaProfile => some .FetchAuthenticatorCert
  | .FetchAuthenticatorCert => some .WaitAuthenticatorCert
  | .WaitAuthenticatorCert => some .WaitCredentialRequest
  | .WaitCredentialRequest => some .FetchTempCert
  | .FetchTempCert => some .WaitTempCert
  | .WaitTempCert => some .Success
  | _ => none

/-- A forward move of the Device from `s` to `t`: `t` is `s`, the immediate
successor of `s`, or `Failure`; and `t` is `s` when `s` is `Idle`, `Success` or
`Failure`. -/
def Device.State.movesTo (s t : Device.State) : Prop :=
  (t = s ∨ s.next = some t ∨ t = Device.State.Failure) ∧
  ((s = Device.State.Idle ∨ s = Device.State.Success ∨ s = Device.State.Failure) → t = s)

namespace Toy

/-- An environment in which the transport accepts no Interest. -/
def envNoSend : Env := { env with pendingSend := fun _ _ => false }

/-- An environment in which no Interest can be created. -/
def envNoInterest : Env := { env with createInterest := false }

/-- An Authenticator that has issued the temp certificate and is about to send
the CredentialRequest. -/
def authIssued : Authenticator :=
  (Authenticator.exec lib (Authenticator.new options, [])
    (authOps ++ [(env, .processData confirmResponse)])).1

/-- A Device that has accepted the ConfirmRequest and is about to fetch the CA
profile. -/
def devFetchCa : Device := (Device.exec lib (Device.new, []) devOps).1

end Toy

/-! ## Theorems -/

section helpers

theorem Authenticator.handleConfirmResponse_of_mismatch (L : Lib) (E : Env) (a : Authenticator)
    (data : Data) (res : Authenticator.ConfirmResponse)
    (hres : Authenticator.ConfirmResponse.fromData L E data a.m_session = some res)
    (hne : L.toSubjectName ((res.tempCertReq.map (·.name)).getD []) ≠
      computeTempSubjectName L E a.m_cert.name a.m_deviceName) :
    Authenticator.handleConfirmResponse L E a data =
      (true, { a with m_state := Authenticator.State.Failure }, []) := by
  simp [Authenticator.handleConfirmResponse, hres, hne, Authenticator.GotoState.destroy]

theorem Device.checkInterestVerb_state (L : Lib) (E : Env) (d : Device) (interest : Interest)
    (verb : Component) : (Device.checkInterestVerb L E d interest verb).2.m_state = d.m_state := by
  unfold Device.checkInterestVerb
  simp only
  split <;> rfl

theorem Device.checkInterestVerb_spake2 (L : Lib) (E : Env) (d : Device) (interest : Interest)
    (verb : Component) : (Device.checkInterestVerb L E d interest verb).2.m_spake2 = d.m_spake2 := by
  unfold Device.checkInterestVerb
  simp only
  split <;> rfl

theorem Device.handleAuthenticatorCert_of_invalid (L : Lib) (E : Env) (d : Device) (data : Data)
    (hmatch : E.pendingMatch data d.m_authenticatorCertName = true)
    (hbad : L.verify data d.m_caProfile.pub = false ∨ (L.getValidity data).includes E.now = false) :
    Device.handleAuthenticatorCert L E d data =
      (false, { d with m_state := Device.State.Failure }, []) := by
  rcases hbad with h | h <;>
    simp [Device.handleAuthenticatorCert, hmatch, h, Device.GotoState.destroy]

end helpers

/-- C2 (counterexample). An Authenticator in `WaitConfirmResponse` receives, with
a matching PIT token, a ConfirmResponse that decodes and decrypts but whose tReq
subject is not the computed temp subject: the state after `processData` is not
`WaitConfirmResponse`. -/
theorem Authenticator.subject_mismatch_not_silent :
    Toy.authWaitConfirm.m_state = Authenticator.State.WaitConfirmResponse ∧
    Toy.env.matchPitToken = true ∧
    Authenticator.ConfirmResponse.fromData Toy.lib Toy.env Toy.foreignConfirmResponse
      Toy.authWaitConfirm.m_session = some ⟨some Toy.foreignTReq, ⟨[9]⟩⟩ ∧
    Toy.lib.toSubjectName Toy.foreignTReq.name ≠
      computeTempSubjectName Toy.lib Toy.env Toy.authWaitConfirm.m_cert.name
        Toy.authWaitConfirm.m_deviceName ∧
    (Authenticator.processData Toy.lib Toy.env Toy.authWaitConfirm
      Toy.foreignConfirmResponse).2.1.m_state ≠ Authenticator.State.WaitConfirmResponse := by
  decide

/-- C2 (amended). For an Authenticator in `WaitConfirmResponse` and a Data with
matching PIT token whose ConfirmResponse decodes and decrypts but whose tReq
subject name differs from `computeTempSubjectName(m_cert name, m_deviceName)`,
`processData` consumes the packet (returns `true`), the state after the call is
`Failure`, nothing is sent and no certificate is issued (every other field,
`m_issued` included, is unchanged). -/
theorem Authenticator.subject_mismatch_fails (L : Lib) (E : Env) (a : Authenticator)
    (data : Data) (res : Authenticator.ConfirmResponse)
    (hs : a.m_state = Authenticator.State.WaitConfirmResponse)
    (hpit : E.matchPitToken = true)
    (hres : Authenticator.ConfirmResponse.fromData L E data a.m_session = some res)
    (hne : L.toSubjectName ((res.tempCertReq.map (·.name)).getD []) ≠
      computeTempSubjectName L E a.m_cert.name a.m_deviceName) :
    Authenticator.processData L E a data =
      (true, { a with m_state := Authenticator.State.Failure }, []) := by
  simp [Authenticator.processData, hpit, hs,
    Authenticator.handleConfirmResponse_of_mismatch L E a data res hres hne]

theorem Authenticator.subject_mismatch_fails_witness :
    Authenticator.processData Toy.lib Toy.env Toy.authWaitConfirm Toy.foreignConfirmResponse =
      (true, { Toy.authWaitConfirm with m_state := Authenticator.State.Failure }, []) :=
  Authenticator.subject_mismatch_fails Toy.lib Toy.env Toy.authWaitConfirm
    Toy.foreignConfirmResponse ⟨some Toy.foreignTReq, ⟨[9]⟩⟩ (by decide) (by decide) (by decide)
    (by decide)

/-- C4. For a Data with matching PIT token, if the Authenticator is in
`WaitPakeResponse` and `PakeResponse::fromData` returns false, or in
`WaitConfirmResponse` and `ConfirmResponse::fromData` returns false, then
`processData` returns false, the whole endpoint (state and SPAKE2 context
included) is unchanged and no call to the transport, the SPAKE2 context or the
session is made. -/
theorem Authenticator.decode_failure_soft_drop (L : Lib) (E : Env) (a : Authenticator)
    (data : Data) (hpit : E.matchPitToken = true)
    (h : (a.m_state = Authenticator.State.WaitPakeResponse ∧
            Authenticator.PakeResponse.fromData L data = none) ∨
         (a.m_state = Authenticator.State.WaitConfirmResponse ∧
            Authenticator.ConfirmResponse.fromData L E data a.m_session = none)) :
    Authenticator.processData L E a data = (false, a, []) := by
  rcases h with ⟨hs, hd⟩ | ⟨hs, hd⟩
  · simp [Authenticator.processData, hpit, hs, Authenticator.handlePakeResponse, hd]
  · simp [Authenticator.processData, hpit, hs, Authenticator.handleConfirmResponse, hd]

theorem Authenticator.decode_failure_soft_drop_witness :
    Authenticator.processData Toy.lib Toy.env Toy.authWaitConfirm Toy.cert =
      (false, Toy.authWaitConfirm, []) :=
  Authenticator.decode_failure_soft_drop Toy.lib Toy.env Toy.authWaitConfirm Toy.cert
    (by decide) (Or.inr (by decide))

/-- C5 (counterexample). A Device in `WaitAuthenticatorCert` receives the Data it
asked for (PIT token and full name match) but the Data does not verify under the
CA public key: the state after `processData` is not `WaitAuthenticatorCert`. -/
theorem Device.invalid_cert_not_soft :
    Toy.devWaitCert.m_state = Device.State.WaitAuthenticatorCert ∧
    Toy.env.matchPitToken = true ∧
    Toy.env.pendingMatch Toy.cert Toy.devWaitCert.m_authenticatorCertName = true ∧
    Toy.lib.verify Toy.cert Toy.devWaitCert.m_caProfile.pub = false ∧
    (Device.processData Toy.lib Toy.env Toy.devWaitCert Toy.cert).2.1.m_state ≠
      Device.State.WaitAuthenticatorCert := by
  decide

/-- C5 (amended). For a Device in `WaitAuthenticatorCert` and a Data that matches
the pending request (PIT token and full name `m_authenticatorCertName`) but
fails signature verification under the CA public key, or whose validity period
does not include the current time, the Device state after `processData` is
`Failure` and no ConfirmResponse is sent (no event at all; every other field is
unchanged). -/
theorem Device.invalid_cert_fails (L : Lib) (E : Env) (d : Device) (data : Data)
    (hs : d.m_state = Device.State.WaitAuthenticatorCert)
    (hpit : E.matchPitToken = true)
    (hmatch : E.pendingMatch data d.m_authenticatorCertName = true)
    (hbad : L.verify data d.m_caProfile.pub = false ∨ (L.getValidity data).includes E.now = false) :
    (Device.processData L E d data).2 = ({ d with m_state := Device.State.Failure }, []) := by
  simp [Device.processData, hpit, hs,
    Device.handleAuthenticatorCert_of_invalid L E d data hmatch hbad]

theorem Device.invalid_cert_fails_witness :
    (Device.processData Toy.lib Toy.env Toy.devWaitCert Toy.cert).2 =
      ({ Toy.devWaitCert with m_state := Device.State.Failure }, []) :=
  Device.invalid_cert_fails Toy.lib Toy.env Toy.devWaitCert Toy.cert (by decide) (by decide)
    (by decide) (Or.inl (by decide))

/-- C6 (counterexample). A Device in `WaitPakeRequest` whose `m_pending.expired()`
is true is not in `Failure` after `loop()`. -/
theorem Device.wait_request_no_timeout :
    Toy.devBegun.m_state = Device.State.WaitPakeRequest ∧
    Toy.envExpired.expired = true ∧
    (Device.loop Toy.envExpired Toy.devBegun).1.m_state ≠ Device.State.Failure := by
  decide

/-- C6 (amended). If `m_pending.expired()` is true, a call to `loop()` in
`WaitCaProfile`, `WaitAuthenticatorCert` or `WaitTempCert` (the states in which
the Device has a request outstanding) leaves the Device in `Failure`; in
`WaitPakeRequest`, `WaitConfirmRequest` and `WaitCredentialRequest` `loop()`
leaves the Device as it is. -/
theorem Device.loop_timeout (E : Env) (d : Device) (hexp : E.expired = true) :
    ((d.m_state = Device.State.WaitCaProfile ∨ d.m_state = Device.State.WaitAuthenticatorCert ∨
        d.m_state = Device.State.WaitTempCert) →
      (Device.loop E d).1.m_state = Device.State.Failure) ∧
    ((d.m_state = Device.State.WaitPakeRequest ∨ d.m_state = Device.State.WaitConfirmRequest ∨
        d.m_state = Device.State.WaitCredentialRequest) →
      Device.loop E d = (d, [])) := by
  constructor
  · rintro (hs | hs | hs) <;> simp [Device.loop, hs, hexp]
  · rintro (hs | hs | hs) <;> simp [Device.loop, hs]

theorem Device.loop_timeout_witness :
    (Device.loop Toy.envExpired Toy.devWaitCert).1.m_state = Device.State.Failure ∧
    Device.loop Toy.envExpired Toy.devBegun = (Toy.devBegun, []) :=
  ⟨(Device.loop_timeout Toy.envExpired Toy.devWaitCert (by decide)).1 (Or.inr (Or.inl (by decide))),
   (Device.loop_timeout Toy.envExpired Toy.devBegun (by decide)).2 (Or.inl (by decide))⟩

/-- C7. For an Authenticator in `WaitPakeResponse`, `WaitConfirmResponse` or
`WaitCredentialResponse`, `loop()` sets the state to `Failure` if
`m_pending.expired()` is true and leaves the endpoint as it is if it is false;
it sends nothing (makes no external call) in either case. -/
theorem Authenticator.loop_wait (L : Lib) (E : Env) (a : Authenticator)
    (hs : a.m_state = Authenticator.State.WaitPakeResponse ∨
          a.m_state = Authenticator.State.WaitConfirmResponse ∨
          a.m_state = Authenticator.State.WaitCredentialResponse) :
    Authenticator.loop L E a =
      (if E.expired then { a with m_state := Authenticator.State.Failure } else a, []) := by
  rcases hs with hs | hs | hs <;> simp [Authenticator.loop, hs] <;> split <;> rfl

theorem Authenticator.loop_wait_witness :
    Authenticator.loop Toy.lib Toy.envExpired Toy.authWaitConfirm =
      (if Toy.envExpired.expired then
        { Toy.authWaitConfirm with m_state := Authenticator.State.Failure }
       else Toy.authWaitConfirm, []) :=
  Authenticator.loop_wait Toy.lib Toy.envExpired Toy.authWaitConfirm (Or.inr (Or.inl (by decide)))

theorem Device.handlePakeRequest_of_rejected (L : Lib) (E : Env) (d : Device) (interest : Interest)
    (hcheck : (Device.checkInterestVerb L E d interest L.getPakeComponent).1 = true)
    (hrej : Device.PakeRequest.fromInterest L interest = none) :
    Device.handlePakeRequest L E d interest =
      (true, { (Device.checkInterestVerb L E d interest L.getPakeComponent).2 with
                m_state := Device.State.Failure }, []) := by
  unfold Device.handlePakeRequest
  generalize Device.checkInterestVerb L E d interest L.getPakeComponent = r at hcheck ⊢
  obtain ⟨ok, d1⟩ := r
  simp only at hcheck
  subst hcheck
  simp [Device.pakeRequestSteps, hrej, Device.GotoState.destroy]

theorem Device.handleConfirmRequest_of_rejected (L : Lib) (E : Env) (d : Device)
    (interest : Interest)
    (hcheck : (Device.checkInterestVerb L E d interest L.getConfirmComponent).1 = true)
    (hrej : match Device.ConfirmRequest.fromInterest L interest with
      | none => True
      | some (req, encrypted) =>
        match d.m_spake2 with
        | some ctx =>
          Device.ConfirmRequest.decrypt L E req encrypted
            ((Device.checkInterestVerb L E d interest L.getConfirmComponent).2.m_session.importKey
              E (E.getSharedKey ctx)).2 = none
        | none => False) :
    (Device.handleConfirmRequest L E d interest).1 = true ∧
    (Device.handleConfirmRequest L E d interest).2.1.m_state = Device.State.Failure ∧
    transmitted (Device.handleConfirmRequest L E d interest).2.2 = [] := by
  have hsp := Device.checkInterestVerb_spake2 L E d interest L.getConfirmComponent
  unfold Device.handleConfirmRequest
  generalize Device.checkInterestVerb L E d interest L.getConfirmComponent = r at hcheck hrej hsp ⊢
  obtain ⟨ok, d1⟩ := r
  simp only at hcheck hsp hrej
  subst hcheck
  simp only [Bool.not_true, Bool.false_eq_true, if_false]
  cases hfi : Device.ConfirmRequest.fromInterest L interest with
  | none => simp [Device.GotoState.destroy, transmitted]
  | some p =>
    obtain ⟨req, encrypted⟩ := p
    rw [hfi] at hrej
    simp only at hrej
    cases hctx : d.m_spake2 with
    | none => rw [hctx] at hrej; exact absurd hrej (by simp)
    | some ctx =>
      rw [hctx] at hrej hsp
      simp only at hrej
      simp only [hsp]
      by_cases h2 : E.processSecondMessage ctx req.spake2Fkca = true
      · simp only [h2, Bool.not_true, Bool.false_eq_true, if_false]
        by_cases himp : E.importKey d1.m_session (E.getSharedKey ctx) = true
        · simp [EncryptSession.importKey, himp] at hrej ⊢
          simp [hrej, Device.GotoState.destroy, transmitted]
        · simp [EncryptSession.importKey, himp, Device.GotoState.destroy, transmitted]
      · simp [h2, Device.GotoState.destroy, transmitted]

theorem Device.handleCredentialRequest_of_rejected (L : Lib) (E : Env) (d : Device)
    (interest : Interest)
    (hcheck : (Device.checkInterestVerb L E d interest L.getCredentialComponent).1 = true)
    (hrej : Device.CredentialRequest.fromInterest L E interest
      (Device.checkInterestVerb L E d interest L.getCredentialComponent).2.m_session = none) :
    Device.handleCredentialRequest L E d interest =
      (true, { (Device.checkInterestVerb L E d interest L.getCredentialComponent).2 with
                m_state := Device.State.Failure }, []) := by
  unfold Device.handleCredentialRequest
  generalize Device.checkInterestVerb L E d interest L.getCredentialComponent = r at hcheck hrej ⊢
  obtain ⟨ok, d1⟩ := r
  simp only at hcheck hrej
  subst hcheck
  simp [hrej, Device.GotoState.destroy]

/-- C3 (counterexample). A Device in `WaitPakeRequest` receives an Interest that
passes `checkInterestVerb` and whose `Spake2T` has the wrong length, so that the
`PakeRequest` decoder rejects it: the state after `processInterest` is not
`WaitPakeRequest`. -/
theorem Device.payload_rejection_not_soft :
    Toy.devBegun.m_state = Device.State.WaitPakeRequest ∧
    (Device.checkInterestVerb Toy.lib Toy.env Toy.devBegun Toy.longPakeInterest
      Toy.lib.getPakeComponent).1 = true ∧
    Toy.longPakeInterest.appParameters.elems = [⟨Toy.lib.tt .Spake2T, [1, 2, 3]⟩] ∧
    Toy.lib.sizeofSpake2T = 2 ∧
    Device.PakeRequest.fromInterest Toy.lib Toy.longPakeInterest = none ∧
    (Device.processInterest Toy.lib Toy.env Toy.devBegun Toy.longPakeInterest).2.1.m_state ≠
      Device.State.WaitPakeRequest := by
  decide

/-- C3 (amended). For a Device in state S among `WaitPakeRequest`,
`WaitConfirmRequest`, `WaitCredentialRequest` and an Interest that passes
`checkInterestVerb` for that state but whose payload is rejected by the decoder
of the handler (wrong-length SPAKE2 field, failed decryption of the envelope,
a referenced name without implicit digest), `processInterest` returns true, the
Device state after the call is `Failure` and nothing is replied. -/
theorem Device.payload_rejection_fails (L : Lib) (E : Env) (d : Device) (interest : Interest)
    (verb : Component)
    (hverb : Device.expectedVerb L d.m_state = some verb)
    (hcheck : (Device.checkInterestVerb L E d interest verb).1 = true)
    (hrej : Device.payloadRejected L E (Device.checkInterestVerb L E d interest verb).2
      interest = true) :
    (Device.processInterest L E d interest).1 = true ∧
    (Device.processInterest L E d interest).2.1.m_state = Device.State.Failure ∧
    transmitted (Device.processInterest L E d interest).2.2 = [] := by
  have hst := Device.checkInterestVerb_state L E d interest verb
  have hsp := Device.checkInterestVerb_spake2 L E d interest verb
  unfold Device.payloadRejected at hrej
  rw [hst] at hrej
  cases hs : d.m_state <;> rw [hs] at hverb hrej <;>
    simp only [Device.expectedVerb, Option.some.injEq, reduceCtorEq] at hverb
  · subst hverb
    simp only [Option.isNone_iff_eq_none] at hrej
    simp [Device.processInterest, hs, Device.handlePakeRequest_of_rejected L E d interest hcheck hrej,
      transmitted]
  · subst hverb
    unfold Device.processInterest
    rw [hs]
    apply Device.handleConfirmRequest_of_rejected L E d interest hcheck
    cases hfi : Device.ConfirmRequest.fromInterest L interest with
    | none => trivial
    | some p =>
      obtain ⟨req, encrypted⟩ := p
      rw [hfi] at hrej
      simp only at hrej ⊢
      rw [hsp] at hrej
      cases hctx : d.m_spake2 with
      | none => rw [hctx] at hrej; simp at hrej
      | some ctx => rw [hctx] at hrej; simpa using hrej
  · subst hverb
    simp only [Option.isNone_iff_eq_none] at hrej
    simp [Device.processInterest, hs,
      Device.handleCredentialRequest_of_rejected L E d interest hcheck hrej, transmitted]

theorem Device.payload_rejection_fails_witness :
    (Device.processInterest Toy.lib Toy.env Toy.devBegun Toy.longPakeInterest).1 = true ∧
    (Device.processInterest Toy.lib Toy.env Toy.devBegun Toy.longPakeInterest).2.1.m_state =
      Device.State.Failure ∧
    transmitted (Device.processInterest Toy.lib Toy.env Toy.devBegun Toy.longPakeInterest).2.2 =
      [] :=
  Device.payload_rejection_fails Toy.lib Toy.env Toy.devBegun Toy.longPakeInterest
    Toy.lib.getPakeComponent (by decide) (by decide) (by decide)

set_option maxRecDepth 100000 in
/-- C9 (evaluation at the failing input). A Device in `WaitConfirmRequest`
handles a well-formed ConfirmRequest: `importKey` succeeds, the state becomes
`FetchCaProfile`, and `m_spake2` is still present. -/
theorem Device.spake2_kept_after_importKey :
    (Device.processInterest Toy.lib Toy.env Toy.devWaitConfirm Toy.confirmInterest).2.1.m_state =
      Device.State.FetchCaProfile ∧
    Event.importKey Toy.password true ∈
      (Device.processInterest Toy.lib Toy.env Toy.devWaitConfirm Toy.confirmInterest).2.2 ∧
    (Device.processInterest Toy.lib Toy.env Toy.devWaitConfirm Toy.confirmInterest).2.1.m_spake2 =
      some ⟨Role.Bob, Toy.password⟩ := by
  decide

/-- C10. Whenever `handleConfirmResponse` moves the state from
`WaitConfirmResponse` to `SendCredentialRequest`, the subject of the received
tReq equals `computeTempSubjectName(m_cert name, m_deviceName)`, and `m_issued`
is present and is the decoding of the certificate built by `buildCertificate`
from the received public key with exactly that subject name, the validity period
`[now, now + TempCertValidity]` and the private key `m_pvt`. -/
theorem Authenticator.issued_certificate_bound (L : Lib) (E : Env) (a : Authenticator)
    (data : Data)
    (hbefore : a.m_state = Authenticator.State.WaitConfirmResponse)
    (hafter : (Authenticator.handleConfirmResponse L E a data).2.1.m_state =
      Authenticator.State.SendCredentialRequest) :
    ∃ res wire issued,
      Authenticator.ConfirmResponse.fromData L E data a.m_session = some res ∧
      L.toSubjectName ((res.tempCertReq.map (·.name)).getD []) =
        computeTempSubjectName L E a.m_cert.name a.m_deviceName ∧
      E.buildCertificate res.tPub (computeTempSubjectName L E a.m_cert.name a.m_deviceName)
        ⟨E.now, E.now + L.TempCertValidity⟩ a.m_pvt = some wire ∧
      L.decodeData wire = some issued ∧
      (Authenticator.handleConfirmResponse L E a data).2.1.m_issued = some issued := by
  unfold Authenticator.handleConfirmResponse at hafter ⊢
  cases hres : Authenticator.ConfirmResponse.fromData L E data a.m_session with
  | none => simp [hres, hbefore] at hafter
  | some res =>
    simp only [hres] at hafter ⊢
    by_cases hsub : L.toSubjectName ((res.tempCertReq.map (·.name)).getD []) =
        computeTempSubjectName L E a.m_cert.name a.m_deviceName
    · simp only [bne_iff_ne, ne_eq, hsub, not_true_eq_false, if_false] at hafter ⊢
      cases hb : E.buildCertificate res.tPub
          (computeTempSubjectName L E a.m_cert.name a.m_deviceName)
          ⟨E.now, E.now + L.TempCertValidity⟩ a.m_pvt with
      | none => simp [hb, Authenticator.GotoState.destroy] at hafter
      | some wire =>
        simp only [hb] at hafter ⊢
        by_cases hc : E.createIssued = true
        · simp only [hc, Bool.not_true, Bool.false_eq_true, if_false] at hafter ⊢
          cases hd : L.decodeData wire with
          | none => simp [hd, Authenticator.GotoState.destroy] at hafter
          | some issued =>
            refine ⟨res, wire, issued, rfl, hsub, hb, hd, ?_⟩
            simp [Authenticator.GotoState.call, Authenticator.GotoState.destroy]
        · simp [hc, Authenticator.GotoState.destroy] at hafter
    · simp [hsub, Authenticator.GotoState.destroy] at hafter

theorem Authenticator.issued_certificate_bound_witness :
    ∃ res wire issued,
      Authenticator.ConfirmResponse.fromData Toy.lib Toy.env Toy.confirmResponse
        Toy.authWaitConfirm.m_session = some res ∧
      Toy.lib.toSubjectName ((res.tempCertReq.map (·.name)).getD []) =
        computeTempSubjectName Toy.lib Toy.env Toy.authWaitConfirm.m_cert.name
          Toy.authWaitConfirm.m_deviceName ∧
      Toy.env.buildCertificate res.tPub
        (computeTempSubjectName Toy.lib Toy.env Toy.authWaitConfirm.m_cert.name
          Toy.authWaitConfirm.m_deviceName)
        ⟨Toy.env.now, Toy.env.now + Toy.lib.TempCertValidity⟩ Toy.authWaitConfirm.m_pvt =
          some wire ∧
      Toy.lib.decodeData wire = some issued ∧
      (Authenticator.handleConfirmResponse Toy.lib Toy.env Toy.authWaitConfirm
        Toy.confirmResponse).2.1.m_issued = some issued :=
  Authenticator.issued_certificate_bound Toy.lib Toy.env Toy.authWaitConfirm Toy.confirmResponse
    (by decide) (by decide)

section helpers

theorem spake2Steps_append (l1 l2 : List Event) :
    spake2Steps (l1 ++ l2) = spake2Steps l1 ++ spake2Steps l2 := by
  induction l1 with
  | nil => rfl
  | cons e es ih => cases e <;> simp [spake2Steps, ih]

theorem importKeyGuarded_append (seen : List (Spake2Step × Bool)) (l1 l2 : List Event) :
    importKeyGuarded seen (l1 ++ l2) =
      (importKeyGuarded seen l1 && importKeyGuarded (seen ++ spake2Steps l1) l2) := by
  induction l1 generalizing seen with
  | nil => simp [importKeyGuarded, spake2Steps]
  | cons e es ih =>
    cases e <;> simp [importKeyGuarded, spake2Steps, ih, Bool.and_assoc]

theorem importKeyGuarded_split (seen : List (Spake2Step × Bool)) (log pre post : List Event)
    (k : Bytes) (ok : Bool) (h : importKeyGuarded seen log = true)
    (hlog : log = pre ++ Event.importKey k ok :: post) :
    seen ++ spake2Steps pre = completedPake := by
  subst hlog
  rw [importKeyGuarded_append] at h
  simp only [importKeyGuarded, Bool.and_eq_true, decide_eq_true_eq] at h
  exact h.2.1

theorem Authenticator.auth_logInv_step (L : Lib) (E : Env) (a : Authenticator) (log : List Event)
    (op : Authenticator.Op) (h : Authenticator.logInv a log) (hop : ∀ pw, op ≠ .begin pw) :
    Authenticator.logInv (Authenticator.step L E a op).1
      (log ++ (Authenticator.step L E a op).2) := by
  obtain ⟨hg, h1, h2⟩ := h
  unfold Authenticator.logInv
  rw [importKeyGuarded_append, spake2Steps_append, hg]
  cases op with
  | begin pw => exact absurd rfl (hop pw)
  | «end» => simp [Authenticator.step, Authenticator.end, importKeyGuarded, spake2Steps]
  | loop =>
    simp only [Authenticator.step, Authenticator.loop]
    cases hs : a.m_state <;> simp only [hs, reduceCtorEq, false_implies, true_implies] at h1 h2 ⊢
    all_goals
      try simp only [Authenticator.sendPakeRequest, Authenticator.sendCredentialRequest,
        Authenticator.GotoState.call, Authenticator.GotoState.destroy]
      repeat' split
      all_goals simp_all [importKeyGuarded, spake2Steps]
  | processData data =>
    simp only [Authenticator.step, Authenticator.processData]
    split
    · simpa [importKeyGuarded, spake2Steps] using ⟨h1, h2⟩
    · cases hs : a.m_state <;>
        simp only [hs, reduceCtorEq, false_implies, true_implies] at h1 h2 ⊢
      all_goals
        try simp only [Authenticator.handlePakeResponse, Authenticator.handleConfirmResponse,
          Authenticator.pakeResponseSteps, EncryptSession.importKey,
          Authenticator.GotoState.call, Authenticator.GotoState.destroy]
        repeat' split
        all_goals simp_all [importKeyGuarded, spake2Steps, completedPake, spake2Steps_append]
  | processInterest interest =>
    simp only [Authenticator.step, Authenticator.processInterest]
    repeat' split
    all_goals simp_all [importKeyGuarded, spake2Steps]

theorem Authenticator.auth_logInv_exec (L : Lib) (ops : List (Env × Authenticator.Op))
    (a : Authenticator) (log : List Event) (h : Authenticator.logInv a log) :
    Authenticator.logInv (Authenticator.exec L (a, log) ops).1
      (Authenticator.exec L (a, log) ops).2 := by
  induction ops generalizing a log with
  | nil => exact h
  | cons x rest ih =>
    obtain ⟨E, op⟩ := x
    cases op with
    | begin pw =>
      simp only [Authenticator.exec]
      apply ih
      refine ⟨rfl, fun _ => rfl, ?_⟩
      simp only [Authenticator.step, Authenticator.begin, Authenticator.end, EncryptSession.begin]
      repeat' split
      all_goals simp_all
    | «end» =>
      simp only [Authenticator.exec]
      exact ih _ _ (Authenticator.auth_logInv_step L E a log Authenticator.Op.end h (by simp))
    | loop =>
      simp only [Authenticator.exec]
      exact ih _ _ (Authenticator.auth_logInv_step L E a log Authenticator.Op.loop h (by simp))
    | processData data =>
      simp only [Authenticator.exec]
      exact ih _ _
        (Authenticator.auth_logInv_step L E a log (Authenticator.Op.processData data) h (by simp))
    | processInterest interest =>
      simp only [Authenticator.exec]
      exact ih _ _
        (Authenticator.auth_logInv_step L E a log (Authenticator.Op.processInterest interest) h
          (by simp))

theorem Device.pakeRequestSteps_spec (L : Lib) (E : Env) (d : Device) (interest : Interest)
    (seen : List (Spake2Step × Bool)) :
    importKeyGuarded seen (Device.pakeRequestSteps L E d interest).2 = true ∧
    ((Device.pakeRequestSteps L E d interest).1 = true →
      spake2Steps (Device.pakeRequestSteps L E d interest).2 =
        [(Spake2Step.generateFirstMessage, true), (Spake2Step.processFirstMessage, true),
         (Spake2Step.generateSecondMessage, true)]) := by
  unfold Device.pakeRequestSteps
  repeat' split
  all_goals simp_all [importKeyGuarded, spake2Steps]

theorem Device.dev_logInv_step (L : Lib) (E : Env) (d : Device) (log : List Event)
    (op : Device.Op) (h : Device.logInv d log) (hop : ∀ pw, op ≠ .begin pw) :
    Device.logInv (Device.step L E d op).1 (log ++ (Device.step L E d op).2) := by
  obtain ⟨hg, h1, h2⟩ := h
  unfold Device.logInv
  rw [importKeyGuarded_append, spake2Steps_append, hg]
  cases op with
  | begin pw => exact absurd rfl (hop pw)
  | «end» => simp [Device.step, Device.end, importKeyGuarded, spake2Steps]
  | loop =>
    simp only [Device.step, Device.loop]
    cases hs : d.m_state <;> simp only [hs, reduceCtorEq, false_implies, true_implies] at h1 h2 ⊢
    all_goals
      try simp only [Device.sendFetchInterest, Device.GotoState.call, Device.GotoState.destroy]
      repeat' split
      all_goals simp_all [importKeyGuarded, spake2Steps]
  | processData data =>
    simp only [Device.step, Device.processData]
    split
    · simpa [importKeyGuarded, spake2Steps] using ⟨h1, h2⟩
    · cases hs : d.m_state <;>
        simp only [hs, reduceCtorEq, false_implies, true_implies] at h1 h2 ⊢
      all_goals
        try simp only [Device.handleCaProfile, Device.handleAuthenticatorCert,
          Device.handleTempCert, Device.GotoState.call, Device.GotoState.destroy]
        repeat' split
        all_goals simp_all [importKeyGuarded, spake2Steps]
  | processInterest interest =>
    simp only [Device.step, Device.processInterest]
    cases hs : d.m_state <;> simp only [hs, reduceCtorEq, false_implies, true_implies] at h1 h2 ⊢
    case WaitPakeRequest =>
      have hst := Device.checkInterestVerb_state L E d interest L.getPakeComponent
      have hsp := Device.checkInterestVerb_spake2 L E d interest L.getPakeComponent
      unfold Device.handlePakeRequest
      generalize Device.checkInterestVerb L E d interest L.getPakeComponent = r at hst hsp ⊢
      obtain ⟨ok, d1⟩ := r
      simp only at hst hsp ⊢
      have hp := Device.pakeRequestSteps_spec L E d1 interest ([] ++ spake2Steps log)
      generalize Device.pakeRequestSteps L E d1 interest = p at hp ⊢
      obtain ⟨ok2, ev⟩ := p
      simp only [Device.GotoState.call, Device.GotoState.destroy]
      repeat' split
      all_goals simp_all [importKeyGuarded, spake2Steps]
    case WaitConfirmRequest =>
      have hst := Device.checkInterestVerb_state L E d interest L.getConfirmComponent
      have hsp := Device.checkInterestVerb_spake2 L E d interest L.getConfirmComponent
      unfold Device.handleConfirmRequest
      generalize Device.checkInterestVerb L E d interest L.getConfirmComponent = r at hst hsp ⊢
      obtain ⟨ok, d1⟩ := r
      simp only at hst hsp
      simp only [EncryptSession.importKey, Device.saveCurrentInterest, Device.GotoState.call,
        Device.GotoState.destroy]
      repeat' split
      all_goals simp_all [importKeyGuarded, spake2Steps, completedPake]
    case WaitCredentialRequest =>
      have hst := Device.checkInterestVerb_state L E d interest L.getCredentialComponent
      unfold Device.handleCredentialRequest
      generalize Device.checkInterestVerb L E d interest L.getCredentialComponent = r at hst ⊢
      obtain ⟨ok, d1⟩ := r
      simp only at hst
      simp only [Device.saveCurrentInterest, Device.GotoState.call, Device.GotoState.destroy]
      repeat' split
      all_goals simp_all [importKeyGuarded, spake2Steps]
    all_goals simp_all [importKeyGuarded, spake2Steps]

theorem Device.dev_logInv_exec (L : Lib) (ops : List (Env × Device.Op))
    (d : Device) (log : List Event) (h : Device.logInv d log) :
    Device.logInv (Device.exec L (d, log) ops).1 (Device.exec L (d, log) ops).2 := by
  induction ops generalizing d log with
  | nil => exact h
  | cons x rest ih =>
    obtain ⟨E, op⟩ := x
    cases op with
    | begin pw =>
      simp only [Device.exec]
      apply ih
      refine ⟨rfl, fun _ => rfl, ?_⟩
      simp only [Device.step, Device.begin, Device.end]
      repeat' split
      all_goals simp_all
    | «end» =>
      simp only [Device.exec]
      exact ih _ _ (Device.dev_logInv_step L E d log Device.Op.end h (by simp))
    | loop =>
      simp only [Device.exec]
      exact ih _ _ (Device.dev_logInv_step L E d log Device.Op.loop h (by simp))
    | processData data =>
      simp only [Device.exec]
      exact ih _ _ (Device.dev_logInv_step L E d log (Device.Op.processData data) h (by simp))
    | processInterest interest =>
      simp only [Device.exec]
      exact ih _ _
        (Device.dev_logInv_step L E d log (Device.Op.processInterest interest) h (by simp))

theorem Authenticator.pakeResponseSteps_failed (L : Lib) (E : Env) (a : Authenticator)
    (res : packet_struct.PakeResponse) (s : Spake2Step) :
    Event.spake2 s false ∈ (Authenticator.pakeResponseSteps L E a res).2.2.2 →
      (Authenticator.pakeResponseSteps L E a res).1 = false ∧
      ∀ k ok, Event.importKey k ok ∉ (Authenticator.pakeResponseSteps L E a res).2.2.2 := by
  unfold Authenticator.pakeResponseSteps
  repeat' split
  all_goals simp_all

theorem Authenticator.auth_step_of_failed_step (L : Lib) (E : Env) (a : Authenticator)
    (op : Authenticator.Op) (s : Spake2Step)
    (h : Event.spake2 s false ∈ (Authenticator.step L E a op).2) :
    (∀ k ok, Event.importKey k ok ∉ (Authenticator.step L E a op).2) ∧
    (Authenticator.step L E a op).1.m_state = Authenticator.State.Failure := by
  revert h
  cases op with
  | begin pw => simp [Authenticator.step]
  | «end» => simp [Authenticator.step]
  | loop =>
    simp only [Authenticator.step, Authenticator.loop]
    cases hs : a.m_state <;> simp only [hs]
    all_goals
      try simp only [Authenticator.sendPakeRequest, Authenticator.sendCredentialRequest,
        Authenticator.GotoState.call, Authenticator.GotoState.destroy]
      repeat' split
      all_goals simp_all
  | processData data =>
    simp only [Authenticator.step, Authenticator.processData]
    split
    · simp
    · cases hs : a.m_state <;> simp only [hs]
      case WaitPakeResponse =>
        unfold Authenticator.handlePakeResponse
        cases hres : Authenticator.PakeResponse.fromData L data with
        | none => simp
        | some res =>
          simp only
          have hp := Authenticator.pakeResponseSteps_failed L E a res s
          generalize Authenticator.pakeResponseSteps L E a res = p at hp ⊢
          obtain ⟨ok, fkca, session, ev⟩ := p
          simp only [Authenticator.GotoState.call, Authenticator.GotoState.destroy] at hp ⊢
          repeat' split
          all_goals simp_all
      case WaitConfirmResponse =>
        simp only [Authenticator.handleConfirmResponse, Authenticator.GotoState.call,
          Authenticator.GotoState.destroy]
        repeat' split
        all_goals simp_all
      all_goals simp
  | processInterest interest =>
    simp only [Authenticator.step, Authenticator.processInterest]
    repeat' split
    all_goals simp_all

theorem Device.pakeRequestSteps_failed (L : Lib) (E : Env) (d : Device) (interest : Interest) :
    (∀ k ok, Event.importKey k ok ∉ (Device.pakeRequestSteps L E d interest).2) ∧
    (∀ s, Event.spake2 s false ∈ (Device.pakeRequestSteps L E d interest).2 →
      (Device.pakeRequestSteps L E d interest).1 = false) := by
  unfold Device.pakeRequestSteps
  repeat' split
  all_goals simp_all

theorem Device.dev_step_of_failed_step (L : Lib) (E : Env) (d : Device)
    (op : Device.Op) (s : Spake2Step)
    (h : Event.spake2 s false ∈ (Device.step L E d op).2) :
    (∀ k ok, Event.importKey k ok ∉ (Device.step L E d op).2) ∧
    (Device.step L E d op).1.m_state = Device.State.Failure := by
  revert h
  cases op with
  | begin pw => simp [Device.step]
  | «end» => simp [Device.step]
  | loop =>
    simp only [Device.step, Device.loop]
    cases hs : d.m_state <;> simp only [hs]
    all_goals
      try simp only [Device.sendFetchInterest, Device.GotoState.call,
        Device.GotoState.destroy]
      repeat' split
      all_goals simp_all
  | processData data =>
    simp only [Device.step, Device.processData]
    split
    · simp
    · cases hs : d.m_state <;> simp only [hs]
      all_goals
        try simp only [Device.handleCaProfile, Device.handleAuthenticatorCert,
          Device.handleTempCert, Device.GotoState.call, Device.GotoState.destroy]
        repeat' split
        all_goals simp_all
  | processInterest interest =>
    simp only [Device.step, Device.processInterest]
    cases hs : d.m_state <;> simp only [hs]
    case WaitPakeRequest =>
      unfold Device.handlePakeRequest
      generalize Device.checkInterestVerb L E d interest L.getPakeComponent = r
      obtain ⟨ok, d1⟩ := r
      simp only
      have hp := Device.pakeRequestSteps_failed L E d1 interest
      generalize Device.pakeRequestSteps L E d1 interest = p at hp ⊢
      obtain ⟨ok2, ev⟩ := p
      simp only [Device.GotoState.call, Device.GotoState.destroy] at hp ⊢
      repeat' split
      all_goals simp_all
    case WaitConfirmRequest =>
      unfold Device.handleConfirmRequest
      generalize Device.checkInterestVerb L E d interest L.getConfirmComponent = r
      obtain ⟨ok, d1⟩ := r
      simp only [EncryptSession.importKey, Device.saveCurrentInterest, Device.GotoState.call,
        Device.GotoState.destroy]
      repeat' split
      all_goals simp_all
    case WaitCredentialRequest =>
      unfold Device.handleCredentialRequest
      generalize Device.checkInterestVerb L E d interest L.getCredentialComponent = r
      obtain ⟨ok, d1⟩ := r
      simp only [Device.saveCurrentInterest, Device.GotoState.call, Device.GotoState.destroy]
      repeat' split
      all_goals simp_all
    all_goals simp

end helpers

/-- C8. No key without a completed PAKE. On both endpoints, in every sequence of
calls from construction, each `importKey` call is preceded, since the last
`begin`, by exactly the SPAKE2 calls `generateFirstMessage`,
`processFirstMessage`, `generateSecondMessage`, `processSecondMessage`, each of
which returned success. And in every call on either endpoint in which a SPAKE2
step returns failure, `importKey` is not called and the state after the call is
`Failure`. -/
theorem no_key_without_completed_pake (L : Lib) :
    (∀ (opts : Authenticator.Options) (ops : List (Env × Authenticator.Op))
        (pre post : List Event) (k : Bytes) (ok : Bool),
      (Authenticator.exec L (Authenticator.new opts, []) ops).2 =
          pre ++ Event.importKey k ok :: post →
        spake2Steps pre = completedPake) ∧
    (∀ (ops : List (Env × Device.Op)) (pre post : List Event) (k : Bytes) (ok : Bool),
      (Device.exec L (Device.new, []) ops).2 = pre ++ Event.importKey k ok :: post →
        spake2Steps pre = completedPake) ∧
    (∀ (E : Env) (a : Authenticator) (op : Authenticator.Op) (s : Spake2Step),
      Event.spake2 s false ∈ (Authenticator.step L E a op).2 →
        (∀ k ok, Event.importKey k ok ∉ (Authenticator.step L E a op).2) ∧
        (Authenticator.step L E a op).1.m_state = Authenticator.State.Failure) ∧
    (∀ (E : Env) (d : Device) (op : Device.Op) (s : Spake2Step),
      Event.spake2 s false ∈ (Device.step L E d op).2 →
        (∀ k ok, Event.importKey k ok ∉ (Device.step L E d op).2) ∧
        (Device.step L E d op).1.m_state = Device.State.Failure) := by
  refine ⟨?_, ?_, ?_, ?_⟩
  · intro opts ops pre post k ok hlog
    have hinv := Authenticator.auth_logInv_exec L ops (Authenticator.new opts) []
      ⟨rfl, fun _ => rfl, fun h => by simp [Authenticator.new] at h⟩
    simpa using importKeyGuarded_split [] _ pre post k ok hinv.1 hlog
  · intro ops pre post k ok hlog
    have hinv := Device.dev_logInv_exec L ops Device.new []
      ⟨rfl, fun _ => rfl, fun h => by simp [Device.new] at h⟩
    simpa using importKeyGuarded_split [] _ pre post k ok hinv.1 hlog
  · exact fun E a op s h => Authenticator.auth_step_of_failed_step L E a op s h
  · exact fun E d op s h => Device.dev_step_of_failed_step L E d op s h

set_option maxRecDepth 100000 in
theorem no_key_without_completed_pake_witness :
    spake2Steps ((Authenticator.exec Toy.lib (Authenticator.new Toy.options, [])
      Toy.authOps).2.take 5) = completedPake ∧
    spake2Steps ((Device.exec Toy.lib (Device.new, []) Toy.devOps).2.take 5) = completedPake ∧
    ((∀ k ok, Event.importKey k ok ∉
        (Authenticator.step Toy.lib Toy.envNoFirstMessage Toy.authBegun .loop).2) ∧
      (Authenticator.step Toy.lib Toy.envNoFirstMessage Toy.authBegun .loop).1.m_state =
        Authenticator.State.Failure) ∧
    ((∀ k ok, Event.importKey k ok ∉
        (Device.step Toy.lib Toy.envNoFirstMessage Toy.devBegun
          (.processInterest Toy.pakeInterest)).2) ∧
      (Device.step Toy.lib Toy.envNoFirstMessage Toy.devBegun
        (.processInterest Toy.pakeInterest)).1.m_state = Device.State.Failure) :=
  ⟨(no_key_without_completed_pake Toy.lib).1 Toy.options Toy.authOps _
      ((Authenticator.exec Toy.lib (Authenticator.new Toy.options, []) Toy.authOps).2.drop 6)
      Toy.password true (by decide),
   (no_key_without_completed_pake Toy.lib).2.1 Toy.devOps _
      ((Device.exec Toy.lib (Device.new, []) Toy.devOps).2.drop 6) Toy.password true (by decide),
   (no_key_without_completed_pake Toy.lib).2.2.1 Toy.envNoFirstMessage Toy.authBegun .loop
      .generateFirstMessage (by decide),
   (no_key_without_completed_pake Toy.lib).2.2.2 Toy.envNoFirstMessage Toy.devBegun
      (.processInterest Toy.pakeInterest) .generateFirstMessage (by decide)⟩

section happy

theorem arrayOf_length (n : Nat) (b : Bytes) : (arrayOf n b).length = n := by
  simp only [arrayOf, List.length_append, List.length_take, List.length_replicate]
  omega

theorem Name.last_append_singleton (n : Name) (c : Component) : Name.last (n ++ [c]) = c := by
  simp [Name.last]

theorem Device.PakeRequest.pakeRequest_decodes (L : Lib) (name : Name) (t : Bytes)
    (ht : t.length = L.sizeofSpake2T) :
    Device.PakeRequest.fromInterest L ⟨name, ⟨[⟨L.tt .Spake2T, t⟩], true⟩⟩ = some ⟨t⟩ := by
  simp [Device.PakeRequest.fromInterest, EvDecoder.decodeValue, EvDecoder.decodeElements,
    Tlv.length, ht]

theorem Authenticator.PakeResponse.pakeResponse_decodes (L : Lib) (hL : L.Lawful) (data : Data)
    (s f : Bytes) (hs : s.length = L.sizeofSpake2S) (hf : f.length = L.sizeofSpake2Fkcb)
    (hc : data.content = ⟨[⟨L.tt .Spake2S, s⟩, ⟨L.tt .Spake2Fkcb, f⟩], true⟩) :
    Authenticator.PakeResponse.fromData L data = some ⟨s, f⟩ := by
  simp [Authenticator.PakeResponse.fromData, EvDecoder.decodeValue, EvDecoder.decodeElements,
    Tlv.length, hs, hf, hc, hL.tt_injective.eq_iff]

theorem Encrypted.decode_encode (L : Lib) (hL : L.Lawful) (enc : Encrypted) :
    EvDecoder.decodeValue L ⟨enc.encode L, true⟩
      (Encrypted.rules L (fun _ e => e) (fun e => e)) (⟨[], [], []⟩ : Encrypted) = some enc := by
  simp [EvDecoder.decodeValue, EvDecoder.decodeElements, Encrypted.encode, Encrypted.rules,
    hL.tt_injective.eq_iff]

theorem Device.ConfirmRequest.confirmRequest_decodes (L : Lib) (hL : L.Lawful) (name : Name)
    (fk : Bytes) (enc : Encrypted) (hfk : fk.length = L.sizeofSpake2Fkca) :
    Device.ConfirmRequest.fromInterest L
        ⟨name, ⟨⟨L.tt .Spake2Fkca, fk⟩ :: enc.encode L, true⟩⟩ =
      some ({ spake2Fkca := fk, nc := [], caProfileName := [], authenticatorCertName := [],
              deviceName := [], timestamp := 0 }, enc) := by
  simp [Device.ConfirmRequest.fromInterest, EvDecoder.decodeValue, EvDecoder.decodeElements,
    Encrypted.encode, Encrypted.rules, Tlv.length, hfk, hL.tt_injective.eq_iff]

end happy

section happy

theorem Name.secondLast_append_triple (n : Name) (a b c : Component) :
    Name.secondLast (n ++ [a, b, c]) = b := by
  have h : n ++ [a, b, c] = (n ++ [a, b]) ++ [c] := by simp
  rw [h]
  simp [Name.secondLast, List.dropLast_concat]

theorem Device.checkInterestVerb_happy (L : Lib) (E : Env) (hL : L.Lawful) (hE : E.Succeeds L)
    (d : Device) (sid verb : Component) (v : Value)
    (hsess : d.m_session.sessionId = none ∨ d.m_session.sessionId = some sid) :
    Device.checkInterestVerb L E d
        (Interest.parameterize L (L.getLocalhopOnboardingPrefix ++ [sid, verb]) v) verb =
      (true, { d with m_session := { d.m_session with sessionId := some sid },
                      m_region := d.m_region.alloc true }) := by
  have h1 := hL.checkDigest_parameterize (L.getLocalhopOnboardingPrefix ++ [sid, verb]) v
  have h2 := hE.sessionAssign d.m_session sid verb (L.paramsDigest v) hsess
  have h3 : L.getLocalhopOnboardingPrefix.isPrefixOf
      (L.getLocalhopOnboardingPrefix ++ [sid, verb, L.paramsDigest v]) = true := by
    rw [List.isPrefixOf_iff_prefix]
    exact List.prefix_append _ _
  unfold Device.checkInterestVerb
  simp only [Interest.parameterize, List.append_assoc, List.cons_append, List.nil_append] at h1 ⊢
  simp [h1, h2, h3, Name.secondLast_append_triple, EncryptSession.assign]

theorem Authenticator.loop_sendPake_happy (L : Lib) (E : Env) (hE : E.Succeeds L)
    (a : Authenticator) (ctx : Spake2Context) (sid : Component)
    (hs : a.m_state = Authenticator.State.SendPakeRequest) (hctx : a.m_spake2 = some ctx)
    (hsid : a.m_session.sessionId = some sid) :
    ∃ t, t.length = L.sizeofSpake2T ∧
      (Authenticator.loop L E a).1 =
        { a with m_state := Authenticator.State.WaitPakeResponse } ∧
      transmitted (Authenticator.loop L E a).2 =
        [Packet.interest (Interest.parameterize L
          (L.getLocalhopOnboardingPrefix ++ [sid, L.getPakeComponent])
          ⟨[⟨L.tt .Spake2T, t⟩], true⟩)] := by
  obtain ⟨t0, ht0⟩ := Option.isSome_iff_exists.1 (hE.generateFirstMessage ctx)
  refine ⟨arrayOf L.sizeofSpake2T (arrayOf L.sizeofSpake2T t0), arrayOf_length _ _, ?_, ?_⟩ <;>
    simp [Authenticator.loop, hs, Authenticator.sendPakeRequest, hctx, ht0,
      Authenticator.PakeRequest.toInterest, hE.encoderOk, hE.createInterest, hE.pendingSend,
      EncryptSession.makeName, hsid, Authenticator.GotoState.call,
      Authenticator.GotoState.destroy, transmitted]

theorem Device.processInterest_pake_happy (L : Lib) (E : Env) (hL : L.Lawful)
    (hE : E.Succeeds L) (d : Device) (ctx : Spake2Context) (sid : Component) (t : Bytes)
    (hs : d.m_state = Device.State.WaitPakeRequest) (hctx : d.m_spake2 = some ctx)
    (hsess : d.m_session.sessionId = none) (ht : t.length = L.sizeofSpake2T) :
    ∃ s f name, s.length = L.sizeofSpake2S ∧ f.length = L.sizeofSpake2Fkcb ∧
      (Device.processInterest L E d (Interest.parameterize L
          (L.getLocalhopOnboardingPrefix ++ [sid, L.getPakeComponent])
          ⟨[⟨L.tt .Spake2T, t⟩], true⟩)).2.1 =
        { d with m_state := Device.State.WaitConfirmRequest,
                 m_session := { d.m_session with sessionId := some sid },
                 m_region := d.m_region.alloc true } ∧
      transmitted (Device.processInterest L E d (Interest.parameterize L
          (L.getLocalhopOnboardingPrefix ++ [sid, L.getPakeComponent])
          ⟨[⟨L.tt .Spake2T, t⟩], true⟩)).2.2 =
        [Packet.data (Data.signNull L name
          ⟨[⟨L.tt .Spake2S, s⟩, ⟨L.tt .Spake2Fkcb, f⟩], true⟩)] := by
  obtain ⟨s0, hs0⟩ := Option.isSome_iff_exists.1 (hE.generateFirstMessage ctx)
  obtain ⟨f0, hf0⟩ := Option.isSome_iff_exists.1 (hE.generateSecondMessage ctx)
  have hv := Device.checkInterestVerb_happy L E hL hE d sid L.getPakeComponent
    ⟨[⟨L.tt .Spake2T, t⟩], true⟩ (Or.inl hsess)
  have hdec := Device.PakeRequest.pakeRequest_decodes L
    (L.getLocalhopOnboardingPrefix ++ [sid, L.getPakeComponent] ++
      [L.paramsDigest ⟨[⟨L.tt .Spake2T, t⟩], true⟩]) t ht
  refine ⟨arrayOf L.sizeofSpake2S (arrayOf L.sizeofSpake2S s0),
    arrayOf L.sizeofSpake2Fkcb (arrayOf L.sizeofSpake2Fkcb f0),
    L.getLocalhopOnboardingPrefix ++ [sid, L.getPakeComponent] ++
      [L.paramsDigest ⟨[⟨L.tt .Spake2T, t⟩], true⟩],
    arrayOf_length _ _, arrayOf_length _ _, ?_, ?_⟩ <;>
  · simp only [Device.processInterest, hs, Device.handlePakeRequest, hv]
    simp only [Interest.parameterize] at hdec ⊢
    simp only [List.append_assoc, List.cons_append, List.nil_append] at hdec ⊢
    simp [Device.pakeRequestSteps, hdec, hctx, hs0, hf0, hE.processFirstMessage,
      Device.PakeResponse.toData, hE.encoderOk, hE.createData, hE.reply,
      Device.GotoState.call, Device.GotoState.destroy, transmitted]

end happy

section happy

theorem Authenticator.processData_pakeResponse_happy (L : Lib) (E : Env) (hL : L.Lawful)
    (hE : E.Succeeds L) (a : Authenticator) (ctx : Spake2Context) (sid : Component)
    (data : Data) (s f : Bytes)
    (hs : a.m_state = Authenticator.State.WaitPakeResponse) (hctx : a.m_spake2 = some ctx)
    (hsess : a.m_session = ⟨some sid, none⟩)
    (hls : s.length = L.sizeofSpake2S) (hlf : f.length = L.sizeofSpake2Fkcb)
    (hc : data.content = ⟨[⟨L.tt .Spake2S, s⟩, ⟨L.tt .Spake2Fkcb, f⟩], true⟩) :
    ∃ fk enc, fk.length = L.sizeofSpake2Fkca ∧
      E.encrypt ⟨some sid, some (E.getSharedKey ctx)⟩
        [ ⟨L.tt .Nc, a.m_nc⟩,
          ⟨L.tt .CaProfileName,
            L.encodeName (a.m_caProfile.name ++ [L.implicitDigest a.m_caProfile])⟩,
          ⟨L.tt .AuthenticatorCertName,
            L.encodeName (a.m_cert.name ++ [L.implicitDigest a.m_cert])⟩,
          ⟨L.tt .DeviceName, L.encodeName a.m_deviceName⟩,
          ⟨L.tt .TimestampNameComponent, L.encodeNni (E.timeValue % 2 ^ 64)⟩ ] = some enc ∧
      (Authenticator.processData L E a data).2.1 =
        { a with m_state := Authenticator.State.WaitConfirmResponse,
                 m_session := ⟨some sid, some (E.getSharedKey ctx)⟩,
                 m_spake2 := none } ∧
      transmitted (Authenticator.processData L E a data).2.2 =
        [Packet.interest (Interest.parameterize L
          (L.getLocalhopOnboardingPrefix ++ [sid, L.getConfirmComponent])
          ⟨⟨L.tt .Spake2Fkca, fk⟩ :: enc.encode L, true⟩)] := by
  obtain ⟨fk0, hfk0⟩ := Option.isSome_iff_exists.1 (hE.generateSecondMessage ctx)
  obtain ⟨enc, henc⟩ := Option.isSome_iff_exists.1
    (hE.encrypt ⟨some sid, some (E.getSharedKey ctx)⟩
      [ ⟨L.tt .Nc, a.m_nc⟩,
        ⟨L.tt .CaProfileName,
          L.encodeName (a.m_caProfile.name ++ [L.implicitDigest a.m_caProfile])⟩,
        ⟨L.tt .AuthenticatorCertName,
          L.encodeName (a.m_cert.name ++ [L.implicitDigest a.m_cert])⟩,
        ⟨L.tt .DeviceName, L.encodeName a.m_deviceName⟩,
        ⟨L.tt .TimestampNameComponent, L.encodeNni (E.timeValue % 2 ^ 64)⟩ ] rfl)
  have hdec := Authenticator.PakeResponse.pakeResponse_decodes L hL data s f hls hlf hc
  have himp := hE.importKey ⟨some sid, none⟩ (E.getSharedKey ctx) rfl
  refine ⟨arrayOf L.sizeofSpake2Fkca (arrayOf L.sizeofSpake2Fkca fk0), enc,
    arrayOf_length _ _, henc, ?_, ?_⟩ <;>
  · simp [-Nat.reducePow, Authenticator.processData, hE.matchPitToken, hs, Authenticator.handlePakeResponse, hdec,
      Authenticator.pakeResponseSteps, hctx, hE.processFirstMessage, hfk0,
      hE.processSecondMessage, EncryptSession.importKey, hsess, himp,
      Authenticator.ConfirmRequest.toInterest, getFullName, hE.fullNameOk, henc,
      hE.encoderOk, hE.createInterest, hE.pendingSend, EncryptSession.makeName,
      Authenticator.GotoState.call, Authenticator.GotoState.destroy, transmitted]

theorem Device.ConfirmRequest.confirmRequest_decrypts (L : Lib) (E : Env) (hL : L.Lawful)
    (req : packet_struct.ConfirmRequest) (enc : Encrypted) (s : EncryptSession)
    (nc : Bytes) (n1 n2 n3 : Name) (tv : Nat) (htv : tv < 2 ^ 64)
    (h1 : L.isImplicitDigest (Name.last n1) = true)
    (h2 : L.isImplicitDigest (Name.last n2) = true)
    (hdec : E.decrypt s enc = some
      ⟨[ ⟨L.tt .Nc, nc⟩, ⟨L.tt .CaProfileName, L.encodeName n1⟩,
         ⟨L.tt .AuthenticatorCertName, L.encodeName n2⟩,
         ⟨L.tt .DeviceName, L.encodeName n3⟩,
         ⟨L.tt .TimestampNameComponent, L.encodeNni tv⟩ ], true⟩) :
    Device.ConfirmRequest.decrypt L E req enc s =
      some { req with nc := nc, caProfileName := n1, authenticatorCertName := n2,
                      deviceName := n3, timestamp := tv } := by
  simp [-Nat.reducePow, Device.ConfirmRequest.decrypt, hdec, EvDecoder.decodeValue, EvDecoder.decodeElements,
    hL.tt_injective.eq_iff, hL.decodeName_encodeName, hL.decodeNni_encodeNni tv htv, h1, h2]

theorem Device.processInterest_confirm_happy (L : Lib) (E : Env) (hL : L.Lawful)
    (hE : E.Succeeds L) (d : Device) (ctx : Spake2Context) (sid : Component)
    (fk : Bytes) (enc : Encrypted) (nc : Bytes) (n1 n2 n3 : Name) (tv : Nat)
    (hs : d.m_state = Device.State.WaitConfirmRequest) (hctx : d.m_spake2 = some ctx)
    (hsess : d.m_session = ⟨some sid, none⟩)
    (hfk : fk.length = L.sizeofSpake2Fkca) (htv : tv < 2 ^ 64)
    (h1 : L.isImplicitDigest (Name.last n1) = true)
    (h2 : L.isImplicitDigest (Name.last n2) = true)
    (hdec : E.decrypt ⟨some sid, some (E.getSharedKey ctx)⟩ enc = some
      ⟨[ ⟨L.tt .Nc, nc⟩, ⟨L.tt .CaProfileName, L.encodeName n1⟩,
         ⟨L.tt .AuthenticatorCertName, L.encodeName n2⟩,
         ⟨L.tt .DeviceName, L.encodeName n3⟩,
         ⟨L.tt .TimestampNameComponent, L.encodeNni tv⟩ ], true⟩) :
    ∃ r name info,
      (Device.processInterest L E d (Interest.parameterize L
          (L.getLocalhopOnboardingPrefix ++ [sid, L.getConfirmComponent])
          ⟨⟨L.tt .Spake2Fkca, fk⟩ :: enc.encode L, true⟩)).2.1 =
        { d with m_state := Device.State.FetchCaProfile,
                 m_session := ⟨some sid, some (E.getSharedKey ctx)⟩,
                 m_region := r,
                 m_lastInterestName := name,
                 m_lastInterestPacketInfo := info,
                 m_caProfileName := n1,
                 m_authenticatorCertName := n2,
                 m_deviceName := n3 } ∧
      transmitted (Device.processInterest L E d (Interest.parameterize L
          (L.getLocalhopOnboardingPrefix ++ [sid, L.getConfirmComponent])
          ⟨⟨L.tt .Spake2Fkca, fk⟩ :: enc.encode L, true⟩)).2.2 = [] := by
  have hv := Device.checkInterestVerb_happy L E hL hE d sid L.getConfirmComponent
    ⟨⟨L.tt .Spake2Fkca, fk⟩ :: enc.encode L, true⟩ (Or.inr (by rw [hsess]))
  have hfi := Device.ConfirmRequest.confirmRequest_decodes L hL
    (L.getLocalhopOnboardingPrefix ++ [sid, L.getConfirmComponent] ++
      [L.paramsDigest ⟨⟨L.tt .Spake2Fkca, fk⟩ :: enc.encode L, true⟩]) fk enc hfk
  have himp := hE.importKey ⟨some sid, none⟩ (E.getSharedKey ctx) rfl
  have hd := Device.ConfirmRequest.confirmRequest_decrypts L E hL
    { spake2Fkca := fk, nc := [], caProfileName := [], authenticatorCertName := [],
      deviceName := [], timestamp := 0 } enc ⟨some sid, some (E.getSharedKey ctx)⟩
    nc n1 n2 n3 tv htv h1 h2 hdec
  refine ⟨((((d.m_region.alloc true).alloc true).alloc true).alloc true).alloc true,
    L.getLocalhopOnboardingPrefix ++ [sid, L.getConfirmComponent] ++
      [L.paramsDigest ⟨⟨L.tt .Spake2Fkca, fk⟩ :: enc.encode L, true⟩],
    E.currentPacketInfo, ?_, ?_⟩
  · simp only [Device.processInterest, hs, Device.handleConfirmRequest, hv]
    simp only [Interest.parameterize] at hfi ⊢
    simp only [Bool.not_true, Bool.false_eq_true, if_false, hfi, hctx, hE.processSecondMessage,
      EncryptSession.importKey, hsess, himp, if_true, hd, Device.saveCurrentInterest,
      Name.clone, hE.cloneOk, Device.GotoState.call, Device.GotoState.destroy]
  · simp only [Device.processInterest, hs, Device.handleConfirmRequest, hv]
    simp only [Interest.parameterize] at hfi ⊢
    simp only [Bool.not_true, Bool.false_eq_true, if_false, hfi, hctx, hE.processSecondMessage,
      EncryptSession.importKey, hsess, himp, if_true, hd, Device.saveCurrentInterest,
      Name.clone, hE.cloneOk, Device.GotoState.call, Device.GotoState.destroy]
    simp [transmitted]

end happy

section happy

theorem Device.sendFetchInterest_happy (L : Lib) (E : Env) (hE : E.Succeeds L) (d : Device)
    (name : Name) (next : Device.State) :
    (Device.sendFetchInterest E d name next).1 = { d with m_state := next } ∧
    transmitted (Device.sendFetchInterest E d name next).2 =
      [Packet.interest ⟨name, ⟨[], true⟩⟩] := by
  simp [Device.sendFetchInterest, hE.createInterest, hE.pendingSend, Device.GotoState.call,
    Device.GotoState.destroy, transmitted]

theorem Authenticator.processInterest_serve (L : Lib) (E : Env) (hL : L.Lawful)
    (hE : E.Succeeds L) (a : Authenticator) (interest : Interest)
    (h : L.interestMatch interest a.m_caProfile = true ∨
         L.interestMatch interest a.m_cert = true ∨
         ∃ issued, a.m_issued = some issued ∧ L.interestMatch interest issued = true) :
    ∃ y, y.name ++ [L.implicitDigest y] = interest.name ∧
      (Authenticator.processInterest L E a interest).2.1 = a ∧
      transmitted (Authenticator.processInterest L E a interest).2.2 = [Packet.data y] := by
  unfold Authenticator.processInterest
  by_cases h1 : L.interestMatch interest a.m_caProfile = true
  · exact ⟨a.m_caProfile, ((hL.interestMatch_iff _ _).1 h1).symm, by simp [h1],
      by simp [h1, hE.reply, transmitted]⟩
  · by_cases h2 : L.interestMatch interest a.m_cert = true
    · exact ⟨a.m_cert, ((hL.interestMatch_iff _ _).1 h2).symm, by simp [h1, h2],
        by simp [h1, h2, hE.reply, transmitted]⟩
    · rcases h with h | h | ⟨issued, hi, hm⟩
      · exact absurd h h1
      · exact absurd h h2
      · exact ⟨issued, ((hL.interestMatch_iff _ _).1 hm).symm, by simp [h1, h2, hi, hm],
          by simp [h1, h2, hi, hm, hE.reply, transmitted]⟩

theorem Device.processData_caProfile_happy (L : Lib) (E : Env) (hE : E.Succeeds L) (d : Device)
    (data : Data) (hs : d.m_state = Device.State.WaitCaProfile)
    (hname : d.m_caProfileName = data.name ++ [L.implicitDigest data])
    (hp : (E.caProfileFromData d.m_caProfile data).1 = true)
    (hvalid : (L.getValidity (E.caProfileFromData d.m_caProfile data).2.cert).includes E.now =
      true) :
    Device.processData L E d data =
      (true, { d with m_state := Device.State.FetchAuthenticatorCert,
                      m_caProfile := (E.caProfileFromData d.m_caProfile data).2,
                      m_region := d.m_region.alloc true }, []) := by
  have hm := hE.pendingMatch data
  simp [Device.processData, hE.matchPitToken, hs, Device.handleCaProfile, hname, hm, hp, hvalid,
    Device.GotoState.call, Device.GotoState.destroy]

theorem Device.processData_cert_happy (L : Lib) (E : Env) (hE : E.Succeeds L) (d : Device)
    (data : Data) (hs : d.m_state = Device.State.WaitAuthenticatorCert)
    (hname : d.m_authenticatorCertName = data.name ++ [L.implicitDigest data])
    (hverify : L.verify data d.m_caProfile.pub = true)
    (hvalid : (L.getValidity data).includes E.now = true)
    (hsubj : L.computeTempSubjectName data.name d.m_deviceName ≠ [])
    (hkey : d.m_session.key.isSome = true) :
    ∃ tReq enc pvt pub,
      E.ecGenerate (L.computeTempSubjectName data.name d.m_deviceName) = some (pvt, pub) ∧
      E.selfSign pub L.ValidityPeriod_getMax pvt = some tReq ∧
      L.toSubjectName tReq.name = L.computeTempSubjectName data.name d.m_deviceName ∧
      E.encrypt d.m_session [⟨L.tt .TReq, L.encodeData tReq⟩] = some enc ∧
      (Device.processData L E d data).2.1 =
        { d with m_state := Device.State.WaitCredentialRequest,
                 m_tPvt := some pvt, m_tPub := some pub } ∧
      transmitted (Device.processData L E d data).2.2 =
        [Packet.data (Data.signNull L d.m_lastInterestName ⟨enc.encode L, true⟩)] := by
  have hm := hE.pendingMatch data
  obtain ⟨pvt, pub, tReq, hgen, hsign, hsub⟩ :=
    hE.ecGenerate (L.computeTempSubjectName data.name d.m_deviceName) hsubj
  obtain ⟨enc, henc⟩ := Option.isSome_iff_exists.1
    (hE.encrypt d.m_session [⟨L.tt .TReq, L.encodeData tReq⟩] hkey)
  have hne : (L.computeTempSubjectName data.name d.m_deviceName).isEmpty = false := by
    cases hx : L.computeTempSubjectName data.name d.m_deviceName with
    | nil => exact absurd hx hsubj
    | cons c cs => rfl
  refine ⟨tReq, enc, pvt, pub, hgen, hsign, hsub, henc, ?_, ?_⟩ <;>
    simp [Device.processData, hE.matchPitToken, hs, Device.handleAuthenticatorCert, hname, hm,
      hverify, hvalid, computeTempSubjectName, hE.subjectNameOk, hne, hgen, hsign,
      Device.makeConfirmResponseData, henc, hE.createData, hE.send, Device.GotoState.call,
      Device.GotoState.destroy, transmitted]

theorem Authenticator.ConfirmResponse.confirmResponse_decodes (L : Lib) (E : Env) (hL : L.Lawful)
    (hE : E.Succeeds L) (data : Data) (s : EncryptSession) (enc : Encrypted) (tReq : Data)
    (hc : data.content = ⟨enc.encode L, true⟩)
    (hdec : E.decrypt s enc = some ⟨[⟨L.tt .TReq, L.encodeData tReq⟩], true⟩)
    (himport : (E.importPublicKey tReq).isSome = true) :
    ∃ tPub, Authenticator.ConfirmResponse.fromData L E data s = some ⟨some tReq, tPub⟩ := by
  obtain ⟨tPub, hpub⟩ := Option.isSome_iff_exists.1 himport
  refine ⟨tPub, ?_⟩
  simp only [Authenticator.ConfirmResponse.fromData, hc, Encrypted.decode_encode L hL enc, hdec]
  simp [EvDecoder.decodeValue, EvDecoder.decodeElements, hE.createData,
    hL.decodeData_encodeData, hpub]

theorem Authenticator.processData_confirmResponse_happy (L : Lib) (E : Env) (hL : L.Lawful)
    (hE : E.Succeeds L) (a : Authenticator) (data : Data) (enc : Encrypted) (tReq : Data)
    (hs : a.m_state = Authenticator.State.WaitConfirmResponse)
    (hc : data.content = ⟨enc.encode L, true⟩)
    (hdec : E.decrypt a.m_session enc = some ⟨[⟨L.tt .TReq, L.encodeData tReq⟩], true⟩)
    (himport : (E.importPublicKey tReq).isSome = true)
    (hsub : L.toSubjectName tReq.name = L.computeTempSubjectName a.m_cert.name a.m_deviceName) :
    ∃ issued r,
      Authenticator.processData L E a data =
        (true, { a with m_state := Authenticator.State.SendCredentialRequest,
                        m_issued := some issued, m_region := r }, []) := by
  obtain ⟨tPub, hres⟩ :=
    Authenticator.ConfirmResponse.confirmResponse_decodes L E hL hE data a.m_session enc tReq hc hdec
      himport
  obtain ⟨wire, hwire, hparse⟩ := hE.buildCertificate tPub
    (L.computeTempSubjectName a.m_cert.name a.m_deviceName)
    ⟨E.now, E.now + L.TempCertValidity⟩ a.m_pvt
  obtain ⟨issued, hissued⟩ := Option.isSome_iff_exists.1 hparse
  refine ⟨issued, (a.m_region.alloc true).alloc true, ?_⟩
  simp [Authenticator.processData, hE.matchPitToken, hs, Authenticator.handleConfirmResponse,
    hres, computeTempSubjectName, hE.subjectNameOk, hsub, hwire, hE.createIssued, hissued,
    Authenticator.GotoState.call, Authenticator.GotoState.destroy]

theorem Authenticator.loop_sendCredential_happy (L : Lib) (E : Env) (hE : E.Succeeds L)
    (a : Authenticator) (sid : Component) (issued : Data)
    (hs : a.m_state = Authenticator.State.SendCredentialRequest)
    (hissued : a.m_issued = some issued)
    (hsid : a.m_session.sessionId = some sid) (hkey : a.m_session.key.isSome = true) :
    ∃ enc,
      E.encrypt a.m_session
        [⟨L.tt .IssuedCertName, L.encodeName (issued.name ++ [L.implicitDigest issued])⟩] =
          some enc ∧
      (Authenticator.loop L E a).1 =
        { a with m_state := Authenticator.State.WaitCredentialResponse } ∧
      transmitted (Authenticator.loop L E a).2 =
        [Packet.interest (Interest.parameterize L
          (L.getLocalhopOnboardingPrefix ++ [sid, L.getCredentialComponent])
          ⟨enc.encode L, true⟩)] := by
  obtain ⟨enc, henc⟩ := Option.isSome_iff_exists.1
    (hE.encrypt a.m_session
      [⟨L.tt .IssuedCertName, L.encodeName (issued.name ++ [L.implicitDigest issued])⟩] hkey)
  refine ⟨enc, henc, ?_, ?_⟩ <;>
    simp [Authenticator.loop, hs, Authenticator.sendCredentialRequest, hissued, getFullName,
      hE.fullNameOk, Authenticator.CredentialRequest.toInterest, henc, hE.createInterest,
      hE.pendingSend, EncryptSession.makeName, hsid, Authenticator.GotoState.call,
      Authenticator.GotoState.destroy, transmitted]

theorem Device.processInterest_credential_happy (L : Lib) (E : Env) (hL : L.Lawful)
    (hE : E.Succeeds L) (d : Device) (sid : Component) (enc : Encrypted) (n : Name)
    (hs : d.m_state = Device.State.WaitCredentialRequest)
    (hsid : d.m_session.sessionId = some sid)
    (hdec : E.decrypt d.m_session enc =
      some ⟨[⟨L.tt .IssuedCertName, L.encodeName n⟩], true⟩) :
    ∃ r name info,
      Device.processInterest L E d (Interest.parameterize L
          (L.getLocalhopOnboardingPrefix ++ [sid, L.getCredentialComponent])
          ⟨enc.encode L, true⟩) =
        (true, { d with m_state := Device.State.FetchTempCert,
                        m_region := r,
                        m_lastInterestName := name,
                        m_lastInterestPacketInfo := info,
                        m_tempCertName := n }, []) := by
  have hv := Device.checkInterestVerb_happy L E hL hE d sid L.getCredentialComponent
    ⟨enc.encode L, true⟩ (Or.inr hsid)
  have hsame : ({ d.m_session with sessionId := some sid } : EncryptSession) = d.m_session := by
    cases hd : d.m_session with
    | mk i k => simp [hd] at hsid ⊢; exact hsid.symm
  refine ⟨((d.m_region.alloc true).alloc true).alloc true,
    L.getLocalhopOnboardingPrefix ++ [sid, L.getCredentialComponent] ++
      [L.paramsDigest ⟨enc.encode L, true⟩],
    E.currentPacketInfo, ?_⟩
  simp only [Device.processInterest, hs, Device.handleCredentialRequest, hv]
  simp only [Interest.parameterize, Device.CredentialRequest.fromInterest,
    Encrypted.decode_encode L hL enc, hsame, hdec]
  simp [EvDecoder.decodeValue, EvDecoder.decodeElements, hL.decodeName_encodeName,
    Device.saveCurrentInterest, Name.clone, hE.cloneOk, Device.GotoState.call,
    Device.GotoState.destroy, hsame]

theorem Device.processData_tempCert_happy (L : Lib) (E : Env) (hE : E.Succeeds L) (d : Device)
    (data : Data) (hs : d.m_state = Device.State.WaitTempCert)
    (hname : d.m_tempCertName = data.name ++ [L.implicitDigest data]) :
    (Device.processData L E d data).2.1 = { d with m_state := Device.State.Success } ∧
    transmitted (Device.processData L E d data).2.2 =
      [Packet.data (Data.signNull L d.m_lastInterestName ⟨[], true⟩)] := by
  have hm := hE.pendingMatch data
  constructor <;>
    simp [Device.processData, hE.matchPitToken, hs, Device.handleTempCert, hname, hm,
      hE.createData, hE.send, Device.GotoState.call, Device.GotoState.destroy, transmitted]

theorem Authenticator.processData_credentialResponse_happy (L : Lib) (E : Env)
    (hE : E.Succeeds L) (a : Authenticator) (data : Data)
    (hs : a.m_state = Authenticator.State.WaitCredentialResponse) :
    Authenticator.processData L E a data =
      (true, { a with m_state := Authenticator.State.Success }, []) := by
  simp [Authenticator.processData, hE.matchPitToken, hs]

end happy

section happy

theorem Net.round_stage0 (L : Lib) (env : Nat → Env) (a0 : Authenticator) (P : Bytes)
    (sid : Component) (hL : L.Lawful) (hE : ∀ i, (env i).Succeeds L) (hX : Agrees L env a0 P)
    (n : Net) (h : Net.Stage0 a0 P sid n) :
    Net.Stage1 L env a0 P sid ((env 0).getSharedKey ⟨Role.Alice, P⟩) (Net.round L env n) := by
  obtain ⟨auth, dev, toDev, toAuth, clock⟩ := n
  obtain ⟨hcfg, has, hasp, hase, hds, hdsp, hdse, htd, hta⟩ := h
  simp only at hcfg has hasp hase hds hdsp hdse htd hta
  subst htd hta
  -- the Authenticator sends the PakeRequest
  obtain ⟨t, ht, ha1, hp1⟩ := Authenticator.loop_sendPake_happy L (env clock) (hE clock) auth
    ⟨Role.Alice, P⟩ sid has hasp (by rw [hase])
  -- the Device answers it
  obtain ⟨s, f, name, hls, hlf, hd1, hp2⟩ := Device.processInterest_pake_happy L (env (clock + 1))
    hL (hE (clock + 1)) dev ⟨Role.Bob, P⟩ sid t hds hdsp (by rw [hdse]) ht
  -- the Authenticator handles the PakeResponse
  obtain ⟨fk, enc, hfk, henc, ha2, hp3⟩ := Authenticator.processData_pakeResponse_happy L
    (env (clock + 1 + 1 + 1)) hL (hE _)
    { auth with m_state := Authenticator.State.WaitPakeResponse } ⟨Role.Alice, P⟩ sid
    (Data.signNull L name ⟨[⟨L.tt .Spake2S, s⟩, ⟨L.tt .Spake2Fkcb, f⟩], true⟩) s f rfl hasp hase
    hls hlf rfl
  have hK : (env (clock + 1 + 1 + 1)).getSharedKey ⟨Role.Alice, P⟩ =
      (env 0).getSharedKey ⟨Role.Alice, P⟩ := by
    rw [hX.sharedKey (clock + 1 + 1 + 1) 0, hX.sharedKey 0 0]
  have hround : Net.round L env ⟨auth, dev, [], [], clock⟩ =
      ⟨{ auth with m_state := Authenticator.State.WaitConfirmResponse,
                   m_session := ⟨some sid, some ((env 0).getSharedKey ⟨Role.Alice, P⟩)⟩,
                   m_spake2 := none },
        { dev with m_state := Device.State.WaitConfirmRequest,
                   m_session := { dev.m_session with sessionId := some sid },
                   m_region := dev.m_region.alloc true },
        [Packet.interest (Interest.parameterize L
          (L.getLocalhopOnboardingPrefix ++ [sid, L.getConfirmComponent])
          ⟨⟨L.tt .Spake2Fkca, fk⟩ :: enc.encode L, true⟩)], [], clock + 1 + 1 + 1 + 1⟩ := by
    simp only [Net.round, Net.authLoop, Net.flushToDev, Net.devLoop, Net.flushToAuth,
      Net.deliverToDev, Net.deliverToAuth, ha1, hp1, List.nil_append, List.foldl_cons,
      List.foldl_nil, hd1, hp2, Device.loop, ha2, hp3, hK, transmitted, List.append_nil]
  rw [hround]
  refine ⟨?_, rfl, rfl, rfl, hdsp, by simp [hdse], rfl, ?_⟩
  · exact ⟨hcfg.caProfile, hcfg.cert, hcfg.pvt, hcfg.nc, hcfg.deviceName⟩
  · refine ⟨fk, enc, clock + 1 + 1 + 1, hfk, ?_, rfl⟩
    rw [← hK, ← hcfg.nc, ← hcfg.caProfile, ← hcfg.cert, ← hcfg.deviceName]
    exact henc

end happy

section happy

theorem Authenticator.processInterest_caProfile (L : Lib) (E : Env) (hE : E.Succeeds L)
    (a : Authenticator) (interest : Interest)
    (h : L.interestMatch interest a.m_caProfile = true) :
    (Authenticator.processInterest L E a interest).2.1 = a ∧
    transmitted (Authenticator.processInterest L E a interest).2.2 =
      [Packet.data a.m_caProfile] := by
  simp [Authenticator.processInterest, h, hE.reply, transmitted]

theorem Authenticator.loop_waiting (L : Lib) (E : Env) (hE : E.Succeeds L) (a : Authenticator)
    (hs : a.m_state = Authenticator.State.WaitConfirmResponse ∨
          a.m_state = Authenticator.State.WaitCredentialResponse) :
    Authenticator.loop L E a = (a, []) := by
  rcases hs with hs | hs <;> simp [Authenticator.loop, hs, hE.expired]

theorem Agrees.key_bob (L : Lib) (env : Nat → Env) (a0 : Authenticator) (P : Bytes)
    (hX : Agrees L env a0 P) (j : Nat) :
    (env j).getSharedKey ⟨Role.Bob, P⟩ = (env 0).getSharedKey ⟨Role.Alice, P⟩ :=
  (hX.sharedKey 0 j).symm

theorem Net.round_stage1 (L : Lib) (env : Nat → Env) (a0 : Authenticator) (P : Bytes)
    (sid : Component) (hL : L.Lawful) (hE : ∀ i, (env i).Succeeds L) (hX : Agrees L env a0 P)
    (n : Net) (h : Net.Stage1 L env a0 P sid ((env 0).getSharedKey ⟨Role.Alice, P⟩) n) :
    Net.Stage2 L a0 sid ((env 0).getSharedKey ⟨Role.Alice, P⟩) (Net.round L env n) := by
  obtain ⟨auth, dev, toDev, toAuth, clock⟩ := n
  obtain ⟨hcfg, has, hase, hds, hdsp, hdse, hta, fk, enc, i, hfk, henc, htd⟩ := h
  simp only at hcfg has hase hds hdsp hdse hta htd
  subst htd hta
  have ha1 := Authenticator.loop_waiting L (env clock) (hE clock) auth (Or.inl has)
  have hkey := Agrees.key_bob L env a0 P hX (clock + 1)
  have hdec := hX.decrypt_encrypt i (clock + 1)
    ⟨some sid, some ((env 0).getSharedKey ⟨Role.Alice, P⟩)⟩
    ⟨some sid, some ((env (clock + 1)).getSharedKey ⟨Role.Bob, P⟩)⟩ _ enc (by rw [hkey]) henc
  obtain ⟨r, name, info, hd1, hp1⟩ := Device.processInterest_confirm_happy L (env (clock + 1)) hL
    (hE _) dev ⟨Role.Bob, P⟩ sid fk enc a0.m_nc
    (a0.m_caProfile.name ++ [L.implicitDigest a0.m_caProfile])
    (a0.m_cert.name ++ [L.implicitDigest a0.m_cert]) a0.m_deviceName
    ((env i).timeValue % 2 ^ 64) hds hdsp hdse hfk (Nat.mod_lt _ (by positivity))
    (by rw [Name.last_append_singleton]; exact hL.isImplicitDigest_implicitDigest _)
    (by rw [Name.last_append_singleton]; exact hL.isImplicitDigest_implicitDigest _) hdec
  rw [hkey] at hd1
  obtain ⟨hd2, hp2⟩ := Device.sendFetchInterest_happy L (env (clock + 1 + 1)) (hE _)
    { dev with m_state := Device.State.FetchCaProfile,
               m_session := ⟨some sid, some ((env 0).getSharedKey ⟨Role.Alice, P⟩)⟩,
               m_region := r,
               m_lastInterestName := name,
               m_lastInterestPacketInfo := info,
               m_caProfileName := a0.m_caProfile.name ++ [L.implicitDigest a0.m_caProfile],
               m_authenticatorCertName := a0.m_cert.name ++ [L.implicitDigest a0.m_cert],
               m_deviceName := a0.m_deviceName }
    (a0.m_caProfile.name ++ [L.implicitDigest a0.m_caProfile]) Device.State.WaitCaProfile
  obtain ⟨ha2, hp3⟩ := Authenticator.processInterest_caProfile L (env (clock + 1 + 1 + 1)) (hE _)
    auth ⟨a0.m_caProfile.name ++ [L.implicitDigest a0.m_caProfile], ⟨[], true⟩⟩
    ((hL.interestMatch_iff _ _).2 (by rw [hcfg.caProfile]))
  have hround : Net.round L env ⟨auth, dev,
      [Packet.interest (Interest.parameterize L
        (L.getLocalhopOnboardingPrefix ++ [sid, L.getConfirmComponent])
        ⟨⟨L.tt .Spake2Fkca, fk⟩ :: enc.encode L, true⟩)], [], clock⟩ =
      ⟨auth,
        { dev with m_state := Device.State.WaitCaProfile,
                   m_session := ⟨some sid, some ((env 0).getSharedKey ⟨Role.Alice, P⟩)⟩,
                   m_region := r,
                   m_lastInterestName := name,
                   m_lastInterestPacketInfo := info,
                   m_caProfileName := a0.m_caProfile.name ++ [L.implicitDigest a0.m_caProfile],
                   m_authenticatorCertName := a0.m_cert.name ++ [L.implicitDigest a0.m_cert],
                   m_deviceName := a0.m_deviceName },
        [Packet.data auth.m_caProfile], [], clock + 1 + 1 + 1 + 1⟩ := by
    simp only [Net.round, Net.authLoop, Net.flushToDev, Net.devLoop, Net.flushToAuth,
      Net.deliverToDev, Net.deliverToAuth, ha1, List.nil_append, List.foldl_cons,
      List.foldl_nil, hd1, hp1, Device.loop, hd2, hp2, ha2, hp3, transmitted, List.append_nil]
  rw [hround]
  exact ⟨hcfg, has, hase, rfl, rfl, rfl, rfl, rfl, rfl, by rw [hcfg.caProfile]⟩

end happy

section happy

theorem Net.round_stage2 (L : Lib) (env : Nat → Env) (a0 : Authenticator) (P : Bytes)
    (sid : Component) (K : Bytes) (hL : L.Lawful) (hE : ∀ i, (env i).Succeeds L)
    (hX : Agrees L env a0 P) (n : Net) (h : Net.Stage2 L a0 sid K n) :
    Net.Stage3 L env a0 sid K (Net.round L env n) := by
  obtain ⟨auth, dev, toDev, toAuth, clock⟩ := n
  obtain ⟨hcfg, has, hase, hds, hdse, hcpn, hacn, hdn, hta, htd⟩ := h
  simp only at hcfg has hase hds hdse hcpn hacn hdn hta htd
  subst htd hta
  have ha1 := Authenticator.loop_waiting L (env clock) (hE clock) auth (Or.inl has)
  have hd1 := Device.processData_caProfile_happy L (env (clock + 1)) (hE _) dev a0.m_caProfile
    hds hcpn (hX.caProfile_parses (clock + 1) dev.m_caProfile)
    (hX.caProfile_valid (clock + 1) dev.m_caProfile)
  obtain ⟨hd2, hp2⟩ := Device.sendFetchInterest_happy L (env (clock + 1 + 1)) (hE _)
    { dev with m_state := Device.State.FetchAuthenticatorCert,
               m_caProfile := ((env (clock + 1)).caProfileFromData dev.m_caProfile
                 a0.m_caProfile).2,
               m_region := dev.m_region.alloc true }
    dev.m_authenticatorCertName Device.State.WaitAuthenticatorCert
  obtain ⟨x, hx, ha2, hp3⟩ := Authenticator.processInterest_serve L (env (clock + 1 + 1 + 1)) hL
    (hE _) auth ⟨dev.m_authenticatorCertName, ⟨[], true⟩⟩
    (Or.inr (Or.inl ((hL.interestMatch_iff _ _).2 (by rw [hcfg.cert]; exact hacn))))
  have hround : Net.round L env ⟨auth, dev, [Packet.data a0.m_caProfile], [], clock⟩ =
      ⟨auth,
        { dev with m_state := Device.State.WaitAuthenticatorCert,
                   m_caProfile := ((env (clock + 1)).caProfileFromData dev.m_caProfile
                     a0.m_caProfile).2,
                   m_region := dev.m_region.alloc true },
        [Packet.data x], [], clock + 1 + 1 + 1 + 1⟩ := by
    simp only [Net.round, Net.authLoop, Net.flushToDev, Net.devLoop, Net.flushToAuth,
      Net.deliverToDev, Net.deliverToAuth, ha1, List.nil_append, List.foldl_cons,
      List.foldl_nil, hd1, Device.loop, hd2, hp2, ha2, hp3, transmitted, List.append_nil]
  rw [hround]
  exact ⟨hcfg, has, hase, rfl, hdse, hacn, hdn, ⟨clock + 1, dev.m_caProfile, rfl⟩, rfl,
    ⟨x, by rw [hx]; exact hacn, rfl⟩⟩

theorem Net.round_stage3 (L : Lib) (env : Nat → Env) (a0 : Authenticator) (P : Bytes)
    (sid : Component) (K : Bytes) (hL : L.Lawful) (hE : ∀ i, (env i).Succeeds L)
    (hX : Agrees L env a0 P) (n : Net) (h : Net.Stage3 L env a0 sid K n) :
    Net.Stage4 sid K (Net.round L env n) := by
  obtain ⟨auth, dev, toDev, toAuth, clock⟩ := n
  obtain ⟨hcfg, has, hase, hds, hdse, hacn, hdn, ⟨j, cp, hcp⟩, hta, x, hx, htd⟩ := h
  simp only at hcfg has hase hds hdse hacn hdn hcp hta htd
  subst htd hta
  have hxn : x.name = a0.m_cert.name := (List.append_inj' hx rfl).1
  have ha1 := Authenticator.loop_waiting L (env clock) (hE clock) auth (Or.inl has)
  obtain ⟨tReq, enc, pvt, pub, hgen, hsign, hsub, henc, hd1, hp1⟩ := Device.processData_cert_happy L
    (env (clock + 1)) (hE _) dev x hds (by rw [hacn, hx])
    (by rw [hcp]; exact (hX.cert_valid (clock + 1) j cp x hx).1)
    (hX.cert_valid (clock + 1) j cp x hx).2
    (by rw [hxn, hdn]; exact hX.subject_ne_nil) (by rw [hdse]; rfl)
  have hdec := hX.decrypt_encrypt (clock + 1) (clock + 1 + 1 + 1) dev.m_session auth.m_session
    _ enc (by rw [hdse, hase]) henc
  obtain ⟨issued, r, ha2⟩ := Authenticator.processData_confirmResponse_happy L
    (env (clock + 1 + 1 + 1)) hL (hE _) auth
    (Data.signNull L dev.m_lastInterestName ⟨enc.encode L, true⟩) enc tReq has rfl hdec
    (hX.tReq_imports (clock + 1) (clock + 1 + 1 + 1) _ pvt pub tReq hgen hsign)
    (by rw [hsub, hxn, hdn, hcfg.cert, hcfg.deviceName])
  have hround : Net.round L env ⟨auth, dev, [Packet.data x], [], clock⟩ =
      ⟨{ auth with m_state := Authenticator.State.SendCredentialRequest,
                   m_issued := some issued, m_region := r },
        { dev with m_state := Device.State.WaitCredentialRequest,
                   m_tPvt := some pvt, m_tPub := some pub },
        [], [], clock + 1 + 1 + 1 + 1⟩ := by
    simp only [Net.round, Net.authLoop, Net.flushToDev, Net.devLoop, Net.flushToAuth,
      Net.deliverToDev, Net.deliverToAuth, ha1, List.nil_append, List.foldl_cons,
      List.foldl_nil, hd1, hp1, Device.loop, ha2, transmitted, List.append_nil]
  rw [hround]
  exact ⟨rfl, hase, rfl, rfl, hdse, rfl, rfl⟩

theorem Net.round_stage4 (L : Lib) (env : Nat → Env) (a0 : Authenticator) (P : Bytes)
    (sid : Component) (K : Bytes) (hL : L.Lawful) (hE : ∀ i, (env i).Succeeds L)
    (hX : Agrees L env a0 P) (n : Net) (h : Net.Stage4 sid K n) :
    Net.Stage5 L (Net.round L env n) := by
  obtain ⟨auth, dev, toDev, toAuth, clock⟩ := n
  obtain ⟨has, hase, hissued, hds, hdse, hta, htd⟩ := h
  simp only at has hase hissued hds hdse hta htd
  subst htd hta
  obtain ⟨issued, hissued⟩ := Option.isSome_iff_exists.1 hissued
  obtain ⟨enc, henc, ha1, hp1⟩ := Authenticator.loop_sendCredential_happy L (env clock) (hE _)
    auth sid issued has hissued (by rw [hase]) (by rw [hase]; rfl)
  have hdec := hX.decrypt_encrypt clock (clock + 1) auth.m_session dev.m_session
    _ enc (by rw [hdse, hase]) henc
  obtain ⟨r, name, info, hd1⟩ := Device.processInterest_credential_happy L (env (clock + 1)) hL
    (hE _) dev sid enc (issued.name ++ [L.implicitDigest issued]) hds (by rw [hdse]) hdec
  obtain ⟨hd2, hp2⟩ := Device.sendFetchInterest_happy L (env (clock + 1 + 1)) (hE _)
    { dev with m_state := Device.State.FetchTempCert,
               m_region := r,
               m_lastInterestName := name,
               m_lastInterestPacketInfo := info,
               m_tempCertName := issued.name ++ [L.implicitDigest issued] }
    (issued.name ++ [L.implicitDigest issued]) Device.State.WaitTempCert
  obtain ⟨y, hy, ha2, hp3⟩ := Authenticator.processInterest_serve L (env (clock + 1 + 1 + 1)) hL
    (hE _) { auth with m_state := Authenticator.State.WaitCredentialResponse }
    ⟨issued.name ++ [L.implicitDigest issued], ⟨[], true⟩⟩
    (Or.inr (Or.inr ⟨issued, hissued, (hL.interestMatch_iff _ _).2 rfl⟩))
  have hround : Net.round L env ⟨auth, dev, [], [], clock⟩ =
      ⟨{ auth with m_state := Authenticator.State.WaitCredentialResponse },
        { dev with m_state := Device.State.WaitTempCert,
                   m_region := r,
                   m_lastInterestName := name,
                   m_lastInterestPacketInfo := info,
                   m_tempCertName := issued.name ++ [L.implicitDigest issued] },
        [Packet.data y], [], clock + 1 + 1 + 1 + 1⟩ := by
    simp only [Net.round, Net.authLoop, Net.flushToDev, Net.devLoop, Net.flushToAuth,
      Net.deliverToDev, Net.deliverToAuth, ha1, hp1, List.nil_append, List.foldl_cons,
      List.foldl_nil, hd1, Device.loop, hd2, hp2, ha2, hp3, transmitted, List.append_nil]
  rw [hround]
  exact ⟨rfl, rfl, rfl, ⟨y, hy.symm, rfl⟩⟩

theorem Net.round_stage5 (L : Lib) (env : Nat → Env) (hE : ∀ i, (env i).Succeeds L)
    (n : Net) (h : Net.Stage5 L n) : Net.Stage6 (Net.round L env n) := by
  obtain ⟨auth, dev, toDev, toAuth, clock⟩ := n
  obtain ⟨has, hds, hta, y, hy, htd⟩ := h
  simp only at has hds hta hy htd
  subst htd hta
  have ha1 := Authenticator.loop_waiting L (env clock) (hE clock) auth (Or.inr has)
  obtain ⟨hd1, hp1⟩ := Device.processData_tempCert_happy L (env (clock + 1)) (hE _) dev y hds hy
  have ha2 := Authenticator.processData_credentialResponse_happy L (env (clock + 1 + 1 + 1))
    (hE _) auth (Data.signNull L dev.m_lastInterestName ⟨[], true⟩) has
  have hround : Net.round L env ⟨auth, dev, [Packet.data y], [], clock⟩ =
      ⟨{ auth with m_state := Authenticator.State.Success },
        { dev with m_state := Device.State.Success },
        [], [], clock + 1 + 1 + 1 + 1⟩ := by
    simp only [Net.round, Net.authLoop, Net.flushToDev, Net.devLoop, Net.flushToAuth,
      Net.deliverToDev, Net.deliverToAuth, ha1, List.nil_append, List.foldl_cons,
      List.foldl_nil, hd1, hp1, Device.loop, ha2, transmitted, List.append_nil]
  rw [hround]
  exact ⟨rfl, rfl, rfl, rfl⟩

theorem Net.round_stage6 (L : Lib) (env : Nat → Env) (n : Net) (h : Net.Stage6 n) :
    Net.Stage6 (Net.round L env n) := by
  obtain ⟨auth, dev, toDev, toAuth, clock⟩ := n
  obtain ⟨has, hds, hta, htd⟩ := h
  simp only at has hds hta htd
  subst htd hta
  have hround : Net.round L env ⟨auth, dev, [], [], clock⟩ =
      ⟨auth, dev, [], [], clock + 1 + 1⟩ := by
    simp [Net.round, Net.authLoop, Net.flushToDev, Net.devLoop, Net.flushToAuth,
      Authenticator.loop, has, Device.loop, hds, transmitted]
  rw [hround]
  exact ⟨has, hds, rfl, rfl⟩

theorem Net.run_stage6 (L : Lib) (env : Nat → Env) (k : Nat) (n : Net) (h : Net.Stage6 n) :
    Net.Stage6 (Net.run L env k n) := by
  induction k generalizing n with
  | zero => exact h
  | succ k ih => exact ih _ (Net.round_stage6 L env n h)

theorem Net.run_add (L : Lib) (env : Nat → Env) (j k : Nat) (n : Net) :
    Net.run L env (j + k) n = Net.run L env k (Net.run L env j n) := by
  induction j generalizing n with
  | zero => simp [Net.run]
  | succ j ih => rw [Nat.add_right_comm]; exact ih _

theorem Net.start_stage0 (env : Nat → Env) (a : Authenticator) (d : Device) (P : Bytes)
    (hA : (a.begin (env 0) P).1 = true) (hD : (d.begin (env 1) P).1 = true) :
    ∃ sid, Net.Stage0 a P sid (Net.start env a d P) := by
  unfold Authenticator.begin at hA
  unfold Device.begin at hD
  cases hsb : (env 0).sessionBegin with
  | none => simp [EncryptSession.begin, hsb] at hA
  | some sid =>
    by_cases hsa : (env 0).spake2Start Role.Alice P = true
    · by_cases hsd : (env 1).spake2Start Role.Bob P = true
      · refine ⟨sid, ?_⟩
        refine ⟨⟨?_, ?_, ?_, ?_, ?_⟩, ?_, ?_, ?_, ?_, ?_, ?_, rfl, rfl⟩ <;>
          simp [Net.start, Authenticator.begin, Authenticator.end, Device.begin, Device.end,
            EncryptSession.begin, EncryptSession.end, hsb, hsa, hsd]
      · simp [hsd] at hD
    · simp [EncryptSession.begin, hsb, hsa] at hA

end happy

section toy

theorem Toy.decItemsAux_enc (l : List (Nat × List Nat)) (rest : List Nat) :
    Toy.decItemsAux l.length ((l.flatMap fun p => p.1 :: p.2.length :: p.2) ++ rest) =
      some (l, rest) := by
  induction l with
  | nil => simp [Toy.decItemsAux]
  | cons p ps ih =>
    obtain ⟨t, v⟩ := p
    have h : (((t, v) :: ps).flatMap fun p => p.1 :: p.2.length :: p.2) ++ rest =
        t :: v.length :: (v ++ ((ps.flatMap fun p => p.1 :: p.2.length :: p.2) ++ rest)) := by
      simp [List.flatMap_cons]
    rw [List.length_cons, h, Toy.decItemsAux]
    simp only [List.length_append, Nat.le_add_right, if_true, List.drop_left, List.take_left, ih]

theorem Toy.decItems_enc (l : List (Nat × List Nat)) (rest : List Nat) :
    Toy.decItems (Toy.encItems l ++ rest) = some (l, rest) := by
  simp only [Toy.encItems, List.cons_append, Toy.decItems]
  exact Toy.decItemsAux_enc l rest

theorem Toy.decName_encName (n : Name) : Toy.decName (Toy.encName n) = some n := by
  have h := Toy.decItems_enc (n.map fun c => (c.type, c.value)) []
  simp only [List.append_nil] at h
  simp [Toy.decName, Toy.encName, h, List.map_map, Function.comp_def]

theorem Toy.decTlvs_encTlvs (l : List Tlv) : Toy.decTlvs (Toy.encTlvs l) = some l := by
  have h := Toy.decItems_enc (l.map fun c => (c.type, c.value)) []
  simp only [List.append_nil] at h
  simp [Toy.decTlvs, Toy.encTlvs, h, List.map_map, Function.comp_def]

theorem Toy.decData_encData (d : Data) : Toy.decData (Toy.encData d) = some d := by
  obtain ⟨name, ⟨elems, ok⟩, sigInfo, sigValue⟩ := d
  have h3 := Toy.decItems_enc [(0, sigInfo), (if ok then 1 else 0, sigValue)] []
  simp only [List.append_nil] at h3
  simp only [Toy.decData, Toy.encData, Toy.decItems_enc, h3]
  cases ok <;> simp [List.map_map, Function.comp_def]

theorem Toy.lib_lawful : Toy.lib.Lawful where
  tt_injective := by
    intro a b h
    cases a <;> cases b <;> first | rfl | exact absurd h (by decide)
  decodeName_encodeName := Toy.decName_encName
  decodeNni_encodeNni := by intro n _; rfl
  decodeData_encodeData := Toy.decData_encData
  checkDigest_parameterize := by
    intro name v
    simp [Toy.lib, Interest.parameterize]
  isImplicitDigest_implicitDigest := by intro d; rfl
  interestMatch_iff := by
    intro i d
    simp [Toy.lib]

theorem Toy.env_succeeds : Toy.env.Succeeds Toy.lib where
  expired := rfl
  matchPitToken := rfl
  pendingMatch := by intro d; simp [Toy.env]
  pendingSend := by intro i ep; rfl
  send := by intro d info; rfl
  reply := by intro d; rfl
  createInterest := rfl
  createData := rfl
  createIssued := rfl
  encoderOk := rfl
  fullNameOk := by intro d; rfl
  cloneOk := by intro n; rfl
  subjectNameOk := rfl
  sessionAssign := by
    intro s sid verb digest _
    simp [Toy.env, Toy.lib, List.dropLast]
  importKey := by intro s k _; rfl
  encrypt := by
    intro s pt h
    simp only [Toy.env, Option.isSome_map']
    exact h
  generateFirstMessage := by intro c; rfl
  processFirstMessage := by intro c m; rfl
  generateSecondMessage := by intro c; rfl
  processSecondMessage := by intro c m; rfl
  buildCertificate := by
    intro pub subject validity pvt
    exact ⟨_, rfl, by simp [Toy.lib, Toy.decData_encData]⟩
  ecGenerate := by
    intro subject _
    refine ⟨_, _, _, rfl, rfl, ?_⟩
    simp [Toy.lib, Toy.decName_encName, Toy.certSuffix]

theorem Toy.agrees :
    Agrees Toy.lib (fun _ => Toy.env) (Authenticator.new Toy.options) Toy.password where
  sharedKey := by intro i j; rfl
  decrypt_encrypt := by
    intro i j s1 s2 pt enc hk henc
    simp only [Toy.env, Option.map_eq_some'] at henc
    obtain ⟨k, hk1, rfl⟩ := henc
    simp [Toy.env, ← hk, hk1, Toy.decTlvs_encTlvs]
  caProfile_parses := by intro i cp; rfl
  tReq_imports := by intro i j subject pvt pub tReq _ _; rfl
  caProfile_valid := by
    intro i cp
    show (Toy.lib.getValidity Toy.caProfile).includes 1000 = true
    decide
  cert_valid := by
    intro i j cp x hx
    have h := List.append_inj' hx rfl
    have h2 : Toy.encData x = Toy.encData Toy.cert := by
      have := h.2
      simp only [Toy.lib, List.cons.injEq, Component.mk.injEq, and_true, true_and] at this
      exact this
    have hxc : x = Toy.cert := by
      have h3 := Toy.decData_encData x
      rw [h2, Toy.decData_encData] at h3
      exact (Option.some.inj h3).symm
    subst hxc
    constructor
    · show Toy.lib.verify Toy.cert ⟨Toy.caProfile.sigValue⟩ = true
      decide
    · show (Toy.lib.getValidity Toy.cert).includes 1000 = true
      decide
  subject_ne_nil := by decide

end toy

/-- C1. Happy path. For every password `P`, if `begin(P)` succeeds on both
endpoints and every external primitive succeeds in every call (`Lib.Lawful`,
`Env.Succeeds`, `Agrees`: SPAKE2 steps with a key both roles agree on,
`importKey`, encryption and decryption that invert each other, sends over a
transport that loses nothing and delivers each packet with a matching PIT token
before the request expires, digest and name checks, CA-profile parsing,
signature verification, validity periods that include now, key generation with
the tReq subject equal to the requested subject, arena allocation), then
repeatedly calling `loop()` on both endpoints and delivering each sent Interest
and Data to the peer ends, after six rounds and from then on, with the
Authenticator in `Success` and the Device in `Success`. -/
theorem happy_path (L : Lib) (env : Nat → Env) (a : Authenticator) (d : Device) (P : Bytes)
    (hA : (a.begin (env 0) P).1 = true) (hD : (d.begin (env 1) P).1 = true)
    (hL : L.Lawful) (hE : ∀ i, (env i).Succeeds L) (hX : Agrees L env a P) :
    ∀ k, 6 ≤ k →
      (Net.run L env k (Net.start env a d P)).auth.m_state = Authenticator.State.Success ∧
      (Net.run L env k (Net.start env a d P)).dev.m_state = Device.State.Success := by
  intro k hk
  obtain ⟨sid, h0⟩ := Net.start_stage0 env a d P hA hD
  have h1 := Net.round_stage0 L env a P sid hL hE hX _ h0
  have h2 := Net.round_stage1 L env a P sid hL hE hX _ h1
  have h3 := Net.round_stage2 L env a P sid _ hL hE hX _ h2
  have h4 := Net.round_stage3 L env a P sid _ hL hE hX _ h3
  have h5 := Net.round_stage4 L env a P sid _ hL hE hX _ h4
  have h6 := Net.round_stage5 L env hE _ h5
  obtain ⟨m, rfl⟩ := Nat.exists_eq_add_of_le hk
  rw [Net.run_add]
  have h := Net.run_stage6 L env m _ h6
  exact ⟨h.authState, h.devState⟩

theorem happy_path_witness :
    (Net.run Toy.lib (fun _ => Toy.env) 6
      (Net.start (fun _ => Toy.env) (Authenticator.new Toy.options) Device.new
        Toy.password)).auth.m_state = Authenticator.State.Success ∧
    (Net.run Toy.lib (fun _ => Toy.env) 6
      (Net.start (fun _ => Toy.env) (Authenticator.new Toy.options) Device.new
        Toy.password)).dev.m_state = Device.State.Success :=
  happy_path Toy.lib (fun _ => Toy.env) (Authenticator.new Toy.options) Device.new Toy.password
    (by decide) (by decide) Toy.lib_lawful (fun _ => Toy.env_succeeds) Toy.agrees 6 (Nat.le_refl 6)

section helpers

theorem Device.step_of_stopped (L : Lib) (E : Env) (d : Device) (op : Device.Op)
    (hd : d.m_state = Device.State.Failure ∨ d.m_state = Device.State.Idle)
    (hop : ∀ P, op ≠ Device.Op.begin P) :
    ((Device.step L E d op).1.m_state = Device.State.Failure ∨
      (Device.step L E d op).1.m_state = Device.State.Idle) ∧
    (Device.step L E d op).2 = [] := by
  cases op with
  | begin P => exact absurd rfl (hop P)
  | «end» => simp [Device.step, Device.end]
  | loop => rcases hd with h | h <;> simp [Device.step, Device.loop, h]
  | processData data =>
    rcases hd with h | h <;>
      by_cases ht : E.matchPitToken = true <;> simp [Device.step, Device.processData, h, ht]
  | processInterest interest =>
    rcases hd with h | h <;> simp [Device.step, Device.processInterest, h]

theorem Device.exec_of_stopped (L : Lib) (ops : List (Env × Device.Op)) :
    ∀ (d : Device), (d.m_state = Device.State.Failure ∨ d.m_state = Device.State.Idle) →
      Device.noBegin ops = true →
      ((Device.exec L (d, []) ops).1.m_state = Device.State.Failure ∨
        (Device.exec L (d, []) ops).1.m_state = Device.State.Idle) ∧
      (Device.exec L (d, []) ops).2 = [] := by
  induction ops with
  | nil => intro d hd _; exact ⟨hd, rfl⟩
  | cons p ps ih =>
    intro d hd hops
    obtain ⟨E, op⟩ := p
    simp only [Device.noBegin, List.all_cons, Bool.and_eq_true] at hops
    have hop : ∀ P, op ≠ Device.Op.begin P := by
      intro P h
      subst h
      simp at hops
    have hs := Device.step_of_stopped L E d op hd hop
    have hrest : Device.noBegin ps = true := hops.2
    cases op with
    | begin P => exact absurd rfl (hop P)
    | «end» =>
      simp only [Device.exec, hs.2, List.append_nil]
      exact ih _ hs.1 hrest
    | loop =>
      simp only [Device.exec, hs.2, List.append_nil]
      exact ih _ hs.1 hrest
    | processData data =>
      simp only [Device.exec, hs.2, List.append_nil]
      exact ih _ hs.1 hrest
    | processInterest interest =>
      simp only [Device.exec, hs.2, List.append_nil]
      exact ih _ hs.1 hrest

end helpers

/-- C11. Expired CA stops the Device. For every Device in `WaitCaProfile` and
every Data that carries the PIT token, matches the pending request for
`m_caProfileName` and parses as a CA profile: `processData` accepts the packet
and performs no call into the transport; when the validity of the CA
certificate includes the current time the state becomes
`FetchAuthenticatorCert`; when it does not, the state becomes `Failure`, and in
every continuation by `end`, `loop`, `processData` and `processInterest` calls
the Device stays in `Failure` or `Idle` and performs no call at all, so no
Interest for the authenticator certificate is sent. -/
theorem Device.expired_ca_stops (L : Lib) (E : Env) (d : Device) (data : Data)
    (hstate : d.m_state = Device.State.WaitCaProfile)
    (htoken : E.matchPitToken = true)
    (hmatch : E.pendingMatch data d.m_caProfileName = true)
    (hparse : (E.caProfileFromData d.m_caProfile data).1 = true) :
    (Device.processData L E d data).1 = true ∧
    (Device.processData L E d data).2.2 = [] ∧
    (Device.processData L E d data).2.1.m_state =
      (if (L.getValidity (E.caProfileFromData d.m_caProfile data).2.cert).includes E.now
       then Device.State.FetchAuthenticatorCert else Device.State.Failure) ∧
    ((L.getValidity (E.caProfileFromData d.m_caProfile data).2.cert).includes E.now = false →
      ∀ ops : List (Env × Device.Op), Device.noBegin ops = true →
        ((Device.exec L ((Device.processData L E d data).2.1, []) ops).1.m_state =
            Device.State.Failure ∨
          (Device.exec L ((Device.processData L E d data).2.1, []) ops).1.m_state =
            Device.State.Idle) ∧
        (Device.exec L ((Device.processData L E d data).2.1, []) ops).2 = []) := by
  have hp : Device.processData L E d data = Device.handleCaProfile L E d data := by
    simp [Device.processData, htoken, hstate]
  rw [hp]
  cases hv : (L.getValidity (E.caProfileFromData d.m_caProfile data).2.cert).includes E.now with
  | true =>
    simp [Device.handleCaProfile, hmatch, hparse, hv, Device.GotoState.call,
      Device.GotoState.destroy]
  | false =>
    have hfail : (Device.handleCaProfile L E d data).2.1.m_state = Device.State.Failure := by
      simp [Device.handleCaProfile, hmatch, hparse, hv, Device.GotoState.destroy]
    refine ⟨?_, ?_, ?_, ?_⟩
    · simp [Device.handleCaProfile, hmatch, hparse, hv]
    · simp [Device.handleCaProfile, hmatch, hparse, hv]
    · simpa using hfail
    · intro _ ops hops
      exact Device.exec_of_stopped L ops _ (Or.inl hfail) hops

set_option maxRecDepth 100000 in
theorem Device.expired_ca_stops_witness :
    (Device.processData Toy.lib Toy.envLate Toy.devWaitCa Toy.caProfile).2.1.m_state =
      Device.State.Failure ∧
    (Device.processData Toy.lib Toy.env Toy.devWaitCa Toy.caProfile).2.1.m_state =
      Device.State.FetchAuthenticatorCert :=
  ⟨(Device.expired_ca_stops Toy.lib Toy.envLate Toy.devWaitCa Toy.caProfile
      (by decide) (by decide) (by decide) (by decide)).2.2.1,
   (Device.expired_ca_stops Toy.lib Toy.env Toy.devWaitCa Toy.caProfile
      (by decide) (by decide) (by decide) (by decide)).2.2.1⟩

section helpers

theorem Device.exec_fst (L : Lib) (ops : List (Env × Device.Op)) (d : Device)
    (log1 log2 : List Event) :
    (Device.exec L (d, log1) ops).1 = (Device.exec L (d, log2) ops).1 := by
  induction ops generalizing d log1 log2 with
  | nil => rfl
  | cons p ps ih =>
    obtain ⟨E, op⟩ := p
    cases op <;> simp only [Device.exec] <;> exact ih _ _ _

end helpers

section helpers

theorem EvDecoder.decodeElements_field {σ : Type} (isCritical : Nat → Bool)
    (rules : List (EvRule σ)) (t n : Nat) (get : σ → Bytes) (r0 : EvRule σ)
    (hfind : rules.find? (fun r => r.tt == t) = some r0)
    (hrule : ∀ d s s1, r0.f d s = some s1 → d.length = n ∧ get s1 = d.value)
    (hother : ∀ r ∈ rules, r.tt ≠ t → ∀ d s s1, r.f d s = some s1 → get s1 = get s) :
    ∀ (ds : List Tlv) (s s1 : σ), EvDecoder.decodeElements isCritical rules ds s = some s1 →
      (∀ d ∈ ds, d.type = t → d.length = n) ∧
      get s1 = (((ds.filter fun e => e.type == t).getLast?).map (·.value)).getD (get s) := by
  intro ds
  induction ds with
  | nil =>
    intro s s1 h
    simp only [EvDecoder.decodeElements, Option.some.injEq] at h
    subst h
    simp
  | cons d ds ih =>
    intro s s1 h
    unfold EvDecoder.decodeElements at h
    by_cases hd : d.type = t
    · rw [hd, hfind] at h
      simp only at h
      cases hf : r0.f d s with
      | none => simp [hf] at h
      | some s2 =>
        simp only [hf] at h
        obtain ⟨h1, h2⟩ := ih s2 s1 h
        obtain ⟨hl, hv⟩ := hrule d s s2 hf
        constructor
        · intro e he het
          rcases List.mem_cons.mp he with rfl | he
          · exact hl
          · exact h1 e he het
        · rw [h2, hv]
          simp only [List.filter_cons, hd, beq_self_eq_true, if_true]
          cases hq : (ds.filter fun e => e.type == t) with
          | nil => simp
          | cons q qs =>
            rw [List.getLast?_cons_cons]
            have hx : (q :: qs).getLast? = some ((q :: qs).getLast (by simp)) :=
              List.getLast?_eq_getLast _ _
            rw [hx]
            rfl
    · have hfilter : ((d :: ds).filter fun e => e.type == t) = ds.filter fun e => e.type == t := by
        simp [List.filter_cons, hd]
      have hmem : ∀ e ∈ d :: ds, e.type = t → e ∈ ds := by
        intro e he het
        rcases List.mem_cons.mp he with rfl | he
        · exact absurd het hd
        · exact he
      rw [hfilter]
      cases hf : rules.find? (fun r => r.tt == d.type) with
      | none =>
        simp only [hf] at h
        split at h
        · exact absurd h (by simp)
        · obtain ⟨h1, h2⟩ := ih s s1 h
          exact ⟨fun e he het => h1 e (hmem e he het) het, h2⟩
      | some r =>
        simp only [hf] at h
        have hr : r ∈ rules := List.mem_of_find?_eq_some hf
        have hrt : r.tt ≠ t := by
          have := List.find?_some hf
          simp only [beq_iff_eq] at this
          rw [this]; exact hd
        cases hfr : r.f d s with
        | none => simp [hfr] at h
        | some s2 =>
          simp only [hfr] at h
          obtain ⟨h1, h2⟩ := ih s2 s1 h
          refine ⟨fun e he het => h1 e (hmem e he het) het, ?_⟩
          rw [h2, hother r hr hrt d s s2 hfr]

theorem EvDecoder.decodeValue_field {σ : Type} (L : Lib)
    (rules : List (EvRule σ)) (t n : Nat) (get : σ → Bytes) (r0 : EvRule σ)
    (hfind : rules.find? (fun r => r.tt == t) = some r0)
    (hrule : ∀ d s s1, r0.f d s = some s1 → d.length = n ∧ get s1 = d.value)
    (hother : ∀ r ∈ rules, r.tt ≠ t → ∀ d s s1, r.f d s = some s1 → get s1 = get s)
    (input : Value) (s s1 : σ) (h : EvDecoder.decodeValue L input rules s = some s1) :
    (∀ d ∈ input.elems, d.type = t → d.length = n) ∧
    ∀ d, input.lastOf t = some d → get s1 = d.value := by
  unfold EvDecoder.decodeValue at h
  cases hde : EvDecoder.decodeElements L.isCritical rules input.elems s with
  | none => simp [hde] at h
  | some s2 =>
    simp only [hde] at h
    obtain ⟨h1, h2⟩ := EvDecoder.decodeElements_field L.isCritical rules t n get r0 hfind hrule
      hother input.elems s s2 hde
    split at h
    · cases h
      refine ⟨h1, ?_⟩
      intro d hd
      unfold Value.lastOf at hd
      rw [h2, hd]
      rfl
    · exact absurd h (by simp)

theorem Device.PakeRequest.fromInterest_spake2T (L : Lib) (interest : Interest)
    (r : packet_struct.PakeRequest) (h : Device.PakeRequest.fromInterest L interest = some r) :
    (∀ d ∈ interest.appParameters.elems, d.type = L.tt .Spake2T → d.length = L.sizeofSpake2T) ∧
    ∀ d, interest.appParameters.lastOf (L.tt .Spake2T) = some d → r.spake2T = d.value := by
  unfold Device.PakeRequest.fromInterest at h
  refine EvDecoder.decodeValue_field L _ (L.tt .Spake2T) L.sizeofSpake2T (·.spake2T) _
    (List.find?_cons_of_pos _ (by simp)) ?_ ?_ _ _ _ h
  · intro d s s1 hf
    simp only at hf
    split at hf
    · rename_i hl
      cases hf
      exact ⟨by simpa using hl, rfl⟩
    · exact absurd hf (by simp)
  · intro r hr hne
    simp only [List.mem_singleton] at hr
    subst hr
    exact absurd rfl hne

theorem Authenticator.PakeResponse.fromData_spake2S (L : Lib) (data : Data)
    (r : packet_struct.PakeResponse) (h : Authenticator.PakeResponse.fromData L data = some r) :
    (∀ d ∈ data.content.elems, d.type = L.tt .Spake2S → d.length = L.sizeofSpake2S) ∧
    ∀ d, data.content.lastOf (L.tt .Spake2S) = some d → r.spake2S = d.value := by
  unfold Authenticator.PakeResponse.fromData at h
  refine EvDecoder.decodeValue_field L _ (L.tt .Spake2S) L.sizeofSpake2S (·.spake2S) _
    (List.find?_cons_of_pos _ (by simp)) ?_ ?_ _ _ _ h
  · intro d s s1 hf
    simp only at hf
    split at hf
    · rename_i hl
      cases hf
      exact ⟨by simpa using hl, rfl⟩
    · exact absurd hf (by simp)
  · intro r hr hne d s s1 hf
    simp only [List.mem_cons, List.mem_singleton, List.not_mem_nil, or_false] at hr
    rcases hr with rfl | rfl
    · exact absurd rfl hne
    · simp only at hf
      split at hf
      · cases hf; rfl
      · exact absurd hf (by simp)

theorem Authenticator.PakeResponse.fromData_spake2Fkcb (L : Lib)
    (hinj : Function.Injective L.tt) (data : Data)
    (r : packet_struct.PakeResponse) (h : Authenticator.PakeResponse.fromData L data = some r) :
    (∀ d ∈ data.content.elems, d.type = L.tt .Spake2Fkcb → d.length = L.sizeofSpake2Fkcb) ∧
    ∀ d, data.content.lastOf (L.tt .Spake2Fkcb) = some d → r.spake2Fkcb = d.value := by
  unfold Authenticator.PakeResponse.fromData at h
  refine EvDecoder.decodeValue_field L _ (L.tt .Spake2Fkcb) L.sizeofSpake2Fkcb (·.spake2Fkcb) _
    ((List.find?_cons_of_neg _ (by simp [hinj.eq_iff])).trans
      (List.find?_cons_of_pos _ (by simp))) ?_ ?_ _ _ _ h
  · intro d s s1 hf
    simp only at hf
    split at hf
    · rename_i hl
      cases hf
      exact ⟨by simpa using hl, rfl⟩
    · exact absurd hf (by simp)
  · intro r hr hne d s s1 hf
    simp only [List.mem_cons, List.mem_singleton, List.not_mem_nil, or_false] at hr
    rcases hr with rfl | rfl
    · simp only at hf
      split at hf
      · cases hf; rfl
      · exact absurd hf (by simp)
    · exact absurd rfl hne

theorem Device.ConfirmRequest.fromInterest_spake2Fkca (L : Lib) (interest : Interest)
    (r : packet_struct.ConfirmRequest × Encrypted)
    (h : Device.ConfirmRequest.fromInterest L interest = some r) :
    (∀ d ∈ interest.appParameters.elems,
      d.type = L.tt .Spake2Fkca → d.length = L.sizeofSpake2Fkca) ∧
    ∀ d, interest.appParameters.lastOf (L.tt .Spake2Fkca) = some d →
      r.1.spake2Fkca = d.value := by
  unfold Device.ConfirmRequest.fromInterest at h
  refine EvDecoder.decodeValue_field L _ (L.tt .Spake2Fkca) L.sizeofSpake2Fkca
    (·.1.spake2Fkca) _ (List.find?_cons_of_pos _ (by simp)) ?_ ?_ _ _ _ h
  · intro d s s1 hf
    simp only at hf
    split at hf
    · rename_i hl
      cases hf
      exact ⟨by simpa using hl, rfl⟩
    · exact absurd hf (by simp)
  · intro r hr hne d s s1 hf
    simp only [Encrypted.rules, List.mem_cons, List.mem_singleton, List.not_mem_nil,
      or_false] at hr
    rcases hr with rfl | rfl | rfl | rfl
    · exact absurd rfl hne
    all_goals
      simp only [Option.some.injEq] at hf
      subst hf
      rfl

end helpers

section helpers

theorem EvDecoder.decodeElements_isSome {σ : Type} (isCritical : Nat → Bool)
    (rules : List (EvRule σ)) (ds : List Tlv)
    (h : ∀ d ∈ ds, ∀ s : σ,
      match rules.find? (fun r => r.tt == d.type) with
      | some r => (r.f d s).isSome = true
      | none => isCritical d.type = false) :
    ∀ s : σ, (EvDecoder.decodeElements isCritical rules ds s).isSome = true := by
  induction ds with
  | nil => intro s; rfl
  | cons d ds ih =>
    intro s
    have hd := h d (List.mem_cons_self _ _) s
    have ih2 := ih (fun e he => h e (List.mem_cons_of_mem _ he))
    unfold EvDecoder.decodeElements
    cases hf : rules.find? (fun r => r.tt == d.type) with
    | none =>
      simp only [hf] at hd ⊢
      simp only [hd, Bool.false_eq_true, if_false]
      exact ih2 s
    | some r =>
      simp only [hf] at hd ⊢
      cases hr : r.f d s with
      | none => simp [hr] at hd
      | some s1 => exact ih2 s1

theorem EvDecoder.decodeValue_isSome {σ : Type} (L : Lib) (rules : List (EvRule σ))
    (input : Value) (hok : input.ok = true)
    (h : ∀ d ∈ input.elems, ∀ s : σ,
      match rules.find? (fun r => r.tt == d.type) with
      | some r => (r.f d s).isSome = true
      | none => L.isCritical d.type = false) (s : σ) :
    ∃ s1, EvDecoder.decodeValue L input rules s = some s1 := by
  have h1 := EvDecoder.decodeElements_isSome L.isCritical rules input.elems h s
  unfold EvDecoder.decodeValue
  cases hd : EvDecoder.decodeElements L.isCritical rules input.elems s with
  | none => simp [hd] at h1
  | some s1 => exact ⟨s1, by simp [hok]⟩

theorem Device.PakeRequest.pakeRequest_accepts (L : Lib) (interest : Interest)
    (hok : interest.appParameters.ok = true)
    (h : ∀ d ∈ interest.appParameters.elems,
      (d.type = L.tt .Spake2T → d.length = L.sizeofSpake2T) ∧
      (d.type ≠ L.tt .Spake2T → L.isCritical d.type = false)) :
    ∃ r, Device.PakeRequest.fromInterest L interest = some r := by
  unfold Device.PakeRequest.fromInterest
  apply EvDecoder.decodeValue_isSome L _ _ hok
  intro d hd s
  obtain ⟨h1, h2⟩ := h d hd
  by_cases ht : d.type = L.tt .Spake2T
  · rw [List.find?_cons_of_pos _ (by simpa using ht.symm)]
    simp [h1 ht]
  · rw [List.find?_cons_of_neg _ (by simpa using fun e => ht (Eq.symm e)), List.find?_nil]
    simpa using h2 ht

theorem Authenticator.PakeResponse.pakeResponse_accepts (L : Lib) (data : Data)
    (hok : data.content.ok = true)
    (h : ∀ d ∈ data.content.elems,
      (d.type = L.tt .Spake2S → d.length = L.sizeofSpake2S) ∧
      (d.type = L.tt .Spake2Fkcb → d.length = L.sizeofSpake2Fkcb) ∧
      (d.type ≠ L.tt .Spake2S → d.type ≠ L.tt .Spake2Fkcb → L.isCritical d.type = false)) :
    ∃ r, Authenticator.PakeResponse.fromData L data = some r := by
  unfold Authenticator.PakeResponse.fromData
  apply EvDecoder.decodeValue_isSome L _ _ hok
  intro d hd s
  obtain ⟨h1, h2, h3⟩ := h d hd
  by_cases ht : d.type = L.tt .Spake2S
  · rw [List.find?_cons_of_pos _ (by simpa using ht.symm)]
    simp [h1 ht]
  · rw [List.find?_cons_of_neg _ (by simpa using fun e => ht (Eq.symm e))]
    by_cases hu : d.type = L.tt .Spake2Fkcb
    · rw [List.find?_cons_of_pos _ (by simpa using hu.symm)]
      simp [h2 hu]
    · rw [List.find?_cons_of_neg _ (by simpa using fun e => hu (Eq.symm e)), List.find?_nil]
      simpa using h3 ht hu

theorem Device.ConfirmRequest.confirmRequest_accepts (L : Lib) (interest : Interest)
    (hok : interest.appParameters.ok = true)
    (h : ∀ d ∈ interest.appParameters.elems,
      (d.type = L.tt .Spake2Fkca → d.length = L.sizeofSpake2Fkca) ∧
      (d.type ≠ L.tt .Spake2Fkca → d.type ≠ L.tt .InitializationVector →
        d.type ≠ L.tt .AuthenticationTag → d.type ≠ L.tt .EncryptedPayload →
          L.isCritical d.type = false)) :
    ∃ r, Device.ConfirmRequest.fromInterest L interest = some r := by
  unfold Device.ConfirmRequest.fromInterest Encrypted.rules
  apply EvDecoder.decodeValue_isSome L _ _ hok
  intro d hd s
  obtain ⟨h1, h2⟩ := h d hd
  by_cases ht : d.type = L.tt .Spake2Fkca
  · rw [List.find?_cons_of_pos _ (by simpa using ht.symm)]
    simp [h1 ht]
  · rw [List.find?_cons_of_neg _ (by simpa using fun e => ht (Eq.symm e))]
    by_cases ha : d.type = L.tt .InitializationVector
    · rw [List.find?_cons_of_pos _ (by simpa using ha.symm)]
      simp
    · rw [List.find?_cons_of_neg _ (by simpa using fun e => ha (Eq.symm e))]
      by_cases hb : d.type = L.tt .AuthenticationTag
      · rw [List.find?_cons_of_pos _ (by simpa using hb.symm)]
        simp
      · rw [List.find?_cons_of_neg _ (by simpa using fun e => hb (Eq.symm e))]
        by_cases hc : d.type = L.tt .EncryptedPayload
        · rw [List.find?_cons_of_pos _ (by simpa using hc.symm)]
          simp
        · rw [List.find?_cons_of_neg _ (by simpa using fun e => hc (Eq.symm e)),
            List.find?_nil]
          simpa using h2 ht ha hb hc

end helpers

/-- C13. Fixed-width fields are length-checked. With distinct TLV-TYPE numbers,
each of the decoders for `Spake2T` (`Device::PakeRequest::fromInterest`),
`Spake2S` and `Spake2Fkcb` (`Authenticator::PakeResponse::fromData`) and
`Spake2Fkca` (`Device::ConfirmRequest::fromInterest`) returns `false` for every
input in which an element of that type is present with a length different from
the declared size of the field; when it returns `true`, the field holds exactly
the TLV-VALUE of the element of that type (the last one in the input); and it
does return `true`, with the value copied, for every input whose iteration ends
without error, in which every element of the type of a fixed-width field has
the declared length and every element that no rule recognises has a
non-critical type. -/
theorem fixed_width_fields_checked (L : Lib) (hinj : Function.Injective L.tt) :
    ((∀ (interest : Interest) (d : Tlv), d ∈ interest.appParameters.elems →
        d.type = L.tt .Spake2T → d.length ≠ L.sizeofSpake2T →
          Device.PakeRequest.fromInterest L interest = none) ∧
      (∀ (interest : Interest) (r : packet_struct.PakeRequest) (d : Tlv),
        Device.PakeRequest.fromInterest L interest = some r →
          interest.appParameters.lastOf (L.tt .Spake2T) = some d →
            d.length = L.sizeofSpake2T ∧ r.spake2T = d.value)) ∧
    ((∀ (data : Data) (d : Tlv), d ∈ data.content.elems →
        d.type = L.tt .Spake2S → d.length ≠ L.sizeofSpake2S →
          Authenticator.PakeResponse.fromData L data = none) ∧
      (∀ (data : Data) (r : packet_struct.PakeResponse) (d : Tlv),
        Authenticator.PakeResponse.fromData L data = some r →
          data.content.lastOf (L.tt .Spake2S) = some d →
            d.length = L.sizeofSpake2S ∧ r.spake2S = d.value)) ∧
    ((∀ (data : Data) (d : Tlv), d ∈ data.content.elems →
        d.type = L.tt .Spake2Fkcb → d.length ≠ L.sizeofSpake2Fkcb →
          Authenticator.PakeResponse.fromData L data = none) ∧
      (∀ (data : Data) (r : packet_struct.PakeResponse) (d : Tlv),
        Authenticator.PakeResponse.fromData L data = some r →
          data.content.lastOf (L.tt .Spake2Fkcb) = some d →
            d.length = L.sizeofSpake2Fkcb ∧ r.spake2Fkcb = d.value)) ∧
    ((∀ (interest : Interest) (d : Tlv), d ∈ interest.appParameters.elems →
        d.type = L.tt .Spake2Fkca → d.length ≠ L.sizeofSpake2Fkca →
          Device.ConfirmRequest.fromInterest L interest = none) ∧
      (∀ (interest : Interest) (r : packet_struct.ConfirmRequest × Encrypted) (d : Tlv),
        Device.ConfirmRequest.fromInterest L interest = some r →
          interest.appParameters.lastOf (L.tt .Spake2Fkca) = some d →
            d.length = L.sizeofSpake2Fkca ∧ r.1.spake2Fkca = d.value)) ∧
    (∀ interest : Interest, interest.appParameters.ok = true →
      (∀ d ∈ interest.appParameters.elems,
        (d.type = L.tt .Spake2T → d.length = L.sizeofSpake2T) ∧
        (d.type ≠ L.tt .Spake2T → L.isCritical d.type = false)) →
      ∃ r, Device.PakeRequest.fromInterest L interest = some r ∧
        ∀ d, interest.appParameters.lastOf (L.tt .Spake2T) = some d → r.spake2T = d.value) ∧
    (∀ data : Data, data.content.ok = true →
      (∀ d ∈ data.content.elems,
        (d.type = L.tt .Spake2S → d.length = L.sizeofSpake2S) ∧
        (d.type = L.tt .Spake2Fkcb → d.length = L.sizeofSpake2Fkcb) ∧
        (d.type ≠ L.tt .Spake2S → d.type ≠ L.tt .Spake2Fkcb → L.isCritical d.type = false)) →
      ∃ r, Authenticator.PakeResponse.fromData L data = some r ∧
        (∀ d, data.content.lastOf (L.tt .Spake2S) = some d → r.spake2S = d.value) ∧
        (∀ d, data.content.lastOf (L.tt .Spake2Fkcb) = some d → r.spake2Fkcb = d.value)) ∧
    (∀ interest : Interest, interest.appParameters.ok = true →
      (∀ d ∈ interest.appParameters.elems,
        (d.type = L.tt .Spake2Fkca → d.length = L.sizeofSpake2Fkca) ∧
        (d.type ≠ L.tt .Spake2Fkca → d.type ≠ L.tt .InitializationVector →
          d.type ≠ L.tt .AuthenticationTag → d.type ≠ L.tt .EncryptedPayload →
            L.isCritical d.type = false)) →
      ∃ r, Device.ConfirmRequest.fromInterest L interest = some r ∧
        ∀ d, interest.appParameters.lastOf (L.tt .Spake2Fkca) = some d →
          r.1.spake2Fkca = d.value) := by
  have hlast : ∀ (v : Value) (t : Nat) (d : Tlv), v.lastOf t = some d →
      d ∈ v.elems ∧ d.type = t := by
    intro v t d h
    have hm := List.mem_of_getLast?_eq_some h
    simp only [List.mem_filter, beq_iff_eq] at hm
    exact hm
  refine ⟨⟨?_, ?_⟩, ⟨?_, ?_⟩, ⟨?_, ?_⟩, ⟨?_, ?_⟩, ?_, ?_, ?_⟩
  · intro interest d hd ht hl
    cases h : Device.PakeRequest.fromInterest L interest with
    | none => rfl
    | some r => exact absurd ((Device.PakeRequest.fromInterest_spake2T L interest r h).1 d hd ht) hl
  · intro interest r d h hd
    have hs := Device.PakeRequest.fromInterest_spake2T L interest r h
    obtain ⟨hm, ht⟩ := hlast _ _ _ hd
    exact ⟨hs.1 d hm ht, hs.2 d hd⟩
  · intro data d hd ht hl
    cases h : Authenticator.PakeResponse.fromData L data with
    | none => rfl
    | some r => exact absurd ((Authenticator.PakeResponse.fromData_spake2S L data r h).1 d hd ht) hl
  · intro data r d h hd
    have hs := Authenticator.PakeResponse.fromData_spake2S L data r h
    obtain ⟨hm, ht⟩ := hlast _ _ _ hd
    exact ⟨hs.1 d hm ht, hs.2 d hd⟩
  · intro data d hd ht hl
    cases h : Authenticator.PakeResponse.fromData L data with
    | none => rfl
    | some r =>
      exact absurd ((Authenticator.PakeResponse.fromData_spake2Fkcb L hinj data r h).1 d hd ht) hl
  · intro data r d h hd
    have hs := Authenticator.PakeResponse.fromData_spake2Fkcb L hinj data r h
    obtain ⟨hm, ht⟩ := hlast _ _ _ hd
    exact ⟨hs.1 d hm ht, hs.2 d hd⟩
  · intro interest d hd ht hl
    cases h : Device.ConfirmRequest.fromInterest L interest with
    | none => rfl
    | some r =>
      exact absurd ((Device.ConfirmRequest.fromInterest_spake2Fkca L interest r h).1 d hd ht) hl
  · intro interest r d h hd
    have hs := Device.ConfirmRequest.fromInterest_spake2Fkca L interest r h
    obtain ⟨hm, ht⟩ := hlast _ _ _ hd
    exact ⟨hs.1 d hm ht, hs.2 d hd⟩
  · intro interest hok h
    obtain ⟨r, hr⟩ := Device.PakeRequest.pakeRequest_accepts L interest hok h
    exact ⟨r, hr, (Device.PakeRequest.fromInterest_spake2T L interest r hr).2⟩
  · intro data hok h
    obtain ⟨r, hr⟩ := Authenticator.PakeResponse.pakeResponse_accepts L data hok h
    exact ⟨r, hr, (Authenticator.PakeResponse.fromData_spake2S L data r hr).2,
      (Authenticator.PakeResponse.fromData_spake2Fkcb L hinj data r hr).2⟩
  · intro interest hok h
    obtain ⟨r, hr⟩ := Device.ConfirmRequest.confirmRequest_accepts L interest hok h
    exact ⟨r, hr, (Device.ConfirmRequest.fromInterest_spake2Fkca L interest r hr).2⟩

set_option maxRecDepth 100000 in
theorem fixed_width_fields_checked_witness :
    Device.PakeRequest.fromInterest Toy.lib Toy.longPakeInterest = none ∧
    Authenticator.PakeResponse.fromData Toy.lib
      ⟨[], ⟨[⟨Toy.tt .Spake2S, [1, 2]⟩, ⟨Toy.tt .Spake2Fkcb, [3, 4, 5]⟩], true⟩, [], []⟩ = none ∧
    (∃ r, Device.PakeRequest.fromInterest Toy.lib
        ⟨[], ⟨[⟨200, [9]⟩, ⟨Toy.tt .Spake2T, [7, 8]⟩], true⟩⟩ = some r ∧ r.spake2T = [7, 8]) ∧
    (∃ r, Authenticator.PakeResponse.fromData Toy.lib Toy.pakeResponse = some r ∧
      r.spake2S = [1, 2] ∧ r.spake2Fkcb = [3, 4]) ∧
    (∃ r, Device.ConfirmRequest.fromInterest Toy.lib Toy.confirmInterest = some r ∧
      r.1.spake2Fkca = [3, 4]) :=
  ⟨(fixed_width_fields_checked Toy.lib Toy.lib_lawful.tt_injective).1.1 Toy.longPakeInterest
      ⟨Toy.tt .Spake2T, [1, 2, 3]⟩ (by decide) (by decide) (by decide),
   (fixed_width_fields_checked Toy.lib Toy.lib_lawful.tt_injective).2.2.1.1
      ⟨[], ⟨[⟨Toy.tt .Spake2S, [1, 2]⟩, ⟨Toy.tt .Spake2Fkcb, [3, 4, 5]⟩], true⟩, [], []⟩
      ⟨Toy.tt .Spake2Fkcb, [3, 4, 5]⟩ (by decide) (by decide) (by decide),
   ((fixed_width_fields_checked Toy.lib Toy.lib_lawful.tt_injective).2.2.2.2.1
      ⟨[], ⟨[⟨200, [9]⟩, ⟨Toy.tt .Spake2T, [7, 8]⟩], true⟩⟩ rfl (by decide)).imp
      fun _ h => ⟨h.1, h.2 ⟨Toy.tt .Spake2T, [7, 8]⟩ (by decide)⟩,
   ((fixed_width_fields_checked Toy.lib Toy.lib_lawful.tt_injective).2.2.2.2.2.1
      Toy.pakeResponse rfl (by decide)).imp
      fun _ h => ⟨h.1, h.2.1 ⟨Toy.tt .Spake2S, [1, 2]⟩ (by decide),
        h.2.2 ⟨Toy.tt .Spake2Fkcb, [3, 4]⟩ (by decide)⟩,
   ((fixed_width_fields_checked Toy.lib Toy.lib_lawful.tt_injective).2.2.2.2.2.2
      Toy.confirmInterest (by decide) (by decide)).imp
      fun _ h => ⟨h.1, h.2 ⟨Toy.tt .Spake2Fkca, [3, 4]⟩ (by decide)⟩⟩

/-- C14. Name-shape gate on the Device. `checkInterestVerb(interest, verb)` is
true only if the Interest name has exactly `prefix.size + 3` components, the
onboarding prefix is a prefix of it, its second-to-last component equals the
expected verb, the parameters digest check passes and the session accepts the
name; and for every Interest for which it is false for the verb of the state,
in `WaitPakeRequest`, `WaitConfirmRequest` or `WaitCredentialRequest`,
`processInterest` returns `false`, the state and the SPAKE2 context are
unchanged, and no call is made: no SPAKE2 step is run and nothing is replied. -/
theorem Device.name_shape_gate (L : Lib) (E : Env) (d : Device) (interest : Interest) :
    (∀ verb : Component, (Device.checkInterestVerb L E d interest verb).1 = true →
      interest.name.length = L.getLocalhopOnboardingPrefix.length + 3 ∧
      L.getLocalhopOnboardingPrefix <+: interest.name ∧
      Name.secondLast interest.name = verb ∧
      L.checkDigest interest = true ∧
      (E.sessionAssign d.m_session interest.name).isSome = true) ∧
    (∀ verb : Component, Device.expectedVerb L d.m_state = some verb →
      (Device.checkInterestVerb L E d interest verb).1 = false →
        (Device.processInterest L E d interest).1 = false ∧
        (Device.processInterest L E d interest).2.1.m_state = d.m_state ∧
        (Device.processInterest L E d interest).2.1.m_spake2 = d.m_spake2 ∧
        (Device.processInterest L E d interest).2.2 = []) := by
  constructor
  · intro verb h
    unfold Device.checkInterestVerb at h
    simp only at h
    split at h
    · rename_i hc
      simp only [Bool.and_eq_true, beq_iff_eq, List.isPrefixOf_iff_prefix] at hc
      obtain ⟨⟨⟨h1, h2⟩, h3⟩, h4⟩ := hc
      refine ⟨h1, h2, h3, h4, ?_⟩
      unfold EncryptSession.assign at h
      cases hs : E.sessionAssign d.m_session interest.name with
      | none => simp [hs] at h
      | some sid => rfl
    · exact absurd h (by simp)
  · intro verb hv hc
    have hst := Device.checkInterestVerb_state L E d interest verb
    have hsp := Device.checkInterestVerb_spake2 L E d interest verb
    cases hs : d.m_state <;> simp only [hs, Device.expectedVerb, Option.some.injEq,
      reduceCtorEq] at hv
    all_goals
      subst hv
      simp only [Device.processInterest, hs]
    · unfold Device.handlePakeRequest
      generalize Device.checkInterestVerb L E d interest L.getPakeComponent = r at hc hst hsp ⊢
      obtain ⟨ok, d1⟩ := r
      simp only at hc hst hsp
      subst hc
      simp [hst, hsp, hs]
    · unfold Device.handleConfirmRequest
      generalize Device.checkInterestVerb L E d interest L.getConfirmComponent = r at hc hst hsp ⊢
      obtain ⟨ok, d1⟩ := r
      simp only at hc hst hsp
      subst hc
      simp [hst, hsp, hs]
    · unfold Device.handleCredentialRequest
      generalize Device.checkInterestVerb L E d interest L.getCredentialComponent = r
        at hc hst hsp ⊢
      obtain ⟨ok, d1⟩ := r
      simp only at hc hst hsp
      subst hc
      simp [hst, hsp, hs]

/-- C15. Out-of-state and uncorrelated messages are dropped.
`Authenticator::processData` and `Device::processData` return `false`, leave the
whole endpoint unchanged and make no call whenever `matchPitToken()` is false or
the current state is not one of the three Data-waiting states of the endpoint;
`Device::processInterest` returns `false`, leaves the whole Device unchanged and
makes no call whenever the current state is not `WaitPakeRequest`,
`WaitConfirmRequest` or `WaitCredentialRequest`. -/
theorem out_of_state_dropped (L : Lib) (E : Env) :
    (∀ (a : Authenticator) (data : Data),
      (E.matchPitToken = false ∨
        (a.m_state ≠ Authenticator.State.WaitPakeResponse ∧
          a.m_state ≠ Authenticator.State.WaitConfirmResponse ∧
          a.m_state ≠ Authenticator.State.WaitCredentialResponse)) →
        Authenticator.processData L E a data = (false, a, [])) ∧
    (∀ (d : Device) (data : Data),
      (E.matchPitToken = false ∨
        (d.m_state ≠ Device.State.WaitCaProfile ∧
          d.m_state ≠ Device.State.WaitAuthenticatorCert ∧
          d.m_state ≠ Device.State.WaitTempCert)) →
        Device.processData L E d data = (false, d, [])) ∧
    (∀ (d : Device) (interest : Interest),
      (d.m_state ≠ Device.State.WaitPakeRequest ∧
        d.m_state ≠ Device.State.WaitConfirmRequest ∧
        d.m_state ≠ Device.State.WaitCredentialRequest) →
        Device.processInterest L E d interest = (false, d, [])) := by
  refine ⟨?_, ?_, ?_⟩
  · intro a data h
    unfold Authenticator.processData
    rcases h with h | ⟨h1, h2, h3⟩
    · simp [h]
    · split
      · rfl
      · cases hs : a.m_state <;> simp_all
  · intro d data h
    unfold Device.processData
    rcases h with h | ⟨h1, h2, h3⟩
    · simp [h]
    · split
      · rfl
      · cases hs : d.m_state <;> simp_all
  · intro d interest h
    obtain ⟨h1, h2, h3⟩ := h
    unfold Device.processInterest
    cases hs : d.m_state <;> simp_all

set_option maxRecDepth 100000 in
/-- C16 (counterexample). After a session that issued a temp certificate and a
call of `end()`, the Authenticator is `Idle` and still holds `m_issued`, and
`processInterest` serves it; after a session that generated the temp key pair
and a call of `end()`, the Device is `Idle` and still holds `m_tPvt`, `m_tPub`
and the three stored names. -/
theorem end_keeps_session_material :
    Toy.authEnded.m_state = Authenticator.State.Idle ∧
    Toy.authEnded.m_issued.isSome = true ∧
    Authenticator.processInterest Toy.lib Toy.env Toy.authEnded Toy.issuedInterest =
      (true, Toy.authEnded, [Event.reply Toy.authEnded.m_issued true]) ∧
    Toy.devEnded.m_state = Device.State.Idle ∧
    Toy.devEnded.m_tPvt.isSome = true ∧
    Toy.devEnded.m_tPub.isSome = true ∧
    Toy.devEnded.m_caProfileName ≠ [] ∧
    Toy.devEnded.m_authenticatorCertName ≠ [] ∧
    Toy.devEnded.m_deviceName ≠ [] := by
  decide

/-- C16 (amended). For every state of either endpoint, after `end()` the state
is `Idle`, the SPAKE2 context is absent, the Encrypt Session is ended (it holds
no session identifier and no key) and the long-lived arena is reset. -/
theorem end_resets_session (a : Authenticator) (d : Device) :
    (a.end.m_state = Authenticator.State.Idle ∧
      a.end.m_spake2 = none ∧
      a.end.m_session = a.m_session.end ∧
      a.end.m_session.key = none ∧
      a.end.m_session.sessionId = none ∧
      a.end.m_region = a.m_region.reset ∧
      a.end.m_region.used = 0) ∧
    (d.end.m_state = Device.State.Idle ∧
      d.end.m_spake2 = none ∧
      d.end.m_session = d.m_session.end ∧
      d.end.m_session.key = none ∧
      d.end.m_session.sessionId = none ∧
      d.end.m_region = d.m_region.reset ∧
      d.end.m_region.used = 0) := by
  simp [Authenticator.end, Device.end, EncryptSession.end, Region.reset]

section helpers

theorem Authenticator.auth_end_begin (E : Env) (a : Authenticator) (P : Bytes) :
    (a.begin E P).2.end = a.end := by
  simp only [Authenticator.begin, Authenticator.end, EncryptSession.begin, EncryptSession.end,
    Region.reset]
  repeat' split
  all_goals rfl

theorem Authenticator.auth_begin_end (E : Env) (a : Authenticator) (P : Bytes) :
    a.end.begin E P = a.begin E P := by
  simp only [Authenticator.begin, Authenticator.end, EncryptSession.end, Region.reset]

theorem Device.dev_end_begin (E : Env) (d : Device) (P : Bytes) : (d.begin E P).2.end = d.end := by
  simp only [Device.begin, Device.end, EncryptSession.end, Region.reset]
  repeat' split
  all_goals rfl

theorem Device.dev_begin_end (E : Env) (d : Device) (P : Bytes) : d.end.begin E P = d.begin E P := by
  simp only [Device.begin, Device.end, EncryptSession.end, Region.reset]

end helpers

/-- C17. `begin` is a restart. For every state of either endpoint, passwords
`P1`, `P2` and outcomes of the external calls, `begin(P1)` followed by
`begin(P2)` gives the return value and the endpoint that `end()` followed by
`begin(P2)` gives, the second `begin` seeing the same outcomes in both runs;
`begin` returns `true` exactly when the resulting state is `SendPakeRequest`
(Authenticator) or `WaitPakeRequest` (Device), and the state is `Idle` when it
returns `false`. -/
theorem begin_is_restart (E1 E2 : Env) (P1 P2 : Bytes) :
    (∀ a : Authenticator,
      (a.begin E1 P1).2.begin E2 P2 = a.end.begin E2 P2 ∧
      ((a.begin E2 P2).1 = true ↔
        (a.begin E2 P2).2.m_state = Authenticator.State.SendPakeRequest) ∧
      ((a.begin E2 P2).1 = false → (a.begin E2 P2).2.m_state = Authenticator.State.Idle)) ∧
    (∀ d : Device,
      (d.begin E1 P1).2.begin E2 P2 = d.end.begin E2 P2 ∧
      ((d.begin E2 P2).1 = true ↔ (d.begin E2 P2).2.m_state = Device.State.WaitPakeRequest) ∧
      ((d.begin E2 P2).1 = false → (d.begin E2 P2).2.m_state = Device.State.Idle)) := by
  constructor
  · intro a
    refine ⟨?_, ?_, ?_⟩
    · rw [← Authenticator.auth_begin_end E2 (a.begin E1 P1).2, Authenticator.auth_end_begin]
    · simp only [Authenticator.begin, Authenticator.end, EncryptSession.begin]
      repeat' split
      all_goals simp_all
    · simp only [Authenticator.begin, Authenticator.end, EncryptSession.begin]
      repeat' split
      all_goals simp_all
  · intro d
    refine ⟨?_, ?_, ?_⟩
    · rw [← Device.dev_begin_end E2 (d.begin E1 P1).2, Device.dev_end_begin]
    · simp only [Device.begin, Device.end]
      repeat' split
      all_goals simp_all
    · simp only [Device.begin, Device.end]
      repeat' split
      all_goals simp_all

section helpers

theorem arrayOf_eq_self (n : Nat) (b : Bytes) (h : b.length = n) : arrayOf n b = b := by
  simp [arrayOf, ← h]

end helpers

/-- C18. PAKE message round trip. With distinct TLV-TYPE numbers and the arena
having room (the encoder does not overflow and the packet is created): for
every PakeRequest value `r` (its `spake2T` filling the fixed-size array) and
session, `Authenticator::PakeRequest::toInterest` produces an Interest and
`Device::PakeRequest::fromInterest` decodes it to `spake2T = r.spake2T`; for
every PakeResponse value `p` and request Interest,
`Device::PakeResponse::toData` produces a Data and
`Authenticator::PakeResponse::fromData` decodes it to `spake2S` and
`spake2Fkcb` equal to those of `p`. -/
theorem pake_round_trip (L : Lib) (E : Env) (hinj : Function.Injective L.tt)
    (henc : E.encoderOk = true) (hi : E.createInterest = true) (hd : E.createData = true) :
    (∀ (r : packet_struct.PakeRequest) (session : EncryptSession),
      r.spake2T.length = L.sizeofSpake2T →
        ∃ interest, Authenticator.PakeRequest.toInterest L E r session = some interest ∧
          Device.PakeRequest.fromInterest L interest = some r) ∧
    (∀ (p : packet_struct.PakeResponse) (pakeRequest : Interest),
      p.spake2S.length = L.sizeofSpake2S → p.spake2Fkcb.length = L.sizeofSpake2Fkcb →
        ∃ data, Device.PakeResponse.toData L E p pakeRequest = some data ∧
          Authenticator.PakeResponse.fromData L data = some p) := by
  constructor
  · intro r session hr
    refine ⟨Interest.parameterize L (session.makeName L L.getPakeComponent)
      ⟨[⟨L.tt .Spake2T, arrayOf L.sizeofSpake2T r.spake2T⟩], true⟩,
      by simp [Authenticator.PakeRequest.toInterest, henc, hi], ?_⟩
    simp [Device.PakeRequest.fromInterest, Interest.parameterize, EvDecoder.decodeValue,
      EvDecoder.decodeElements, Tlv.length, arrayOf_length, arrayOf_eq_self _ _ hr, hr]
  · intro p pakeRequest hs hf
    refine ⟨Data.signNull L pakeRequest.name
      ⟨[⟨L.tt .Spake2S, arrayOf L.sizeofSpake2S p.spake2S⟩,
        ⟨L.tt .Spake2Fkcb, arrayOf L.sizeofSpake2Fkcb p.spake2Fkcb⟩], true⟩,
      by simp [Device.PakeResponse.toData, henc, hd], ?_⟩
    simp [Authenticator.PakeResponse.fromData, Data.signNull, EvDecoder.decodeValue,
      EvDecoder.decodeElements, Tlv.length, arrayOf_length, arrayOf_eq_self _ _ hs,
      arrayOf_eq_self _ _ hf, hinj.eq_iff, hs, hf]

set_option maxRecDepth 100000 in
theorem pake_round_trip_witness :
    (∃ interest, Authenticator.PakeRequest.toInterest Toy.lib Toy.env ⟨[1, 2]⟩
        ⟨some Toy.sessionId, none⟩ = some interest ∧
      Device.PakeRequest.fromInterest Toy.lib interest = some ⟨[1, 2]⟩) ∧
    (∃ data, Device.PakeResponse.toData Toy.lib Toy.env ⟨[1, 2], [3, 4]⟩ Toy.pakeInterest =
        some data ∧
      Authenticator.PakeResponse.fromData Toy.lib data = some ⟨[1, 2], [3, 4]⟩) :=
  ⟨(pake_round_trip Toy.lib Toy.env Toy.lib_lawful.tt_injective rfl rfl rfl).1 ⟨[1, 2]⟩
      ⟨some Toy.sessionId, none⟩ (by decide),
   (pake_round_trip Toy.lib Toy.env Toy.lib_lawful.tt_injective rfl rfl rfl).2 ⟨[1, 2], [3, 4]⟩
      Toy.pakeInterest (by decide) (by decide)⟩

set_option maxRecDepth 100000 in
/-- C19 (counterexample). The ConfirmRequest `Toy.confirmRequest` has timestamp
0 and names that end with an implicit digest; `toInterest` encodes it at time
1000000000 into `Toy.confirmInterest`; `fromInterest` followed by `decrypt`
under the same key succeeds and yields timestamp 1000000000, not 0. -/
theorem Device.confirm_round_trip_timestamp :
    endsWithDigest Toy.lib Toy.confirmRequest.caProfileName = true ∧
    endsWithDigest Toy.lib Toy.confirmRequest.authenticatorCertName = true ∧
    Toy.confirmRequest.timestamp = 0 ∧
    Authenticator.ConfirmRequest.toInterest Toy.lib Toy.env Toy.confirmRequest Toy.keyedSession =
      some Toy.confirmInterest ∧
    ((Device.ConfirmRequest.fromInterest Toy.lib Toy.confirmInterest).bind fun p =>
        Device.ConfirmRequest.decrypt Toy.lib Toy.env p.1 p.2 Toy.keyedSession) =
      some { Toy.confirmRequest with timestamp := 1000000000 } ∧
    ((Device.ConfirmRequest.fromInterest Toy.lib Toy.confirmInterest).bind fun p =>
        Device.ConfirmRequest.decrypt Toy.lib Toy.env p.1 p.2 Toy.keyedSession) ≠
      some Toy.confirmRequest := by
  decide

/-- C19 (amended). With a lawful library, for every ConfirmRequest value `c`
whose `spake2Fkca` fills the fixed-size array and whose `caProfileName` and
`authenticatorCertName` end with an implicit-digest component, with both
sessions holding the same key and decryption inverting encryption: whenever
`Authenticator::ConfirmRequest::toInterest(c)` produces an Interest,
`Device::ConfirmRequest::fromInterest` followed by `decrypt` succeeds on it and
yields `spake2Fkca`, `nc`, `caProfileName`, `authenticatorCertName` and
`deviceName` equal to those of `c`, and `timestamp` equal to the time at which
the request was encoded (`TimeValue()`, as a 64-bit number). -/
theorem Device.confirm_round_trip (L : Lib) (E1 E2 : Env) (hL : L.Lawful)
    (c : packet_struct.ConfirmRequest) (s1 s2 : EncryptSession) (interest : Interest)
    (hfk : c.spake2Fkca.length = L.sizeofSpake2Fkca)
    (hca : endsWithDigest L c.caProfileName = true)
    (hau : endsWithDigest L c.authenticatorCertName = true)
    (hkey : s1.key = s2.key)
    (hdec : ∀ (t1 t2 : EncryptSession) pt enc, t1.key = t2.key →
      E1.encrypt t1 pt = some enc → E2.decrypt t2 enc = some ⟨pt, true⟩)
    (hint : Authenticator.ConfirmRequest.toInterest L E1 c s1 = some interest) :
    ∃ req enc, Device.ConfirmRequest.fromInterest L interest = some (req, enc) ∧
      Device.ConfirmRequest.decrypt L E2 req enc s2 =
        some { c with timestamp := E1.timeValue % 2 ^ 64 } := by
  unfold Authenticator.ConfirmRequest.toInterest at hint
  simp only [-Nat.reducePow] at hint
  cases he : E1.encrypt s1
      [ ⟨L.tt .Nc, c.nc⟩,
        ⟨L.tt .CaProfileName, L.encodeName c.caProfileName⟩,
        ⟨L.tt .AuthenticatorCertName, L.encodeName c.authenticatorCertName⟩,
        ⟨L.tt .DeviceName, L.encodeName c.deviceName⟩,
        ⟨L.tt .TimestampNameComponent, L.encodeNni (E1.timeValue % 2 ^ 64)⟩ ] with
  | none => simp [-Nat.reducePow, he] at hint
  | some enc =>
    simp only [-Nat.reducePow, he] at hint
    split at hint
    · exact absurd hint (by simp)
    · cases hint
      have h1 := Device.ConfirmRequest.confirmRequest_decodes L hL
        (s1.makeName L L.getConfirmComponent ++
          [L.paramsDigest ⟨⟨L.tt .Spake2Fkca, arrayOf L.sizeofSpake2Fkca c.spake2Fkca⟩ ::
            enc.encode L, true⟩])
        (arrayOf L.sizeofSpake2Fkca c.spake2Fkca) enc (arrayOf_length _ _)
      refine ⟨_, enc, h1, ?_⟩
      have h2 := Device.ConfirmRequest.confirmRequest_decrypts L E2 hL
        { spake2Fkca := arrayOf L.sizeofSpake2Fkca c.spake2Fkca, nc := [], caProfileName := [],
          authenticatorCertName := [], deviceName := [], timestamp := 0 }
        enc s2 c.nc c.caProfileName c.authenticatorCertName c.deviceName
        (E1.timeValue % 2 ^ 64) (Nat.mod_lt _ (by positivity)) hca hau
        (hdec s1 s2 _ enc hkey he)
      rw [h2, arrayOf_eq_self _ _ hfk]

set_option maxRecDepth 100000 in
theorem Device.confirm_round_trip_witness :
    ∃ req enc, Device.ConfirmRequest.fromInterest Toy.lib Toy.confirmInterest = some (req, enc) ∧
      Device.ConfirmRequest.decrypt Toy.lib Toy.env req enc Toy.keyedSession =
        some { Toy.confirmRequest with timestamp := Toy.env.timeValue % 2 ^ 64 } :=
  Device.confirm_round_trip Toy.lib Toy.env Toy.env Toy.lib_lawful Toy.confirmRequest
    Toy.keyedSession Toy.keyedSession Toy.confirmInterest (by decide) (by decide) (by decide) rfl
    (fun t1 t2 pt enc hk he => Toy.agrees.decrypt_encrypt 0 0 t1 t2 pt enc hk he) (by decide)

section helpers

theorem Device.sendFetchInterest_result (E : Env) (d : Device) (name : Name)
    (next : Device.State) :
    (E.createInterest = false →
      Device.sendFetchInterest E d name next =
        ({ d with m_state := Device.State.Failure }, [])) ∧
    (E.createInterest = true →
      Device.sendFetchInterest E d name next =
        ({ d with
            m_state :=
              if E.pendingSend (some ⟨name, ⟨[], true⟩⟩)
                  (some d.m_lastInterestPacketInfo.endpointId) then next
              else Device.State.Failure },
         [Event.pendingSend (some ⟨name, ⟨[], true⟩⟩)
            (some d.m_lastInterestPacketInfo.endpointId)
            (E.pendingSend (some ⟨name, ⟨[], true⟩⟩)
              (some d.m_lastInterestPacketInfo.endpointId))])) := by
  unfold Device.sendFetchInterest
  simp only [Device.GotoState.call, Device.GotoState.destroy]
  constructor
  · intro hc
    simp [hc]
  · intro hc
    by_cases hs : E.pendingSend (some ⟨name, ⟨[], true⟩⟩)
        (some d.m_lastInterestPacketInfo.endpointId) = true
    · simp [hc, hs]
    · simp [hc, hs]

end helpers

/-- C20. Commit-on-success for send steps, in terms of the outcomes of the
external calls. A `loop()` call of the Authenticator in `SendPakeRequest` runs
`generateFirstMessage`; if that fails nothing is sent and the state is
`Failure`; otherwise the PakeRequest built from its output is handed to
`m_pending.send` and the state is `WaitPakeResponse` if the send succeeds and
`Failure` if it does not. In `SendCredentialRequest`, if the full name of
`m_issued` is not computed nothing is sent and the state is `Failure`; otherwise
the CredentialRequest for that name is handed to `m_pending.send` and the state
is `WaitCredentialResponse` if the send succeeds and `Failure` if it does not.
A `loop()` call of the Device in `FetchCaProfile`, `FetchAuthenticatorCert` or
`FetchTempCert`: if the Interest is not created nothing is sent and the state
is `Failure`; otherwise the Interest for the stored name is handed to
`m_pending.send` with the endpoint of the last Interest, and the state is
`WaitCaProfile`, `WaitAuthenticatorCert` or `WaitTempCert` if the send succeeds
and `Failure` if it does not. No other member changes, and in no case does the
endpoint remain in the state it was in. -/
theorem send_steps_commit (L : Lib) (E : Env) :
    (∀ a : Authenticator, a.m_state = Authenticator.State.SendPakeRequest →
      (a.m_spake2.bind E.generateFirstMessage = none →
        a.loop L E = ({ a with m_state := Authenticator.State.Failure },
          [Event.spake2 .generateFirstMessage false])) ∧
      (∀ t, a.m_spake2.bind E.generateFirstMessage = some t →
        a.loop L E =
          ({ a with
              m_state :=
                if E.pendingSend (Authenticator.PakeRequest.toInterest L E
                    { spake2T := arrayOf L.sizeofSpake2T t } a.m_session) none
                then Authenticator.State.WaitPakeResponse else Authenticator.State.Failure },
           [Event.spake2 .generateFirstMessage true,
            Event.pendingSend (Authenticator.PakeRequest.toInterest L E
                { spake2T := arrayOf L.sizeofSpake2T t } a.m_session) none
              (E.pendingSend (Authenticator.PakeRequest.toInterest L E
                { spake2T := arrayOf L.sizeofSpake2T t } a.m_session) none)])) ∧
      (a.loop L E).1.m_state ≠ Authenticator.State.SendPakeRequest) ∧
    (∀ a : Authenticator, a.m_state = Authenticator.State.SendCredentialRequest →
      ((a.m_issued.map (getFullName L E)).getD [] = [] →
        a.loop L E = ({ a with m_state := Authenticator.State.Failure }, [])) ∧
      ((a.m_issued.map (getFullName L E)).getD [] ≠ [] →
        a.loop L E =
          ({ a with
              m_state :=
                if E.pendingSend (Authenticator.CredentialRequest.toInterest L E
                    { tempCertName := (a.m_issued.map (getFullName L E)).getD [] }
                    a.m_session) none
                then Authenticator.State.WaitCredentialResponse
                else Authenticator.State.Failure },
           [Event.pendingSend (Authenticator.CredentialRequest.toInterest L E
                { tempCertName := (a.m_issued.map (getFullName L E)).getD [] } a.m_session) none
              (E.pendingSend (Authenticator.CredentialRequest.toInterest L E
                { tempCertName := (a.m_issued.map (getFullName L E)).getD [] }
                a.m_session) none)])) ∧
      (a.loop L E).1.m_state ≠ Authenticator.State.SendCredentialRequest) ∧
    (∀ d : Device, d.m_state = Device.State.FetchCaProfile →
      (E.createInterest = false →
        d.loop E = ({ d with m_state := Device.State.Failure }, [])) ∧
      (E.createInterest = true →
        d.loop E =
          ({ d with
              m_state :=
                if E.pendingSend (some ⟨d.m_caProfileName, ⟨[], true⟩⟩)
                    (some d.m_lastInterestPacketInfo.endpointId)
                then Device.State.WaitCaProfile else Device.State.Failure },
           [Event.pendingSend (some ⟨d.m_caProfileName, ⟨[], true⟩⟩)
              (some d.m_lastInterestPacketInfo.endpointId)
              (E.pendingSend (some ⟨d.m_caProfileName, ⟨[], true⟩⟩)
                (some d.m_lastInterestPacketInfo.endpointId))])) ∧
      (d.loop E).1.m_state ≠ Device.State.FetchCaProfile) ∧
    (∀ d : Device, d.m_state = Device.State.FetchAuthenticatorCert →
      (E.createInterest = false →
        d.loop E = ({ d with m_state := Device.State.Failure }, [])) ∧
      (E.createInterest = true →
        d.loop E =
          ({ d with
              m_state :=
                if E.pendingSend (some ⟨d.m_authenticatorCertName, ⟨[], true⟩⟩)
                    (some d.m_lastInterestPacketInfo.endpointId)
                then Device.State.WaitAuthenticatorCert else Device.State.Failure },
           [Event.pendingSend (some ⟨d.m_authenticatorCertName, ⟨[], true⟩⟩)
              (some d.m_lastInterestPacketInfo.endpointId)
              (E.pendingSend (some ⟨d.m_authenticatorCertName, ⟨[], true⟩⟩)
                (some d.m_lastInterestPacketInfo.endpointId))])) ∧
      (d.loop E).1.m_state ≠ Device.State.FetchAuthenticatorCert) ∧
    (∀ d : Device, d.m_state = Device.State.FetchTempCert →
      (E.createInterest = false →
        d.loop E = ({ d with m_state := Device.State.Failure }, [])) ∧
      (E.createInterest = true →
        d.loop E =
          ({ d with
              m_state :=
                if E.pendingSend (some ⟨d.m_tempCertName, ⟨[], true⟩⟩)
                    (some d.m_lastInterestPacketInfo.endpointId)
                then Device.State.WaitTempCert else Device.State.Failure },
           [Event.pendingSend (some ⟨d.m_tempCertName, ⟨[], true⟩⟩)
              (some d.m_lastInterestPacketInfo.endpointId)
              (E.pendingSend (some ⟨d.m_tempCertName, ⟨[], true⟩⟩)
                (some d.m_lastInterestPacketInfo.endpointId))])) ∧
      (d.loop E).1.m_state ≠ Device.State.FetchTempCert) := by
  refine ⟨?_, ?_, ?_, ?_, ?_⟩
  · intro a hs
    simp only [Authenticator.loop, hs, Authenticator.sendPakeRequest,
      Authenticator.GotoState.call, Authenticator.GotoState.destroy]
    cases hg : a.m_spake2.bind E.generateFirstMessage with
    | none => simp
    | some t =>
      by_cases hp : E.pendingSend (Authenticator.PakeRequest.toInterest L E
          { spake2T := arrayOf L.sizeofSpake2T t } a.m_session) none = true
      · simp [hp]
      · simp [hp]
  · intro a hs
    simp only [Authenticator.loop, hs, Authenticator.sendCredentialRequest,
      Authenticator.GotoState.call, Authenticator.GotoState.destroy]
    by_cases hn : (a.m_issued.map (getFullName L E)).getD [] = []
    · simp [hn]
    · have hn2 : ((a.m_issued.map (getFullName L E)).getD []).isEmpty = false := by
        simpa [List.isEmpty_iff] using hn
      simp only [hn2, Bool.false_eq_true, if_false]
      by_cases hp : E.pendingSend (Authenticator.CredentialRequest.toInterest L E
          { tempCertName := (a.m_issued.map (getFullName L E)).getD [] } a.m_session) none = true
      · simp [hp, hn]
      · simp [hp, hn]
  · intro d hs
    simp only [Device.loop, hs]
    have h := Device.sendFetchInterest_result E d d.m_caProfileName Device.State.WaitCaProfile
    refine ⟨h.1, h.2, ?_⟩
    by_cases hc : E.createInterest = true
    · rw [h.2 hc]; simp only; split <;> simp
    · rw [h.1 (by simpa using hc)]; simp
  · intro d hs
    simp only [Device.loop, hs]
    have h := Device.sendFetchInterest_result E d d.m_authenticatorCertName
      Device.State.WaitAuthenticatorCert
    refine ⟨h.1, h.2, ?_⟩
    by_cases hc : E.createInterest = true
    · rw [h.2 hc]; simp only; split <;> simp
    · rw [h.1 (by simpa using hc)]; simp
  · intro d hs
    simp only [Device.loop, hs]
    have h := Device.sendFetchInterest_result E d d.m_tempCertName Device.State.WaitTempCert
    refine ⟨h.1, h.2, ?_⟩
    by_cases hc : E.createInterest = true
    · rw [h.2 hc]; simp only; split <;> simp
    · rw [h.1 (by simpa using hc)]; simp

set_option maxRecDepth 100000 in
theorem send_steps_commit_witness :
    Toy.authBegun.loop Toy.lib Toy.env =
      ({ Toy.authBegun with m_state := Authenticator.State.WaitPakeResponse },
       [Event.spake2 .generateFirstMessage true,
        Event.pendingSend (some Toy.pakeInterest) none true]) ∧
    (Toy.authBegun.loop Toy.lib Toy.envNoSend).1.m_state = Authenticator.State.Failure ∧
    Toy.authBegun.loop Toy.lib Toy.envNoFirstMessage =
      ({ Toy.authBegun with m_state := Authenticator.State.Failure },
       [Event.spake2 .generateFirstMessage false]) ∧
    (Toy.authIssued.loop Toy.lib Toy.env).1.m_state =
      Authenticator.State.WaitCredentialResponse ∧
    (Toy.authIssued.loop Toy.lib Toy.envNoSend).1.m_state = Authenticator.State.Failure ∧
    Toy.devFetchCa.loop Toy.env =
      ({ Toy.devFetchCa with m_state := Device.State.WaitCaProfile },
       [Event.pendingSend (some ⟨Toy.devFetchCa.m_caProfileName, ⟨[], true⟩⟩) (some 7) true]) ∧
    (Toy.devFetchCa.loop Toy.envNoSend).1.m_state = Device.State.Failure ∧
    Toy.devFetchCa.loop Toy.envNoInterest =
      ({ Toy.devFetchCa with m_state := Device.State.Failure }, []) := by
  refine ⟨?_, ?_, ?_, ?_, ?_, ?_, ?_, ?_⟩
  · rw [((send_steps_commit Toy.lib Toy.env).1 Toy.authBegun (by decide)).2.1 [1, 2]
      (by decide)]
    decide
  · rw [((send_steps_commit Toy.lib Toy.envNoSend).1 Toy.authBegun (by decide)).2.1 [1, 2]
      (by decide)]
    decide
  · exact ((send_steps_commit Toy.lib Toy.envNoFirstMessage).1 Toy.authBegun (by decide)).1
      (by decide)
  · rw [((send_steps_commit Toy.lib Toy.env).2.1 Toy.authIssued (by decide)).2.1 (by decide)]
    decide
  · rw [((send_steps_commit Toy.lib Toy.envNoSend).2.1 Toy.authIssued (by decide)).2.1
      (by decide)]
    decide
  · rw [((send_steps_commit Toy.lib Toy.env).2.2.1 Toy.devFetchCa (by decide)).2.1 (by decide)]
    decide
  · rw [((send_steps_commit Toy.lib Toy.envNoSend).2.2.1 Toy.devFetchCa (by decide)).2.1
      (by decide)]
    decide
  · exact ((send_steps_commit Toy.lib Toy.envNoInterest).2.2.1 Toy.devFetchCa (by decide)).1
      (by decide)

section helpers

theorem Authenticator.auth_membersPresent_step (L : Lib) (E : Env) (a : Authenticator)
    (op : Authenticator.Op) (h : a.membersPresent) :
    (Authenticator.step L E a op).1.membersPresent := by
  obtain ⟨h1, h2⟩ := h
  unfold Authenticator.membersPresent
  cases op with
  | begin pw =>
    simp only [Authenticator.step, Authenticator.begin, Authenticator.end, EncryptSession.begin]
    repeat' split
    all_goals simp_all
  | «end» => simp [Authenticator.step, Authenticator.end]
  | loop =>
    simp only [Authenticator.step, Authenticator.loop]
    cases hs : a.m_state <;> simp only [hs, reduceCtorEq, or_false, false_or, or_self,
      false_implies, true_implies] at h1 h2 ⊢
    all_goals
      try simp only [Authenticator.sendPakeRequest, Authenticator.sendCredentialRequest,
        Authenticator.GotoState.call, Authenticator.GotoState.destroy]
      repeat' split
      all_goals simp_all
  | processData data =>
    simp only [Authenticator.step, Authenticator.processData]
    split
    · exact ⟨h1, h2⟩
    · cases hs : a.m_state <;> simp only [hs, reduceCtorEq, or_false, false_or, or_self,
        false_implies, true_implies] at h1 h2 ⊢
      case WaitPakeResponse =>
        unfold Authenticator.handlePakeResponse
        split
        · simp_all
        · generalize Authenticator.pakeResponseSteps L E a _ = p
          obtain ⟨ok, fkca, session, ev⟩ := p
          simp only [Authenticator.GotoState.call, Authenticator.GotoState.destroy]
          repeat' split
          all_goals simp_all
      case WaitConfirmResponse =>
        simp only [Authenticator.handleConfirmResponse, Authenticator.GotoState.call,
          Authenticator.GotoState.destroy]
        repeat' split
        all_goals simp_all
      all_goals simp_all
  | processInterest interest =>
    simp only [Authenticator.step, Authenticator.processInterest]
    repeat' split
    all_goals exact ⟨h1, h2⟩

theorem Authenticator.auth_exec_fst (L : Lib) (ops : List (Env × Authenticator.Op))
    (a : Authenticator) (log1 log2 : List Event) :
    (Authenticator.exec L (a, log1) ops).1 = (Authenticator.exec L (a, log2) ops).1 := by
  induction ops generalizing a log1 log2 with
  | nil => rfl
  | cons p ps ih =>
    obtain ⟨E, op⟩ := p
    cases op <;> simp only [Authenticator.exec] <;> exact ih _ _ _

theorem Authenticator.auth_membersPresent_exec (L : Lib) (ops : List (Env × Authenticator.Op))
    (a : Authenticator) (h : a.membersPresent) :
    (Authenticator.exec L (a, []) ops).1.membersPresent := by
  induction ops generalizing a with
  | nil => exact h
  | cons p ps ih =>
    obtain ⟨E, op⟩ := p
    have hstep : (Authenticator.exec L (a, []) ((E, op) :: ps)).1 =
        (Authenticator.exec L ((Authenticator.step L E a op).1, []) ps).1 := by
      cases op <;> simp only [Authenticator.exec] <;> exact Authenticator.auth_exec_fst L ps _ _ _
    rw [hstep]
    exact ih _ (Authenticator.auth_membersPresent_step L E a op h)

theorem Device.dev_membersPresent_step (L : Lib) (E : Env) (d : Device) (op : Device.Op)
    (h : d.membersPresent) : (Device.step L E d op).1.membersPresent := by
  unfold Device.membersPresent at h ⊢
  cases op with
  | begin pw =>
    simp only [Device.step, Device.begin, Device.end]
    repeat' split
    all_goals simp_all
  | «end» => simp [Device.step, Device.end]
  | loop =>
    simp only [Device.step, Device.loop]
    cases hs : d.m_state <;> simp only [hs, reduceCtorEq, or_false, false_or, or_self,
      false_implies, true_implies] at h ⊢
    all_goals
      try simp only [Device.sendFetchInterest, Device.GotoState.call, Device.GotoState.destroy]
      repeat' split
      all_goals simp_all
  | processData data =>
    simp only [Device.step, Device.processData]
    split
    · exact h
    · cases hs : d.m_state <;> simp only [hs, reduceCtorEq, or_false, false_or, or_self,
        false_implies, true_implies] at h ⊢
      all_goals
        try simp only [Device.handleCaProfile, Device.handleAuthenticatorCert,
          Device.handleTempCert, Device.GotoState.call, Device.GotoState.destroy]
        repeat' split
        all_goals simp_all
  | processInterest interest =>
    simp only [Device.step, Device.processInterest]
    cases hs : d.m_state <;> simp only [hs, reduceCtorEq, or_false, false_or, or_self,
      false_implies, true_implies] at h ⊢
    case WaitPakeRequest =>
      have hst := Device.checkInterestVerb_state L E d interest L.getPakeComponent
      have hsp := Device.checkInterestVerb_spake2 L E d interest L.getPakeComponent
      unfold Device.handlePakeRequest
      generalize Device.checkInterestVerb L E d interest L.getPakeComponent = r at hst hsp ⊢
      obtain ⟨ok, d1⟩ := r
      simp only at hst hsp ⊢
      generalize Device.pakeRequestSteps L E d1 interest = p
      obtain ⟨ok2, ev⟩ := p
      simp only [Device.GotoState.call, Device.GotoState.destroy]
      repeat' split
      all_goals simp_all
    case WaitConfirmRequest =>
      have hst := Device.checkInterestVerb_state L E d interest L.getConfirmComponent
      have hsp := Device.checkInterestVerb_spake2 L E d interest L.getConfirmComponent
      unfold Device.handleConfirmRequest
      generalize Device.checkInterestVerb L E d interest L.getConfirmComponent = r at hst hsp ⊢
      obtain ⟨ok, d1⟩ := r
      simp only at hst hsp
      simp only [EncryptSession.importKey, Device.saveCurrentInterest, Device.GotoState.call,
        Device.GotoState.destroy]
      repeat' split
      all_goals simp_all
    case WaitCredentialRequest =>
      have hst := Device.checkInterestVerb_state L E d interest L.getCredentialComponent
      unfold Device.handleCredentialRequest
      generalize Device.checkInterestVerb L E d interest L.getCredentialComponent = r at hst ⊢
      obtain ⟨ok, d1⟩ := r
      simp only at hst
      simp only [Device.saveCurrentInterest, Device.GotoState.call, Device.GotoState.destroy]
      repeat' split
      all_goals simp_all

theorem Device.dev_membersPresent_exec (L : Lib) (ops : List (Env × Device.Op)) (d : Device)
    (h : d.membersPresent) : (Device.exec L (d, []) ops).1.membersPresent := by
  induction ops generalizing d with
  | nil => exact h
  | cons p ps ih =>
    obtain ⟨E, op⟩ := p
    have hstep : (Device.exec L (d, []) ((E, op) :: ps)).1 =
        (Device.exec L ((Device.step L E d op).1, []) ps).1 := by
      cases op <;> simp only [Device.exec] <;> exact Device.exec_fst L ps _ _ _
    rw [hstep]
    exact ih _ (Device.dev_membersPresent_step L E d op h)

end helpers

/-- C21. The SPAKE2 context is never dereferenced while absent. In every state
reachable from construction by any sequence of `begin`, `end`, `loop`,
`processData` and `processInterest` calls, whatever the outcomes of the external
calls: if the Authenticator state is `SendPakeRequest` or `WaitPakeResponse`
then `m_spake2` is present, and if it is `SendCredentialRequest` or
`WaitCredentialResponse` then `m_issued` is present; if the Device state is
`WaitPakeRequest` or `WaitConfirmRequest` then `m_spake2` is present. -/
theorem members_present_when_dereferenced (L : Lib) :
    (∀ (opts : Authenticator.Options) (ops : List (Env × Authenticator.Op)),
      (((Authenticator.exec L (Authenticator.new opts, []) ops).1.m_state =
            Authenticator.State.SendPakeRequest ∨
          (Authenticator.exec L (Authenticator.new opts, []) ops).1.m_state =
            Authenticator.State.WaitPakeResponse) →
        (Authenticator.exec L (Authenticator.new opts, []) ops).1.m_spake2.isSome = true) ∧
      (((Authenticator.exec L (Authenticator.new opts, []) ops).1.m_state =
            Authenticator.State.SendCredentialRequest ∨
          (Authenticator.exec L (Authenticator.new opts, []) ops).1.m_state =
            Authenticator.State.WaitCredentialResponse) →
        (Authenticator.exec L (Authenticator.new opts, []) ops).1.m_issued.isSome = true)) ∧
    (∀ ops : List (Env × Device.Op),
      ((Device.exec L (Device.new, []) ops).1.m_state = Device.State.WaitPakeRequest ∨
        (Device.exec L (Device.new, []) ops).1.m_state = Device.State.WaitConfirmRequest) →
      (Device.exec L (Device.new, []) ops).1.m_spake2.isSome = true) := by
  constructor
  · intro opts ops
    exact Authenticator.auth_membersPresent_exec L ops (Authenticator.new opts)
      ⟨fun h => by simp [Authenticator.new] at h, fun h => by simp [Authenticator.new] at h⟩
  · intro ops
    exact Device.dev_membersPresent_exec L ops Device.new (fun h => by simp [Device.new] at h)

section helpers

theorem Authenticator.auth_loop_movesTo (L : Lib) (E : Env) (a : Authenticator) :
    a.m_state.movesTo (a.loop L E).1.m_state := by
  unfold Authenticator.State.movesTo
  simp only [Authenticator.loop]
  cases hs : a.m_state <;>
    simp only [Authenticator.sendPakeRequest, Authenticator.sendCredentialRequest,
      Authenticator.GotoState.call, Authenticator.GotoState.destroy]
  all_goals
    repeat' split
    all_goals simp_all [Authenticator.State.next]

theorem Authenticator.auth_processData_movesTo (L : Lib) (E : Env) (a : Authenticator) (data : Data) :
    a.m_state.movesTo (a.processData L E data).2.1.m_state := by
  unfold Authenticator.State.movesTo
  simp only [Authenticator.processData]
  split
  · simp
  · cases hs : a.m_state
    case WaitPakeResponse =>
      simp only
      unfold Authenticator.handlePakeResponse
      split
      · simp_all
      · generalize Authenticator.pakeResponseSteps L E a _ = p
        obtain ⟨ok, fkca, session, ev⟩ := p
        simp only [Authenticator.GotoState.call, Authenticator.GotoState.destroy]
        repeat' split
        all_goals simp_all [Authenticator.State.next]
    case WaitConfirmResponse =>
      simp only [Authenticator.handleConfirmResponse, Authenticator.GotoState.call,
        Authenticator.GotoState.destroy]
      repeat' split
      all_goals simp_all [Authenticator.State.next]
    all_goals simp_all [Authenticator.State.next]

theorem Authenticator.auth_processInterest_movesTo (L : Lib) (E : Env) (a : Authenticator)
    (interest : Interest) : a.m_state.movesTo (a.processInterest L E interest).2.1.m_state := by
  unfold Authenticator.State.movesTo
  simp only [Authenticator.processInterest]
  repeat' split
  all_goals simp

theorem Device.dev_loop_movesTo (E : Env) (d : Device) : d.m_state.movesTo (d.loop E).1.m_state := by
  unfold Device.State.movesTo
  simp only [Device.loop]
  cases hs : d.m_state <;>
    simp only [Device.sendFetchInterest, Device.GotoState.call, Device.GotoState.destroy]
  all_goals
    repeat' split
    all_goals simp_all [Device.State.next]

theorem Device.dev_processData_movesTo (L : Lib) (E : Env) (d : Device) (data : Data) :
    d.m_state.movesTo (d.processData L E data).2.1.m_state := by
  unfold Device.State.movesTo
  simp only [Device.processData]
  split
  · simp
  · cases hs : d.m_state <;>
      simp only [Device.handleCaProfile, Device.handleAuthenticatorCert,
        Device.handleTempCert, Device.GotoState.call, Device.GotoState.destroy]
    all_goals
      repeat' split
      all_goals simp_all [Device.State.next]

theorem Device.dev_processInterest_movesTo (L : Lib) (E : Env) (d : Device) (interest : Interest) :
    d.m_state.movesTo (d.processInterest L E interest).2.1.m_state := by
  unfold Device.State.movesTo
  simp only [Device.processInterest]
  cases hs : d.m_state
  case WaitPakeRequest =>
    have hst := Device.checkInterestVerb_state L E d interest L.getPakeComponent
    simp only
    unfold Device.handlePakeRequest
    generalize Device.checkInterestVerb L E d interest L.getPakeComponent = r at hst ⊢
    obtain ⟨ok, d1⟩ := r
    simp only at hst ⊢
    generalize Device.pakeRequestSteps L E d1 interest = p
    obtain ⟨ok2, ev⟩ := p
    simp only [Device.GotoState.call, Device.GotoState.destroy]
    repeat' split
    all_goals simp_all [Device.State.next]
  case WaitConfirmRequest =>
    have hst := Device.checkInterestVerb_state L E d interest L.getConfirmComponent
    simp only
    unfold Device.handleConfirmRequest
    generalize Device.checkInterestVerb L E d interest L.getConfirmComponent = r at hst ⊢
    obtain ⟨ok, d1⟩ := r
    simp only at hst
    simp only [EncryptSession.importKey, Device.saveCurrentInterest, Device.GotoState.call,
      Device.GotoState.destroy]
    repeat' split
    all_goals simp_all [Device.State.next]
  case WaitCredentialRequest =>
    have hst := Device.checkInterestVerb_state L E d interest L.getCredentialComponent
    simp only
    unfold Device.handleCredentialRequest
    generalize Device.checkInterestVerb L E d interest L.getCredentialComponent = r at hst ⊢
    obtain ⟨ok, d1⟩ := r
    simp only at hst
    simp only [Device.saveCurrentInterest, Device.GotoState.call, Device.GotoState.destroy]
    repeat' split
    all_goals simp_all [Device.State.next]
  all_goals simp [hs]

end helpers

/-- C22. States only move forward. For every call of `loop`, `processData` or
`processInterest` on either endpoint, whatever the outcomes of the external
calls, the state after the call is the state before it, the immediate successor
of that state in the protocol order, or `Failure`; and `Idle`, `Success` and
`Failure` are left unchanged by all three operations. -/
theorem states_move_forward (L : Lib) (E : Env) :
    (∀ a : Authenticator,
      a.m_state.movesTo (a.loop L E).1.m_state ∧
      (∀ data, a.m_state.movesTo (a.processData L E data).2.1.m_state) ∧
      (∀ interest, a.m_state.movesTo (a.processInterest L E interest).2.1.m_state)) ∧
    (∀ d : Device,
      d.m_state.movesTo (d.loop E).1.m_state ∧
      (∀ data, d.m_state.movesTo (d.processData L E data).2.1.m_state) ∧
      (∀ interest, d.m_state.movesTo (d.processInterest L E interest).2.1.m_state)) :=
  ⟨fun a => ⟨Authenticator.auth_loop_movesTo L E a, Authenticator.auth_processData_movesTo L E a,
      Authenticator.auth_processInterest_movesTo L E a⟩,
   fun d => ⟨Device.dev_loop_movesTo E d, Device.dev_processData_movesTo L E d,
      Device.dev_processInterest_movesTo L E d⟩⟩

end ndnob.pake
